import Mathlib

/-!
# Adaptive lighting: fade validation and interpolation

A shallow embedding of `validate.js` and of the handlers of
`adaptive-lighting.js` (node-red-adaptive-lighting), and the properties of the
validators (`SwitchOn`, `GetNowOffset`, `GetLocation`, `GetFades`), of the
interpolation (`Fade`) and of the node that runs them.

Conventions of the embedding:

* a `Date` is `JSDate`: its time value, an integer number of milliseconds, or
  an Invalid Date; the reference instant `now` is a valid date, an integer;
* the local time zone is a `Zone`: the offset from UTC may change with the
  instant (daylight saving time), and a zone at a fixed offset is `Zone.fixed`;
* the table `suntimes` is a plain object: its own properties are the named
  instants, and `in` also finds the names inherited from `Object.prototype`;
* a JavaScript number is `JSNum`: `NaN`, the two infinities, or a finite value
  held exactly as a rational (doubles are idealised, signed zeros are merged);
* an absent property (`!("k" in o)`) is `none`.
-/

namespace AdaptiveLighting

/-! ## Constants of `validate.js` -/

def MINIMUM_OFFSET_MINS : Int := -720
def MAXIMUM_OFFSET_MINS : Int := 720

def MAX_BRIGHTNESS : ℚ := 255
def MAX_BRIGHTNESS_PERCENT : ℚ := 100
def MIN_MIREDS : ℚ := 150
def MAX_MIREDS : ℚ := 500
def MIN_KELVIN : ℚ := 2000
def MAX_KELVIN : ℚ := 6500

def MAX_RGB : ℚ := 255
def MAX_HUE : ℚ := 360
def MAX_SAT : ℚ := 100
def MAX_XY : ℚ := 1

/-! ## ECMAScript time values -/

def msPerDay : Int := 86400000
def msPerHour : Int := 3600000
def msPerMinute : Int := 60000
def msPerSecond : Int := 1000

/-- ECMAScript `Day(t) = floor(t / msPerDay)`. -/
def Day (t : Int) : Int := t / msPerDay

/-- ECMAScript `TimeWithinDay(t) = t modulo msPerDay`. -/
def TimeWithinDay (t : Int) : Int := t % msPerDay

/-- ECMAScript `HourFromTime(t) = floor(t / msPerHour) modulo 24`. -/
def HourFromTime (t : Int) : Int := (t / msPerHour) % 24

/-- ECMAScript `MinFromTime(t) = floor(t / msPerMinute) modulo 60`. -/
def MinFromTime (t : Int) : Int := (t / msPerMinute) % 60

/-- ECMAScript `SecFromTime(t) = floor(t / msPerSecond) modulo 60`. -/
def SecFromTime (t : Int) : Int := (t / msPerSecond) % 60

/-- ECMAScript `msFromTime(t) = t modulo msPerSecond`. -/
def msFromTime (t : Int) : Int := t % msPerSecond

/-- ECMAScript `MakeTime(hour, min, sec, ms)`. -/
def MakeTime (hour min sec ms : Int) : Int :=
  hour * msPerHour + min * msPerMinute + sec * msPerSecond + ms

/-- ECMAScript `MakeDate(day, time)`. -/
def MakeDate (day time : Int) : Int := day * msPerDay + time

/-- The local time zone, by its offsets from UTC in milliseconds: `offsetUTC t`
is the offset in force at the instant `t`, and `offsetLocal t` is the offset by
which the local time value `t` is read back as an instant (at a local time that a
change of offset repeats or skips, the offset in force before the change). -/
structure Zone where
  offsetUTC : Int → Int
  offsetLocal : Int → Int

/-- The zone at the fixed offset `tza` (milliseconds added to UTC): no daylight
saving time, every local calendar day lasts `msPerDay` milliseconds. -/
def Zone.fixed (tza : Int) : Zone :=
  { offsetUTC := fun _ => tza, offsetLocal := fun _ => tza }

instance : Coe Int Zone := ⟨Zone.fixed⟩

instance (n : Nat) : OfNat Zone n := ⟨Zone.fixed n⟩

/-- ECMAScript `LocalTime(t)`: the local time value of the instant `t`. -/
def LocalTime (zone : Zone) (t : Int) : Int := t + zone.offsetUTC t

/-- ECMAScript `UTC(t)`: the instant of the local time value `t`. -/
def UTC (zone : Zone) (t : Int) : Int := t - zone.offsetLocal t

/-- The method `Date.prototype.setHours(hour)`. -/
def setHours (zone : Zone) (t hour : Int) : Int :=
  let lt := LocalTime zone t
  UTC zone (MakeDate (Day lt) (MakeTime hour (MinFromTime lt) (SecFromTime lt) (msFromTime lt)))

/-- The method `Date.prototype.getMinutes()`. -/
def getMinutes (zone : Zone) (t : Int) : Int := MinFromTime (LocalTime zone t)

/-- The method `Date.prototype.setMinutes(min)`. -/
def setMinutes (zone : Zone) (t min : Int) : Int :=
  let lt := LocalTime zone t
  UTC zone (MakeDate (Day lt) (MakeTime (HourFromTime lt) min (SecFromTime lt) (msFromTime lt)))

/-- The method `Date.prototype.setSeconds(sec)`. -/
def setSeconds (zone : Zone) (t sec : Int) : Int :=
  let lt := LocalTime zone t
  UTC zone (MakeDate (Day lt) (MakeTime (HourFromTime lt) (MinFromTime lt) sec (msFromTime lt)))

/-- The method `Date.prototype.setMilliseconds(ms)`. -/
def setMilliseconds (zone : Zone) (t ms : Int) : Int :=
  let lt := LocalTime zone t
  UTC zone (MakeDate (Day lt) (MakeTime (HourFromTime lt) (MinFromTime lt) (SecFromTime lt) ms))

/-- The idiom `d.setDate(d.getDate() + delta)`: `setDate` rebuilds the date from
`MakeDay(year, month, date)` and keeps `TimeWithinDay`; replacing the day of the
month `DateFromTime(t)` by `DateFromTime(t) + delta` moves `Day(t)` by `delta`. -/
def setDateRelative (zone : Zone) (t delta : Int) : Int :=
  let lt := LocalTime zone t
  UTC zone (MakeDate (Day lt + delta) (TimeWithinDay lt))

/-- JavaScript `Math.ceil` on a finite number. -/
def Math.ceil (x : ℚ) : Int := Int.ceil x

/-- JavaScript `Math.floor` on a finite number. -/
def Math.floor (x : ℚ) : Int := Int.floor x

/-! ## Anchor times in `GetFades` -/

/-- A `Date` object, by its time value: a number of milliseconds since the
epoch, or `NaN` (an Invalid Date). -/
inductive JSDate where
  | invalid
  | valid (t : Int)
  deriving DecidableEq

instance : Coe Int JSDate := ⟨JSDate.valid⟩

instance (n : Nat) : OfNat JSDate n := ⟨JSDate.valid n⟩

/-- The comparison `a < b` of two dates, that of their time values: false when
one of them is an Invalid Date. -/
def JSDate.lt : JSDate → JSDate → Prop
  | .valid x, .valid y => x < y
  | _, _ => False

/-- The comparison `a <= b` of two dates, that of their time values: false when
one of them is an Invalid Date. -/
def JSDate.le : JSDate → JSDate → Prop
  | .valid x, .valid y => x ≤ y
  | _, _ => False

/-- The date is not an Invalid Date. -/
def JSDate.isValid : JSDate → Bool
  | .valid _ => true
  | .invalid => false

instance : LT JSDate := ⟨JSDate.lt⟩

instance : LE JSDate := ⟨JSDate.le⟩

instance JSDate.decLt : (a b : JSDate) → Decidable (a < b)
  | .valid x, .valid y => inferInstanceAs (Decidable (x < y))
  | .valid _, .invalid => isFalse (fun h => h)
  | .invalid, .valid _ => isFalse (fun h => h)
  | .invalid, .invalid => isFalse (fun h => h)

instance JSDate.decLe : (a b : JSDate) → Decidable (a ≤ b)
  | .valid x, .valid y => inferInstanceAs (Decidable (x ≤ y))
  | .valid _, .invalid => isFalse (fun h => h)
  | .invalid, .valid _ => isFalse (fun h => h)
  | .invalid, .invalid => isFalse (fun h => h)

/-- The table `suntimes` handed to `GetFades`, the object that `SunCalc.getTimes`
returns: its own properties, the named instants, each with its date (an Invalid
Date for an event that does not occur on that day at that place). -/
abbrev SunTimes := List (String × JSDate)

/-- The names that a plain object inherits from `Object.prototype`. -/
def objectPrototypeNames : List String :=
  ["constructor", "__defineGetter__", "__defineSetter__", "hasOwnProperty",
   "__lookupGetter__", "__lookupSetter__", "isPrototypeOf", "propertyIsEnumerable",
   "toString", "valueOf", "__proto__", "toLocaleString"]

/-- The test `key in suntimes`: true of the named instants that `suntimes` holds
as its own properties, and of the names that it inherits. -/
def SunTimes.has (suntimes : SunTimes) (key : String) : Bool :=
  (suntimes.lookup key).isSome || objectPrototypeNames.contains key

/-- The date `new Date(suntimes[key])` for a `key in suntimes`: a copy of the date
of a named instant; an Invalid Date for an inherited name, whose value (a
function, or `Object.prototype` itself) does not read as a date. -/
def SunTimes.date (suntimes : SunTimes) (key : String) : JSDate :=
  match suntimes.lookup key with
  | some date => date
  | none => .invalid

/-- Membership of a character in the class `[lo-hi]`. -/
def inClass (lo hi c : Char) : Bool := decide (lo.toNat ≤ c.toNat) && decide (c.toNat ≤ hi.toNat)

/-- The pattern `REGEX_HHMM = /^(2[0-3]|[01]?[0-9]):([0-5][0-9])$/` on the characters of a string. -/
def matchHHMM : List Char → Bool
  | [h1, h2, c, m1, m2] =>
      ((h1 == '2' && inClass '0' '3' h2) || ((h1 == '0' || h1 == '1') && inClass '0' '9' h2))
        && c == ':' && inClass '0' '5' m1 && inClass '0' '9' m2
  | [h1, c, m1, m2] =>
      inClass '0' '9' h1 && c == ':' && inClass '0' '5' m1 && inClass '0' '9' m2
  | _ => false

/-- The call `REGEX_HHMM.test(time)`. -/
def REGEX_HHMM (time : String) : Bool := matchHHMM time.data

/-- The call `s.split(':')` on the characters of `s`: `cur` collects the piece being read. -/
def splitColonAux : List Char → List Char → List (List Char)
  | [], cur => [cur.reverse]
  | c :: cs, cur => if c == ':' then cur.reverse :: splitColonAux cs [] else splitColonAux cs (c :: cur)

/-- The call `s.split(':')`. -/
def splitColon (s : List Char) : List (List Char) := splitColonAux s []

/-- Value of the longest run of decimal digits at the head of `cs`, after `acc`. -/
def digitsValue : List Char → Nat → Nat
  | [], acc => acc
  | c :: cs, acc => if inClass '0' '9' c then digitsValue cs (acc * 10 + (c.toNat - 48)) else acc

/-- The call `parseInt(s)` on a string without leading white space, sign or `0x`
prefix (the pieces of a time that passed `REGEX_HHMM` are such): the value of the
leading decimal digits, `none` (`NaN`) when `s` does not start with a digit. -/
def parseInt : List Char → Option Int
  | [] => none
  | c :: cs => if inClass '0' '9' c then some (digitsValue (c :: cs) 0) else none

/-- Lines 422-426 of `GetFades`: the clock time `time` on the local day of `now`
(an Invalid Date when a piece of `time` does not parse: a setter given `NaN`
leaves an Invalid Date). -/
def GetFades.clockTime (zone : Zone) (now : Int) (time : String) : JSDate :=
  match parseInt ((splitColon time.data).getD 0 []), parseInt ((splitColon time.data).getD 1 []) with
  | some hours, some minutes =>
      .valid (setMilliseconds zone (setSeconds zone (setMinutes zone (setHours zone now hours) minutes) 0) 0)
  | _, _ => .invalid

/-- Lines 416-427 of `GetFades`: the date of the anchor before the offset is
applied, `new Date(suntimes[time])` when `time in suntimes`, else from the clock. -/
def GetFades.anchorTime (suntimes : SunTimes) (zone : Zone) (now : Int) (time : String) : JSDate :=
  if suntimes.has time then suntimes.date time
  else GetFades.clockTime zone now time

/-- Lines 429-437 of `GetFades` on a valid date: apply `offset_mins` to the anchor
instant `t`, then move `beforeTime` back by `ceil(diffInDays)` days and
`afterTime` by `floor(diffInDays)` days. Returns `(beforeTime, afterTime)`. -/
def GetFades.normalise (zone : Zone) (now t offset_mins : Int) : Int × Int :=
  let beforeTime := setMinutes zone t (getMinutes zone t + offset_mins)
  let afterTime := beforeTime
  let diffInDays : ℚ := ((beforeTime - now : Int) : ℚ) / (1000 * 60 * 60 * 24)
  (setDateRelative zone beforeTime (- Math.ceil diffInDays),
   setDateRelative zone afterTime (- Math.floor diffInDays))

/-- The times of one element of `msg.fades` in `GetFades`: `none` when the element
is dropped by the time test of lines 183-189 (`time` is neither `in suntimes` nor
matched by `REGEX_HHMM`), else `(beforeTime, afterTime)` of lines 416-437 for the
validated `offset_mins`. An anchor that is an Invalid Date stays one through
`setMinutes` and `setDate` (`getMinutes`, `diffInDays` and its `Math.ceil` and
`Math.floor` are `NaN`), so that both times are Invalid Dates. -/
def GetFades.times (suntimes : SunTimes) (zone : Zone) (now : Int) (time : String) (offset_mins : Int) :
    Option (JSDate × JSDate) :=
  if !(suntimes.has time) && !(REGEX_HHMM time) then none
  else
    match GetFades.anchorTime suntimes zone now time with
    | .valid t =>
        some (.valid (GetFades.normalise zone now t offset_mins).1,
              .valid (GetFades.normalise zone now t offset_mins).2)
    | .invalid => some (.invalid, .invalid)

/-! ## JavaScript numbers -/

/-- A JavaScript number: `NaN`, `+Infinity`, `-Infinity` or a finite value. -/
inductive JSNum where
  | nan : JSNum
  | posInf : JSNum
  | negInf : JSNum
  | fin (q : ℚ) : JSNum
  deriving DecidableEq

namespace JSNum

/-- Unary minus. -/
def neg : JSNum → JSNum
  | nan => nan
  | posInf => negInf
  | negInf => posInf
  | fin q => fin (-q)

/-- The operator `+` on numbers. -/
def add : JSNum → JSNum → JSNum
  | nan, _ => nan
  | _, nan => nan
  | posInf, negInf => nan
  | negInf, posInf => nan
  | posInf, _ => posInf
  | _, posInf => posInf
  | negInf, _ => negInf
  | _, negInf => negInf
  | fin a, fin b => fin (a + b)

/-- The operator `-` on numbers. -/
def sub (x y : JSNum) : JSNum := add x (neg y)

/-- An infinity of sign `positive` times the finite value `q`. -/
def infTimes (positive : Bool) (q : ℚ) : JSNum :=
  if q = 0 then nan else if (0 < q) = positive then posInf else negInf

/-- The operator `*` on numbers. -/
def mul : JSNum → JSNum → JSNum
  | nan, _ => nan
  | _, nan => nan
  | fin a, fin b => fin (a * b)
  | posInf, posInf => posInf
  | negInf, negInf => posInf
  | posInf, negInf => negInf
  | negInf, posInf => negInf
  | posInf, fin b => infTimes true b
  | fin a, posInf => infTimes true a
  | negInf, fin b => infTimes false b
  | fin a, negInf => infTimes false a

/-- The operator `/` on numbers; a zero divisor is `+0` (the difference of two
time values is never `-0`). -/
def div : JSNum → JSNum → JSNum
  | nan, _ => nan
  | _, nan => nan
  | fin a, fin b =>
      if b = 0 then (if a = 0 then nan else if 0 < a then posInf else negInf) else fin (a / b)
  | fin _, posInf => fin 0
  | fin _, negInf => fin 0
  | posInf, fin b => if 0 ≤ b then posInf else negInf
  | negInf, fin b => if 0 ≤ b then negInf else posInf
  | posInf, posInf => nan
  | posInf, negInf => nan
  | negInf, posInf => nan
  | negInf, negInf => nan

instance : Add JSNum := ⟨add⟩
instance : Sub JSNum := ⟨sub⟩
instance : Mul JSNum := ⟨mul⟩
instance : Div JSNum := ⟨div⟩

end JSNum

/-- JavaScript `Math.min(x, y)`. -/
def Math.min : JSNum → JSNum → JSNum
  | .nan, _ => .nan
  | _, .nan => .nan
  | .negInf, _ => .negInf
  | _, .negInf => .negInf
  | .posInf, y => y
  | x, .posInf => x
  | .fin a, .fin b => .fin (Min.min a b)

/-- JavaScript `Math.max(x, y)`. -/
def Math.max : JSNum → JSNum → JSNum
  | .nan, _ => .nan
  | _, .nan => .nan
  | .posInf, _ => .posInf
  | _, .posInf => .posInf
  | .negInf, y => y
  | x, .negInf => x
  | .fin a, .fin b => .fin (Max.max a b)

/-- JavaScript `Math.round(x)`: the nearest integer, a half rounding up. -/
def Math.round : JSNum → JSNum
  | .fin q => .fin (Int.floor (q + 1 / 2) : Int)
  | x => x

/-! ## Validated fades and `Fade` -/

/-- One element of the array returned by `GetFades` (`fadeResult`). -/
structure FadeResult where
  time : String
  offset_mins : Int
  brightness : Option ℚ := none
  brightness_pct : Option ℚ := none
  color_temp : Option ℚ := none
  kelvin : Option ℚ := none
  rgb_color : Option (List ℚ) := none
  rgbw_color : Option (List ℚ) := none
  rgbww_color : Option (List ℚ) := none
  hs_color : Option (List ℚ) := none
  xy_color : Option (List ℚ) := none
  beforeTime : JSDate
  afterTime : JSDate
  deriving DecidableEq

/-- The object returned by `Fade` (`result`). -/
structure FadeData where
  brightness : Option JSNum := none
  brightness_pct : Option JSNum := none
  color_temp : Option JSNum := none
  kelvin : Option JSNum := none
  rgb_color : Option (List JSNum) := none
  rgbw_color : Option (List JSNum) := none
  rgbww_color : Option (List JSNum) := none
  hs_color : Option (List JSNum) := none
  xy_color : Option (List JSNum) := none
  deriving DecidableEq

/-- The nine attribute names. -/
def attributeNames : List String :=
  ["brightness", "brightness_pct", "color_temp", "kelvin",
   "rgb_color", "rgbw_color", "rgbww_color", "hs_color", "xy_color"]

/-- The test `key in fade` for the nine attribute names. -/
def FadeResult.has (f : FadeResult) (key : String) : Bool :=
  if key = "brightness" then f.brightness.isSome
  else if key = "brightness_pct" then f.brightness_pct.isSome
  else if key = "color_temp" then f.color_temp.isSome
  else if key = "kelvin" then f.kelvin.isSome
  else if key = "rgb_color" then f.rgb_color.isSome
  else if key = "rgbw_color" then f.rgbw_color.isSome
  else if key = "rgbww_color" then f.rgbww_color.isSome
  else if key = "hs_color" then f.hs_color.isSome
  else if key = "xy_color" then f.xy_color.isSome
  else false

/-- The list `Object.keys(vData)` of a result of `Fade`. -/
def FadeData.keys (r : FadeData) : List String :=
  (if r.brightness.isSome then ["brightness"] else []) ++
  (if r.brightness_pct.isSome then ["brightness_pct"] else []) ++
  (if r.color_temp.isSome then ["color_temp"] else []) ++
  (if r.kelvin.isSome then ["kelvin"] else []) ++
  (if r.rgb_color.isSome then ["rgb_color"] else []) ++
  (if r.rgbw_color.isSome then ["rgbw_color"] else []) ++
  (if r.rgbww_color.isSome then ["rgbww_color"] else []) ++
  (if r.hs_color.isSome then ["hs_color"] else []) ++
  (if r.xy_color.isSome then ["xy_color"] else [])

/-- The read `xs[i]` of an array of numbers used as a number: an index past the
end gives `undefined`, which arithmetic turns into `NaN`. -/
def elem (xs : List ℚ) (i : Nat) : JSNum :=
  match xs.get? i with
  | some q => .fin q
  | none => .nan

/-- The guard `"k" in before && "k" in after` around one attribute of `Fade`. -/
def Fade.both {α β : Type} (before after : Option α) (f : α → α → β) : Option β :=
  match before, after with
  | some b, some a => some (f b a)
  | _, _ => none

/-- The number that a date gives in arithmetic: its time value, `NaN` for an
Invalid Date. -/
def JSDate.toNumber : JSDate → JSNum
  | .valid t => .fin t
  | .invalid => .nan

/-- Lines 515-516 of `Fade`: the progress through the fade, constrained to 0..1. -/
def Fade.progress (before after : FadeResult) (now : Int) : JSNum :=
  Math.max (.fin 0) (Math.min (.fin 1)
    ((JSNum.fin now - before.beforeTime.toNumber)
      / (after.afterTime.toNumber - before.beforeTime.toNumber)))

/-- The expression
`Math.max(lo, Math.min(hi, Math.round(progress * (after - before) + before)))`. -/
def Fade.rounded (lo hi : ℚ) (progress before after : JSNum) : JSNum :=
  Math.max (.fin lo) (Math.min (.fin hi) (Math.round (progress * (after - before) + before)))

/-- The expression `Math.max(lo, Math.min(hi, progress * (after - before) + before))`. -/
def Fade.unrounded (lo hi : ℚ) (progress before after : JSNum) : JSNum :=
  Math.max (.fin lo) (Math.min (.fin hi) (progress * (after - before) + before))

/-- Lines 524-584 of `Fade`: the object `result` built from `progress`. -/
def Fade.result (before after : FadeResult) (progress : JSNum) : FadeData :=
  { brightness := Fade.both before.brightness after.brightness fun b a =>
      Fade.rounded 0 MAX_BRIGHTNESS progress (.fin b) (.fin a)
    brightness_pct := Fade.both before.brightness_pct after.brightness_pct fun b a =>
      Fade.rounded 0 MAX_BRIGHTNESS_PERCENT progress (.fin b) (.fin a)
    color_temp := Fade.both before.color_temp after.color_temp fun b a =>
      Fade.rounded MIN_MIREDS MAX_MIREDS progress (.fin b) (.fin a)
    kelvin := Fade.both before.kelvin after.kelvin fun b a =>
      Fade.rounded MIN_KELVIN MAX_KELVIN progress (.fin b) (.fin a)
    rgb_color := Fade.both before.rgb_color after.rgb_color fun b a =>
      [0, 1, 2].map fun i => Fade.rounded 0 MAX_RGB progress (elem b i) (elem a i)
    rgbw_color := Fade.both before.rgbw_color after.rgbw_color fun b a =>
      [0, 1, 2, 3].map fun i => Fade.rounded 0 MAX_RGB progress (elem b i) (elem a i)
    rgbww_color := Fade.both before.rgbww_color after.rgbww_color fun b a =>
      [0, 1, 2, 3, 4].map fun i => Fade.rounded 0 MAX_RGB progress (elem b i) (elem a i)
    hs_color := Fade.both before.hs_color after.hs_color fun b a =>
      [Fade.unrounded 0 MAX_HUE progress (elem b 0) (elem a 0),
       Fade.unrounded 0 MAX_SAT progress (elem b 1) (elem a 1)]
    xy_color := Fade.both before.xy_color after.xy_color fun b a =>
      [0, 1].map fun i => Fade.unrounded 0 MAX_XY progress (elem b i) (elem a i) }

/-- The function `Fade(before, after, now)`; `none` is the return without a value. -/
def Fade (before after : FadeResult) (now : Int) : Option FadeData :=
  if before.beforeTime > after.afterTime then none
  else some (Fade.result before after (Fade.progress before after now))

/-- What `GetFades` establishes for the fields of an element it returns: the
offset is within its range, `brightness` and the rgb channels are integers
(`parseInt`) within range, `brightness_pct`, `color_temp`, `kelvin` and the
components of `hs_color` and `xy_color` are numbers (`parseFloat`) within range,
and the arrays have their 3, 4, 5, 2 and 2 elements. -/
def FadeResult.Validated (f : FadeResult) : Prop :=
  (MINIMUM_OFFSET_MINS ≤ f.offset_mins ∧ f.offset_mins ≤ MAXIMUM_OFFSET_MINS) ∧
  (∀ v ∈ f.brightness, v.isInt = true ∧ 0 ≤ v ∧ v ≤ MAX_BRIGHTNESS) ∧
  (∀ v ∈ f.brightness_pct, 0 ≤ v ∧ v ≤ MAX_BRIGHTNESS_PERCENT) ∧
  (∀ v ∈ f.color_temp, MIN_MIREDS ≤ v ∧ v ≤ MAX_MIREDS) ∧
  (∀ v ∈ f.kelvin, MIN_KELVIN ≤ v ∧ v ≤ MAX_KELVIN) ∧
  (∀ xs ∈ f.rgb_color, xs.length = 3 ∧ ∀ v ∈ xs, v.isInt = true ∧ 0 ≤ v ∧ v ≤ MAX_RGB) ∧
  (∀ xs ∈ f.rgbw_color, xs.length = 4 ∧ ∀ v ∈ xs, v.isInt = true ∧ 0 ≤ v ∧ v ≤ MAX_RGB) ∧
  (∀ xs ∈ f.rgbww_color, xs.length = 5 ∧ ∀ v ∈ xs, v.isInt = true ∧ 0 ≤ v ∧ v ≤ MAX_RGB) ∧
  (∀ xs ∈ f.hs_color, xs.length = 2 ∧ (∀ h ∈ xs.get? 0, 0 ≤ h ∧ h ≤ MAX_HUE) ∧
    (∀ s ∈ xs.get? 1, 0 ≤ s ∧ s ≤ MAX_SAT)) ∧
  (∀ xs ∈ f.xy_color, xs.length = 2 ∧ ∀ v ∈ xs, 0 ≤ v ∧ v ≤ MAX_XY)

/-- A value of a result of `Fade` lies in the domain `lo..hi`: it is a finite
number (not `NaN`) between the bounds. -/
def InDomain (lo hi : ℚ) (x : JSNum) : Prop :=
  ∃ q : ℚ, x = .fin q ∧ lo ≤ q ∧ q ≤ hi

/-- Every value of a result of `Fade` lies in the declared domain of its attribute. -/
def FadeData.InDomains (r : FadeData) : Prop :=
  (∀ v ∈ r.brightness, InDomain 0 255 v) ∧
  (∀ v ∈ r.brightness_pct, InDomain 0 100 v) ∧
  (∀ v ∈ r.color_temp, InDomain 150 500 v) ∧
  (∀ v ∈ r.kelvin, InDomain 2000 6500 v) ∧
  (∀ xs ∈ r.rgb_color, ∀ v ∈ xs, InDomain 0 255 v) ∧
  (∀ xs ∈ r.rgbw_color, ∀ v ∈ xs, InDomain 0 255 v) ∧
  (∀ xs ∈ r.rgbww_color, ∀ v ∈ xs, InDomain 0 255 v) ∧
  (∀ xs ∈ r.hs_color, ∃ h s, xs = [h, s] ∧ InDomain 0 360 h ∧ InDomain 0 100 s) ∧
  (∀ xs ∈ r.xy_color, ∀ v ∈ xs, InDomain 0 1 v)

/-- The progress as the specification words it, for a window of two valid dates:
the fraction `(now - beforeTime) / (afterTime - beforeTime)` of the window
elapsed at `now`, clamped to 0..1. (A window with an Invalid Date has no
fraction; the value 0 given here for it is used by no property.) -/
def fraction (beforeTime afterTime : JSDate) (now : Int) : ℚ :=
  match beforeTime, afterTime with
  | .valid b, .valid a => max 0 (min 1 (((now - b : Int) : ℚ) / ((a - b : Int) : ℚ)))
  | _, _ => 0

/-- The instant `now` constrained to the range `beforeTime` to `afterTime` of two
valid dates (`now` itself when one of them is an Invalid Date). -/
def constrainNow (beforeTime afterTime : JSDate) (now : Int) : Int :=
  match beforeTime, afterTime with
  | .valid b, .valid a => max b (min a now)
  | _, _ => now

/-- The result `r` carries, for every attribute present in both `x` and `y`, the
value that `x` has: unchanged for `brightness`, for the rgb channels and for the
components of `hs_color` and `xy_color`; rounded to the nearest integer for
`brightness_pct`, `color_temp` and `kelvin`, hence unchanged when it is an integer. -/
def FadeData.HasValuesOf (r : FadeData) (x y : FadeResult) : Prop :=
  (∀ v ∈ x.brightness, y.brightness.isSome = true → r.brightness = some (.fin v)) ∧
  (∀ v ∈ x.brightness_pct, y.brightness_pct.isSome = true →
    r.brightness_pct = some (Math.round (.fin v)) ∧
      (v.isInt = true → r.brightness_pct = some (.fin v))) ∧
  (∀ v ∈ x.color_temp, y.color_temp.isSome = true →
    r.color_temp = some (Math.round (.fin v)) ∧
      (v.isInt = true → r.color_temp = some (.fin v))) ∧
  (∀ v ∈ x.kelvin, y.kelvin.isSome = true →
    r.kelvin = some (Math.round (.fin v)) ∧
      (v.isInt = true → r.kelvin = some (.fin v))) ∧
  (∀ xs ∈ x.rgb_color, y.rgb_color.isSome = true → r.rgb_color = some (xs.map .fin)) ∧
  (∀ xs ∈ x.rgbw_color, y.rgbw_color.isSome = true → r.rgbw_color = some (xs.map .fin)) ∧
  (∀ xs ∈ x.rgbww_color, y.rgbww_color.isSome = true → r.rgbww_color = some (xs.map .fin)) ∧
  (∀ xs ∈ x.hs_color, y.hs_color.isSome = true → r.hs_color = some (xs.map .fin)) ∧
  (∀ xs ∈ x.xy_color, y.xy_color.isSome = true → r.xy_color = some (xs.map .fin))

/-- The result `r` carries the value that `x` has, unchanged, for `brightness` and
the rgb channels when the attribute is present in both `x` and `y`, and for each
of `brightness_pct`, `color_temp`, `kelvin`, `hs_color` and `xy_color` when the
attribute is present in both and its values in `x` and in `y` are all integers. -/
def FadeData.HasIntegerValuesOf (r : FadeData) (x y : FadeResult) : Prop :=
  (∀ v ∈ x.brightness, y.brightness.isSome = true → r.brightness = some (.fin v)) ∧
  (∀ v ∈ x.brightness_pct, ∀ w ∈ y.brightness_pct, v.isInt = true → w.isInt = true →
    r.brightness_pct = some (.fin v)) ∧
  (∀ v ∈ x.color_temp, ∀ w ∈ y.color_temp, v.isInt = true → w.isInt = true →
    r.color_temp = some (.fin v)) ∧
  (∀ v ∈ x.kelvin, ∀ w ∈ y.kelvin, v.isInt = true → w.isInt = true →
    r.kelvin = some (.fin v)) ∧
  (∀ xs ∈ x.rgb_color, y.rgb_color.isSome = true → r.rgb_color = some (xs.map .fin)) ∧
  (∀ xs ∈ x.rgbw_color, y.rgbw_color.isSome = true → r.rgbw_color = some (xs.map .fin)) ∧
  (∀ xs ∈ x.rgbww_color, y.rgbww_color.isSome = true → r.rgbww_color = some (xs.map .fin)) ∧
  (∀ xs ∈ x.hs_color, ∀ ys ∈ y.hs_color,
    (∀ v ∈ xs, v.isInt = true) → (∀ w ∈ ys, w.isInt = true) →
      r.hs_color = some (xs.map .fin)) ∧
  (∀ xs ∈ x.xy_color, ∀ ys ∈ y.xy_color,
    (∀ v ∈ xs, v.isInt = true) → (∀ w ∈ ys, w.isInt = true) →
      r.xy_color = some (xs.map .fin))

instance (f : FadeResult) : Decidable f.Validated := by
  unfold FadeResult.Validated
  infer_instance

/-- The element that `GetFades` keeps from `{time: "06:00", brightness_pct: 50.5}`
at `now` = 07:00 of day 20000 (UTC): a fractional percentage passes validation. -/
def morningAnchor : FadeResult :=
  { time := "06:00", offset_mins := 0, brightness_pct := some (101 / 2),
    beforeTime := 1728021600000, afterTime := 1728108000000 }

/-- The element that `GetFades` keeps from `{time: "18:00", brightness_pct: 80}`
at `now` = 07:00 of day 20000 (UTC). -/
def eveningAnchor : FadeResult :=
  { time := "18:00", offset_mins := 0, brightness_pct := some 80,
    beforeTime := 1727978400000, afterTime := 1728064800000 }

/-- The element that `GetFades` keeps from `{time: "06:00", brightness: 100}` when
`now` is 06:00:00.000 of day 20000 (UTC) itself: `beforeTime = afterTime = now`. -/
def exactAnchor : FadeResult :=
  { time := "06:00", offset_mins := 0, brightness := some 100,
    beforeTime := 1728021600000, afterTime := 1728021600000 }

/-- The element kept from `{time: "sunrise", brightness: 100}`. -/
def sunriseAnchor : FadeResult :=
  { time := "sunrise", offset_mins := 0, brightness := some 100,
    beforeTime := 1728020000000, afterTime := 1728106400000 }

/-- The element kept from `{time: "sunset", brightness: 200, kelvin: 2700}`. -/
def sunsetAnchor : FadeResult :=
  { time := "sunset", offset_mins := 0, brightness := some 200, kelvin := some 2700,
    beforeTime := 1727977000000, afterTime := 1728063400000 }

/-! ## Raw values and the parsers `parseInt`, `parseFloat` -/

/-- A primitive JavaScript value in a field of an element of `msg.fades`. -/
inductive Scalar where
  | undefined : Scalar
  | null : Scalar
  | bool (b : Bool) : Scalar
  | num (x : JSNum) : Scalar
  | str (s : String) : Scalar
  deriving DecidableEq

/-- The value of a field of an element of `msg.fades`: a primitive value or an
array of primitive values (objects and nested arrays are not modelled). An absent
field is `scalar undefined`. -/
inductive Value where
  | scalar (p : Scalar) : Value
  | array (xs : List Scalar) : Value
  deriving DecidableEq

/-- The white space that `parseInt` and `parseFloat` skip at the head of a string. -/
def isWhiteSpace (c : Char) : Bool :=
  c.toNat = 9 || c.toNat = 10 || c.toNat = 11 || c.toNat = 12 || c.toNat = 13 ||
  c.toNat = 32 || c.toNat = 160 || c.toNat = 5760 || (8192 ≤ c.toNat && c.toNat ≤ 8202) ||
  c.toNat = 8232 || c.toNat = 8233 || c.toNat = 8239 || c.toNat = 8287 ||
  c.toNat = 12288 || c.toNat = 65279

/-- An optional sign at the head of a string: whether it is `-`, and the rest. -/
def stripSign : List Char → Bool × List Char
  | '-' :: cs => (true, cs)
  | '+' :: cs => (false, cs)
  | cs => (false, cs)

/-- The value of `c` as a digit of the given radix, if it is one. -/
def digitOf (radix : Nat) (c : Char) : Option Nat :=
  let v : Option Nat :=
    if 48 ≤ c.toNat ∧ c.toNat ≤ 57 then some (c.toNat - 48)
    else if 97 ≤ c.toNat ∧ c.toNat ≤ 122 then some (c.toNat - 87)
    else if 65 ≤ c.toNat ∧ c.toNat ≤ 90 then some (c.toNat - 55)
    else none
  v.filter (fun d => d < radix)

/-- The digits of the longest run of digits of the given radix at the head of a string. -/
def leadingDigits (radix : Nat) : List Char → List Nat
  | [] => []
  | c :: cs =>
    match digitOf radix c with
    | some d => d :: leadingDigits radix cs
    | none => []

/-- What is left of a string after its leading digits. -/
def afterDigits (radix : Nat) : List Char → List Char
  | [] => []
  | c :: cs => if (digitOf radix c).isSome then afterDigits radix cs else c :: cs

/-- The number that a list of digits writes in the given radix. -/
def digitsNumber (radix : Nat) (ds : List Nat) : Nat :=
  ds.foldl (fun acc d => acc * radix + d) 0

/-- The call `parseInt(s)` on a string: skip white space, read a sign and a `0x`
or `0X` mark of radix 16, then the longest run of digits; `none` is `NaN`. -/
def parseIntString (s : List Char) : Option Int :=
  let (negative, s1) := stripSign (s.dropWhile isWhiteSpace)
  let (radix, s2) : Nat × List Char :=
    match s1 with
    | '0' :: 'x' :: r => (16, r)
    | '0' :: 'X' :: r => (16, r)
    | r => (10, r)
  let ds := leadingDigits radix s2
  if ds = [] then none
  else some (if negative then - (digitsNumber radix ds : Int) else (digitsNumber radix ds : Int))

/-- Rounding toward zero. -/
def truncate (q : ℚ) : Int := if 0 ≤ q then Int.floor q else Int.ceil q

/-- The first significant decimal digit of a non-zero number, with the sign of
the number. -/
def leadingDigit (q : ℚ) : Int :=
  let d := Int.floor (|q| * (10 : ℚ) ^ (- Int.log 10 |q|))
  if q < 0 then - d else d

/-- The call `parseInt(x)` on a number, which is `parseInt(String(x))`: a number
of magnitude from 1e-6 up to 1e21 is written in plain decimal notation and
gives its truncation; a smaller or larger one is written in exponent notation
(`5e-7`) and gives its first digit; `NaN` and the infinities give `NaN`. -/
def parseIntNumber : JSNum → Option Int
  | .fin q =>
    if q = 0 then some 0
    else if 1 / 1000000 ≤ |q| ∧ |q| < 10 ^ 21 then some (truncate q)
    else some (leadingDigit q)
  | _ => none

/-- The call `parseInt(p)` on a primitive value. -/
def Scalar.parseInt : Scalar → Option Int
  | .num x => parseIntNumber x
  | .str s => parseIntString s.data
  | _ => none

/-- The call `parseInt(v)`; an array is read through its string form, the
elements joined by commas, so that only its first element counts. -/
def Value.parseInt : Value → Option Int
  | .scalar p => p.parseInt
  | .array [] => none
  | .array (p :: _) => p.parseInt

/-- Whether the characters `p` are at the head of `s`. -/
def startsWith : List Char → List Char → Bool
  | [], _ => true
  | _ :: _, [] => false
  | a :: p, b :: s => a == b && startsWith p s

/-- The value of an `ExponentPart` (`e` or `E`, an optional sign, digits) at the
head of a string, 0 when there is none. -/
def exponentPart : List Char → Int
  | [] => 0
  | c :: cs =>
    if c = 'e' ∨ c = 'E' then
      let (negative, ds) := stripSign cs
      if leadingDigits 10 ds = [] then 0
      else if negative then - (digitsNumber 10 (leadingDigits 10 ds) : Int)
      else (digitsNumber 10 (leadingDigits 10 ds) : Int)
    else 0

/-- The unsigned decimal literal at the head of a string: `Infinity`, or digits
with an optional fraction and exponent, or a fraction with an optional exponent;
`NaN` when the string starts with none of them. -/
def unsignedDecimal (s : List Char) : JSNum :=
  if startsWith "Infinity".data s then .posInf
  else
    let whole := leadingDigits 10 s
    let rest := afterDigits 10 s
    let (fraction, rest2) : List Nat × List Char :=
      match rest with
      | '.' :: r => (leadingDigits 10 r, afterDigits 10 r)
      | r => ([], r)
    if whole = [] ∧ fraction = [] then .nan
    else
      .fin (((digitsNumber 10 whole : ℚ) + (digitsNumber 10 fraction : ℚ) / 10 ^ fraction.length)
        * (10 : ℚ) ^ exponentPart rest2)

/-- The call `parseFloat(s)` on a string: skip white space, read a sign, then the
longest decimal literal. -/
def parseFloatString (s : List Char) : JSNum :=
  let (negative, s1) := stripSign (s.dropWhile isWhiteSpace)
  if negative then JSNum.neg (unsignedDecimal s1) else unsignedDecimal s1

/-- The call `parseFloat(p)` on a primitive value; a number comes back unchanged
from its string form. -/
def Scalar.parseFloat : Scalar → JSNum
  | .num x => x
  | .str s => parseFloatString s.data
  | _ => .nan

/-- The call `parseFloat(v)`; of an array only the first element counts. -/
def Value.parseFloat : Value → JSNum
  | .scalar p => p.parseFloat
  | .array [] => .nan
  | .array (p :: _) => p.parseFloat

/-! ## The `errors` object and the warnings of `GetFades` -/

/-- The fields of an element of `msg.fades` that `GetFades` validates after `time`. -/
inductive FadeField where
  | offset_mins | brightness | brightness_pct | color_temp | kelvin
  | rgb_color | rgbw_color | rgbww_color | hs_color | xy_color
  deriving DecidableEq

/-- The property name of a field. -/
def FadeField.name : FadeField → String
  | .offset_mins => "offset_mins"
  | .brightness => "brightness"
  | .brightness_pct => "brightness_pct"
  | .color_temp => "color_temp"
  | .kelvin => "kelvin"
  | .rgb_color => "rgb_color"
  | .rgbw_color => "rgbw_color"
  | .rgbww_color => "rgbww_color"
  | .hs_color => "hs_color"
  | .xy_color => "xy_color"

/-- A warning that is pushed on `errors.warn`, by the place that pushes it. The
warnings of `GetFades` carry the index of the element and the raw value their
text quotes:
`time not defined in msg.fades[i].`, `Invalid time '...' provided within
msg.fades[i]. ...`, for a field `Must be an integer.` or `Must be a number.`
(`notNumber`), `Must be between ...` or `Must be within the range ...`
(`outOfRange`), `Invalid values in ...` (`invalidValues`), `Must be an array of
exactly n numbers.` (`notArray`), and `No levels provided within msg.fades[i].
Skipping.` (`noLevels`). The warning of `GetNowOffset` is `Invalid format provided
for msg.now ...` (`invalidNow`). -/
inductive Warning where
  | timeNotDefined (index : Nat) : Warning
  | invalidTime (index : Nat) (time : String) : Warning
  | notNumber (index : Nat) (field : FadeField) (value : Value) : Warning
  | outOfRange (index : Nat) (field : FadeField) (value : Value) : Warning
  | invalidValues (index : Nat) (field : FadeField) (value : Value) : Warning
  | notArray (index : Nat) (field : FadeField) (value : Value) : Warning
  | noLevels (index : Nat) : Warning
  | invalidNow (value : Value) : Warning
  deriving DecidableEq

/-- The field that a warning is about, if it is about one. -/
def Warning.field : Warning → Option FadeField
  | .notNumber _ f _ => some f
  | .outOfRange _ f _ => some f
  | .invalidValues _ f _ => some f
  | .notArray _ f _ => some f
  | _ => none

/-- The index of the element of `msg.fades` that a warning is about, if it is
about one. -/
def Warning.index : Warning → Option Nat
  | .timeNotDefined i => some i
  | .invalidTime i _ => some i
  | .notNumber i _ _ => some i
  | .outOfRange i _ _ => some i
  | .invalidValues i _ _ => some i
  | .notArray i _ _ => some i
  | .noLevels i => some i
  | .invalidNow _ => none

/-- One `errors.warn.push(...)` together with the status of the statement
`if(!errors.status) errors.status = ...` that follows it. -/
structure Notice where
  warning : Warning
  status : String
  deriving DecidableEq

/-- The status `msg.fades[i] is invalid!`. -/
def elementStatus (index : Nat) : String :=
  "msg.fades[" ++ toString index ++ "] is invalid!"

/-- The status `msg.fades[i].field is invalid!`. -/
def fieldStatus (index : Nat) (field : FadeField) : String :=
  "msg.fades[" ++ toString index ++ "]." ++ field.name ++ " is invalid!"

/-- The object `errors`: `error` and `status` are `undefined` (`none`) or a
string, `warn` is the array of warnings. -/
structure Errors where
  error : Option String := none
  warn : List Warning := []
  status : Option String := none
  deriving DecidableEq

/-- The test `!errors.status`: the status is `undefined` or the empty string. -/
def Errors.statusUnset (errors : Errors) : Bool :=
  errors.status = none || errors.status = some ""

/-- The statements `errors.warn.push(w); if(!errors.status) errors.status = s`. -/
def Errors.note (errors : Errors) (n : Notice) : Errors :=
  { errors with
    warn := errors.warn ++ [n.warning]
    status := if errors.statusUnset then some n.status else errors.status }

/-! ## `GetFades` -/

/-- An element of `msg.fades` as `GetFades` reads it: `time` is absent or a
string, every other field is any value (`scalar undefined` when absent). An
element that is not an object reads as one without fields. -/
structure RawFade where
  time : Option String := none
  offset_mins : Value := .scalar .undefined
  brightness : Value := .scalar .undefined
  brightness_pct : Value := .scalar .undefined
  color_temp : Value := .scalar .undefined
  kelvin : Value := .scalar .undefined
  rgb_color : Value := .scalar .undefined
  rgbw_color : Value := .scalar .undefined
  rgbww_color : Value := .scalar .undefined
  hs_color : Value := .scalar .undefined
  xy_color : Value := .scalar .undefined
  deriving DecidableEq

/-- The property `msg.fades`: absent (or falsy), a value that is not an array, or
an array of elements. -/
inductive Fades where
  | absent : Fades
  | notArray : Fades
  | array (elements : List RawFade) : Fades
  deriving DecidableEq

/-- The property `msg.location` when it is an object: its `latitude` and its
`longitude` (`scalar undefined` when absent). -/
structure RawLocation where
  latitude : Value := .scalar .undefined
  longitude : Value := .scalar .undefined
  deriving DecidableEq

/-- The property `msg.payload`: absent, a value that is not an object (it has no
property `service`), or an object with its `service` (`scalar undefined` when
absent). -/
inductive Payload where
  | absent : Payload
  | value (v : Value) : Payload
  | object (service : Value) : Payload
  deriving DecidableEq

/-- The message `msg` as the validators read it: `fades` for `GetFades`, `now` for
`GetNowOffset` (`scalar undefined` when absent), `location` for `GetLocation`
(`none` when `msg.location` is absent or is not an object), and `topic` (absent
or a string), `payload` and `alx_enabled` (`none` when absent) for `SwitchOn`. -/
structure Msg where
  fades : Fades := .absent
  now : Value := .scalar .undefined
  location : Option RawLocation := none
  topic : Option String := none
  payload : Payload := .absent
  alx_enabled : Option Value := none
  deriving DecidableEq

/-- Lines 194-216: `offset_mins`, 0 when absent or invalid. -/
def GetFades.offset (index : Nat) (value : Value) : Int × Option Notice :=
  if value = .scalar .undefined then (0, none)
  else
    match value.parseInt with
    | none => (0, some ⟨.notNumber index .offset_mins value, fieldStatus index .offset_mins⟩)
    | some n =>
      if n < MINIMUM_OFFSET_MINS ∨ n > MAXIMUM_OFFSET_MINS then
        (0, some ⟨.outOfRange index .offset_mins value, fieldStatus index .offset_mins⟩)
      else (n, none)

/-- Lines 218-233: a field read with `parseInt` and kept when it is within
`0..hi` (`brightness`). -/
def GetFades.intField (field : FadeField) (hi : ℚ) (index : Nat) (value : Value) :
    Option ℚ × Option Notice :=
  if value = .scalar .undefined then (none, none)
  else
    match value.parseInt with
    | none => (none, some ⟨.notNumber index field value, fieldStatus index field⟩)
    | some n =>
      if (n : ℚ) < 0 ∨ (n : ℚ) > hi then
        (none, some ⟨.outOfRange index field value, fieldStatus index field⟩)
      else (some (n : ℚ), none)

/-- The test `x < lo || x > hi` on a number that is not `NaN`. -/
def outside (lo hi : ℚ) : JSNum → Bool
  | .fin q => q < lo || q > hi
  | _ => true

/-- Lines 235-284: a field read with `parseFloat` and kept when it is within
`lo..hi` (`brightness_pct`, `color_temp`, `kelvin`). -/
def GetFades.floatField (field : FadeField) (lo hi : ℚ) (index : Nat) (value : Value) :
    Option ℚ × Option Notice :=
  if value = .scalar .undefined then (none, none)
  else
    match value.parseFloat with
    | .nan => (none, some ⟨.notNumber index field value, fieldStatus index field⟩)
    | x =>
      if outside lo hi x then
        (none, some ⟨.outOfRange index field value, fieldStatus index field⟩)
      else
        match x with
        | .fin q => (some q, none)
        | _ => (none, none)

/-- The array of `parseInt(value)` over the elements of an rgb array, when every
value passes `Number.isInteger(value) && value >= 0 && value <= MAX_RGB`. -/
def GetFades.channels : List Scalar → Option (List ℚ)
  | [] => some []
  | p :: ps =>
    match p.parseInt with
    | some n =>
      if 0 ≤ (n : ℚ) ∧ (n : ℚ) ≤ MAX_RGB then (GetFades.channels ps).map (fun vs => (n : ℚ) :: vs)
      else none
    | none => none

/-- Lines 286-351: an array of `length` channels (`rgb_color`, `rgbw_color`,
`rgbww_color`). -/
def GetFades.intArrayField (field : FadeField) (length : Nat) (index : Nat) (value : Value) :
    Option (List ℚ) × Option Notice :=
  if value = .scalar .undefined then (none, none)
  else
    match value with
    | .array xs =>
      if xs.length = length then
        match GetFades.channels xs with
        | some vs => (some vs, none)
        | none => (none, some ⟨.invalidValues index field value, fieldStatus index field⟩)
      else (none, some ⟨.notArray index field value, fieldStatus index field⟩)
    | .scalar _ => (none, some ⟨.notArray index field value, fieldStatus index field⟩)

/-- The value `x` when it passes `Number.isFinite(x) && x >= lo && x <= hi`. -/
def finiteWithin (lo hi : ℚ) : JSNum → Option ℚ
  | .fin q => if lo ≤ q ∧ q ≤ hi then some q else none
  | _ => none

/-- Lines 353-378: `hs_color`, two numbers read with `parseFloat`, the first
within `0..MAX_HUE` and the second within `0..MAX_SAT`. -/
def GetFades.hsField (index : Nat) (value : Value) : Option (List ℚ) × Option Notice :=
  if value = .scalar .undefined then (none, none)
  else
    match value with
    | .array [h, s] =>
      match finiteWithin 0 MAX_HUE h.parseFloat, finiteWithin 0 MAX_SAT s.parseFloat with
      | some vh, some vs => (some [vh, vs], none)
      | _, _ => (none, some ⟨.invalidValues index .hs_color value, fieldStatus index .hs_color⟩)
    | _ => (none, some ⟨.notArray index .hs_color value, fieldStatus index .hs_color⟩)

/-- The array of `parseFloat(value)` over the elements of `xy_color`, when every
value passes `Number.isFinite(value) && value >= 0 && value <= MAX_XY`. -/
def GetFades.components : List Scalar → Option (List ℚ)
  | [] => some []
  | p :: ps =>
    match finiteWithin 0 MAX_XY p.parseFloat with
    | some q => (GetFades.components ps).map (fun vs => q :: vs)
    | none => none

/-- Lines 380-401: `xy_color`, two numbers read with `parseFloat`. -/
def GetFades.xyField (index : Nat) (value : Value) : Option (List ℚ) × Option Notice :=
  if value = .scalar .undefined then (none, none)
  else
    match value with
    | .array xs =>
      if xs.length = 2 then
        match GetFades.components xs with
        | some vs => (some vs, none)
        | none => (none, some ⟨.invalidValues index .xy_color value, fieldStatus index .xy_color⟩)
      else (none, some ⟨.notArray index .xy_color value, fieldStatus index .xy_color⟩)
    | .scalar _ => (none, some ⟨.notArray index .xy_color value, fieldStatus index .xy_color⟩)

/-- The validation of `fade.offset_mins`. -/
def GetFades.offset_mins (fade : RawFade) (index : Nat) : Int × Option Notice :=
  GetFades.offset index fade.offset_mins

/-- The validation of `fade.brightness`. -/
def GetFades.brightness (fade : RawFade) (index : Nat) : Option ℚ × Option Notice :=
  GetFades.intField .brightness MAX_BRIGHTNESS index fade.brightness

/-- The validation of `fade.brightness_pct`. -/
def GetFades.brightness_pct (fade : RawFade) (index : Nat) : Option ℚ × Option Notice :=
  GetFades.floatField .brightness_pct 0 MAX_BRIGHTNESS_PERCENT index fade.brightness_pct

/-- The validation of `fade.color_temp`. -/
def GetFades.color_temp (fade : RawFade) (index : Nat) : Option ℚ × Option Notice :=
  GetFades.floatField .color_temp MIN_MIREDS MAX_MIREDS index fade.color_temp

/-- The validation of `fade.kelvin`. -/
def GetFades.kelvin (fade : RawFade) (index : Nat) : Option ℚ × Option Notice :=
  GetFades.floatField .kelvin MIN_KELVIN MAX_KELVIN index fade.kelvin

/-- The validation of `fade.rgb_color`. -/
def GetFades.rgb_color (fade : RawFade) (index : Nat) : Option (List ℚ) × Option Notice :=
  GetFades.intArrayField .rgb_color 3 index fade.rgb_color

/-- The validation of `fade.rgbw_color`. -/
def GetFades.rgbw_color (fade : RawFade) (index : Nat) : Option (List ℚ) × Option Notice :=
  GetFades.intArrayField .rgbw_color 4 index fade.rgbw_color

/-- The validation of `fade.rgbww_color`. -/
def GetFades.rgbww_color (fade : RawFade) (index : Nat) : Option (List ℚ) × Option Notice :=
  GetFades.intArrayField .rgbww_color 5 index fade.rgbww_color

/-- The validation of `fade.hs_color`. -/
def GetFades.hs_color (fade : RawFade) (index : Nat) : Option (List ℚ) × Option Notice :=
  GetFades.hsField index fade.hs_color

/-- The validation of `fade.xy_color`. -/
def GetFades.xy_color (fade : RawFade) (index : Nat) : Option (List ℚ) × Option Notice :=
  GetFades.xyField index fade.xy_color

/-- The warnings of lines 194-401 for one element, in the order of the source. -/
def GetFades.fieldNotices (fade : RawFade) (index : Nat) : List Notice :=
  (GetFades.offset_mins fade index).2.toList ++ (GetFades.brightness fade index).2.toList ++
  (GetFades.brightness_pct fade index).2.toList ++ (GetFades.color_temp fade index).2.toList ++
  (GetFades.kelvin fade index).2.toList ++ (GetFades.rgb_color fade index).2.toList ++
  (GetFades.rgbw_color fade index).2.toList ++ (GetFades.rgbww_color fade index).2.toList ++
  (GetFades.hs_color fade index).2.toList ++ (GetFades.xy_color fade index).2.toList

/-- Lines 404-413: at least one of the nine attributes is left in `fadeResult`. -/
def GetFades.hasLevel (fade : RawFade) (index : Nat) : Bool :=
  (GetFades.brightness fade index).1.isSome || (GetFades.brightness_pct fade index).1.isSome ||
  (GetFades.color_temp fade index).1.isSome || (GetFades.kelvin fade index).1.isSome ||
  (GetFades.rgb_color fade index).1.isSome || (GetFades.rgbw_color fade index).1.isSome ||
  (GetFades.rgbww_color fade index).1.isSome || (GetFades.hs_color fade index).1.isSome ||
  (GetFades.xy_color fade index).1.isSome

/-- The body of the `forEach` of `GetFades` (lines 173-446) for the element `fade`
at `index`: the `fadeResult` that is pushed on `result`, if one is, and the
warnings in the order they are pushed. -/
def GetFades.element (suntimes : SunTimes) (zone : Zone) (now : Int) (fade : RawFade) (index : Nat) :
    Option FadeResult × List Notice :=
  match fade.time with
  | none => (none, [⟨.timeNotDefined index, elementStatus index⟩])
  | some time =>
    if !(suntimes.has time) && !(REGEX_HHMM time) then
      (none, [⟨.invalidTime index time, elementStatus index⟩])
    else if GetFades.hasLevel fade index then
      match GetFades.times suntimes zone now time (GetFades.offset_mins fade index).1 with
      | some (beforeTime, afterTime) =>
        (some
          { time := time
            offset_mins := (GetFades.offset_mins fade index).1
            brightness := (GetFades.brightness fade index).1
            brightness_pct := (GetFades.brightness_pct fade index).1
            color_temp := (GetFades.color_temp fade index).1
            kelvin := (GetFades.kelvin fade index).1
            rgb_color := (GetFades.rgb_color fade index).1
            rgbw_color := (GetFades.rgbw_color fade index).1
            rgbww_color := (GetFades.rgbww_color fade index).1
            hs_color := (GetFades.hs_color fade index).1
            xy_color := (GetFades.xy_color fade index).1
            beforeTime := beforeTime
            afterTime := afterTime },
          GetFades.fieldNotices fade index)
      | none => (none, GetFades.fieldNotices fade index)
    else
      (none, GetFades.fieldNotices fade index ++ [⟨.noLevels index, elementStatus index⟩])

/-- The loop `msg.fades.forEach((fade, index) => ...)`: `result` and `errors` as
they are after the elements from `index` on. -/
def GetFades.forEach (suntimes : SunTimes) (zone : Zone) (now : Int) :
    List RawFade → Nat → List FadeResult → Errors → List FadeResult × Errors
  | [], _, result, errors => (result, errors)
  | fade :: rest, index, result, errors =>
    GetFades.forEach suntimes zone now rest (index + 1)
      (match (GetFades.element suntimes zone now fade index).1 with
        | some fadeResult => result ++ [fadeResult]
        | none => result)
      ((GetFades.element suntimes zone now fade index).2.foldl Errors.note errors)

/-- How a call ends: it returns a value (`none` is `undefined`) or it throws. -/
inductive Completion (α : Type) where
  | returned (value : Option α) : Completion α
  | threw : Completion α
  deriving DecidableEq

/-- The function `GetFades(msg, suntimes, now, errors)`: how the call ends, and
`errors` as the call leaves it. With fewer than two valid entries, line 450
calls `errors.error`, which is `undefined` or a string and never a function: the
call throws a `TypeError`. -/
def GetFades (msg : Msg) (suntimes : SunTimes) (zone : Zone) (now : Int) (errors : Errors) :
    Completion (List FadeResult) × Errors :=
  match msg.fades with
  | .absent =>
    (.returned none,
      { errors with error := some "fades not defined in msg.", status := some "msg.fades error!" })
  | .notArray =>
    (.returned none,
      { errors with error := some "msg.fades is not an array.", status := some "msg.fades error!" })
  | .array elements =>
    if (GetFades.forEach suntimes zone now elements 0 [] errors).1.length < 2 then
      (.threw, (GetFades.forEach suntimes zone now elements 0 [] errors).2)
    else
      (.returned (some (GetFades.forEach suntimes zone now elements 0 [] errors).1),
        (GetFades.forEach suntimes zone now elements 0 [] errors).2)

/-- A validated number as a raw value. -/
def Value.ofNumber (q : ℚ) : Value := .scalar (.num (.fin q))

/-- A validated scalar attribute as a raw field. -/
def Value.ofAttribute : Option ℚ → Value
  | some q => Value.ofNumber q
  | none => .scalar .undefined

/-- A validated array attribute as a raw field. -/
def Value.ofArrayAttribute : Option (List ℚ) → Value
  | some qs => .array (qs.map fun q => .num (.fin q))
  | none => .scalar .undefined

/-- An element returned by `GetFades` read again as an element of `msg.fades`
(`beforeTime` and `afterTime` are properties that `GetFades` does not read). -/
def FadeResult.toRaw (f : FadeResult) : RawFade :=
  { time := some f.time
    offset_mins := Value.ofNumber f.offset_mins
    brightness := Value.ofAttribute f.brightness
    brightness_pct := Value.ofAttribute f.brightness_pct
    color_temp := Value.ofAttribute f.color_temp
    kelvin := Value.ofAttribute f.kelvin
    rgb_color := Value.ofArrayAttribute f.rgb_color
    rgbw_color := Value.ofArrayAttribute f.rgbw_color
    rgbww_color := Value.ofArrayAttribute f.rgbww_color
    hs_color := Value.ofArrayAttribute f.hs_color
    xy_color := Value.ofArrayAttribute f.xy_color }

/-! ## Notions used to state the properties of `GetFades` -/

/-- The time test of lines 178-189 passes: `time` is present and is `in suntimes`
(a named instant, or a name that the table inherits) or matches `REGEX_HHMM`. -/
def RawFade.TimeAccepted (fade : RawFade) (suntimes : SunTimes) : Prop :=
  ∃ time, fade.time = some time ∧ (suntimes.has time = true ∨ REGEX_HHMM time = true)

/-- The `fadeResult` of an element, which does not depend on its index. -/
def GetFades.validated (suntimes : SunTimes) (zone : Zone) (now : Int) (fade : RawFade) :
    Option FadeResult :=
  (GetFades.element suntimes zone now fade 0).1

/-- The warnings of all elements from `index` on, in the order they are pushed. -/
def GetFades.notices (suntimes : SunTimes) (zone : Zone) (now : Int) : List RawFade → Nat → List Notice
  | [], _ => []
  | fade :: rest, index =>
    (GetFades.element suntimes zone now fade index).2 ++
      GetFades.notices suntimes zone now rest (index + 1)

/-- What the text of a warning asks of a field. -/
def FadeField.requirement : FadeField → String
  | .offset_mins => "Must be within the range -720 to 720."
  | .brightness => "Must be between 0 and 255."
  | .brightness_pct => "Must be between 0 and 100."
  | .color_temp => "Must be between 150 and 500."
  | .kelvin => "Must be between 2000 and 6500."
  | .rgb_color => "Must be 3x integers between 0 and 255."
  | .rgbw_color => "Must be 4x integers between 0 and 255."
  | .rgbww_color => "Must be 5x integers between 0 and 255."
  | .hs_color =>
    "Must be 2x numbers, first element between 0 and 360 and second number between 0 and 100."
  | .xy_color => "Must be 2x numbers between 0 and 1."

/-- The number of elements that the text of a warning asks of an array field. -/
def FadeField.arity : FadeField → Nat
  | .rgb_color => 3
  | .rgbw_color => 4
  | .rgbww_color => 5
  | _ => 2

/-- The text of a warning. A template literal turns the raw value it quotes into
text; that conversion is the parameter `quote`, and `allowed` is the list of the
keys of `suntimes` as the text of `invalidTime` shows it. -/
def Warning.text (quote : Value → String) (allowed : String) : Warning → String
  | .timeNotDefined i => "time not defined in msg.fades[" ++ toString i ++ "]."
  | .invalidTime i time =>
    "Invalid time \x27" ++ time ++ "\x27 provided within msg.fades[" ++ toString i ++ "]. " ++
      "Must be either " ++ allowed ++ " or in the form hh:mm"
  | .notNumber i field value =>
    "Invalid msg.fades[" ++ toString i ++ "]." ++ field.name ++ " \x27" ++ quote value ++ "\x27. " ++
      (if field = .offset_mins ∨ field = .brightness then "Must be an integer."
        else "Must be a number.")
  | .outOfRange i field value =>
    (if field = .offset_mins then "Invaild" else "Invalid") ++ " msg.fades[" ++ toString i ++
      "]." ++ field.name ++ " \x27" ++ quote value ++ "\x27. " ++ field.requirement
  | .invalidValues i field value =>
    "Invalid values in msg.fades[" ++ toString i ++ "]." ++ field.name ++ " \x27" ++
      quote value ++ "\x27. " ++ field.requirement
  | .notArray i field value =>
    "Invalid msg.fades[" ++ toString i ++ "]." ++ field.name ++ " \x27" ++ quote value ++
      "\x27. Must be an array of exactly " ++ toString field.arity ++ " numbers."
  | .noLevels i => "No levels provided within msg.fades[" ++ toString i ++ "]. Skipping."
  | .invalidNow value =>
    "Invalid format provided for msg.now " ++ quote value ++ ". " ++
      "Use format yyyy-mm-ddThh:mm:ss.sssZ where Z means GMT, or -/+hhmm for another timezone."

/-- The decimal digit `n` as a character. -/
def digitChar (n : Nat) : Char := Char.ofNat (48 + n)

/-- A 24-hour clock string: an hour 0..23 written with one or two digits, a
colon, and a minute 00..59 written with two digits. -/
def ClockString (time : String) : Prop :=
  ∃ h m : Nat, h ≤ 23 ∧ m ≤ 59 ∧
    (time.data = [digitChar (h / 10), digitChar (h % 10), ':', digitChar (m / 10),
        digitChar (m % 10)] ∨
      (h ≤ 9 ∧ time.data = [digitChar h, ':', digitChar (m / 10), digitChar (m % 10)]))

/-- The raw value reads as an integer within `lo..hi`: `parseInt` gives a number
(not `NaN`) and the number is in range. -/
def Value.IntWithin (lo hi : ℚ) (value : Value) : Prop :=
  ∃ n : Int, value.parseInt = some n ∧ lo ≤ (n : ℚ) ∧ (n : ℚ) ≤ hi

/-- The raw value reads as a number within `lo..hi`: `parseFloat` gives a finite
number and the number is in range. -/
def Value.NumberWithin (lo hi : ℚ) (value : Value) : Prop :=
  ∃ q : ℚ, value.parseFloat = .fin q ∧ lo ≤ q ∧ q ≤ hi

/-- The raw value is an array of exactly `length` integers within 0..255. -/
def Value.ChannelArray (length : Nat) (value : Value) : Prop :=
  ∃ xs, value = .array xs ∧ xs.length = length ∧
    ∀ x ∈ xs, (Value.scalar x).IntWithin 0 255

/-- The raw value is an array of exactly two numbers, a hue within 0..360 and a
saturation within 0..100. -/
def Value.HueSaturation (value : Value) : Prop :=
  ∃ h s, value = .array [h, s] ∧ (Value.scalar h).NumberWithin 0 360 ∧
    (Value.scalar s).NumberWithin 0 100

/-- The raw value is an array of exactly two numbers within 0..1. -/
def Value.XyPair (value : Value) : Prop :=
  ∃ xs, value = .array xs ∧ xs.length = 2 ∧ ∀ x ∈ xs, (Value.scalar x).NumberWithin 0 1

/-- Each attribute is on the validated element `f` exactly when its raw value in
`fade` is of the right arity, numeric, finite and within range. -/
def FadeResult.KeepsValidFieldsOf (f : FadeResult) (fade : RawFade) : Prop :=
  (f.brightness.isSome = true ↔ fade.brightness.IntWithin 0 255) ∧
  (f.brightness_pct.isSome = true ↔ fade.brightness_pct.NumberWithin 0 100) ∧
  (f.color_temp.isSome = true ↔ fade.color_temp.NumberWithin 150 500) ∧
  (f.kelvin.isSome = true ↔ fade.kelvin.NumberWithin 2000 6500) ∧
  (f.rgb_color.isSome = true ↔ fade.rgb_color.ChannelArray 3) ∧
  (f.rgbw_color.isSome = true ↔ fade.rgbw_color.ChannelArray 4) ∧
  (f.rgbww_color.isSome = true ↔ fade.rgbww_color.ChannelArray 5) ∧
  (f.hs_color.isSome = true ↔ fade.hs_color.HueSaturation) ∧
  (f.xy_color.isSome = true ↔ fade.xy_color.XyPair)

/-- A number that `String` writes in plain decimal notation: zero, or of
magnitude from 1e-6 up to 1e21. -/
def PlainNotation (q : ℚ) : Prop := q = 0 ∨ (1 / 1000000 ≤ |q| ∧ |q| < 10 ^ 21)

/-- The raw value of a field of an element. -/
def RawFade.get (fade : RawFade) : FadeField → Value
  | .offset_mins => fade.offset_mins
  | .brightness => fade.brightness
  | .brightness_pct => fade.brightness_pct
  | .color_temp => fade.color_temp
  | .kelvin => fade.kelvin
  | .rgb_color => fade.rgb_color
  | .rgbw_color => fade.rgbw_color
  | .rgbww_color => fade.rgbww_color
  | .hs_color => fade.hs_color
  | .xy_color => fade.xy_color

/-- The element with the raw value of one field replaced. -/
def RawFade.set (fade : RawFade) (field : FadeField) (value : Value) : RawFade :=
  match field with
  | .offset_mins => { fade with offset_mins := value }
  | .brightness => { fade with brightness := value }
  | .brightness_pct => { fade with brightness_pct := value }
  | .color_temp => { fade with color_temp := value }
  | .kelvin => { fade with kelvin := value }
  | .rgb_color => { fade with rgb_color := value }
  | .rgbw_color => { fade with rgbw_color := value }
  | .rgbww_color => { fade with rgbww_color := value }
  | .hs_color => { fade with hs_color := value }
  | .xy_color => { fade with xy_color := value }

/-- The warning that the validation of one field pushes, if it pushes one. -/
def GetFades.notice (fade : RawFade) (index : Nat) : FadeField → Option Notice
  | .offset_mins => (GetFades.offset_mins fade index).2
  | .brightness => (GetFades.brightness fade index).2
  | .brightness_pct => (GetFades.brightness_pct fade index).2
  | .color_temp => (GetFades.color_temp fade index).2
  | .kelvin => (GetFades.kelvin fade index).2
  | .rgb_color => (GetFades.rgb_color fade index).2
  | .rgbw_color => (GetFades.rgbw_color fade index).2
  | .rgbww_color => (GetFades.rgbww_color fade index).2
  | .hs_color => (GetFades.hs_color fade index).2
  | .xy_color => (GetFades.xy_color fade index).2

/-- Whether an attribute is left in `fadeResult` by its validation. -/
def GetFades.survives (fade : RawFade) (index : Nat) : FadeField → Bool
  | .offset_mins => true
  | .brightness => (GetFades.brightness fade index).1.isSome
  | .brightness_pct => (GetFades.brightness_pct fade index).1.isSome
  | .color_temp => (GetFades.color_temp fade index).1.isSome
  | .kelvin => (GetFades.kelvin fade index).1.isSome
  | .rgb_color => (GetFades.rgb_color fade index).1.isSome
  | .rgbw_color => (GetFades.rgbw_color fade index).1.isSome
  | .rgbww_color => (GetFades.rgbww_color fade index).1.isSome
  | .hs_color => (GetFades.hs_color fade index).1.isSome
  | .xy_color => (GetFades.xy_color fade index).1.isSome

/-- The nine attribute fields, in the order `GetFades` validates them. -/
def attributeFields : List FadeField :=
  [.brightness, .brightness_pct, .color_temp, .kelvin, .rgb_color, .rgbw_color, .rgbww_color,
   .hs_color, .xy_color]

/-- The message `{fades: [{time: "06:00", brightness: 300}]}`. -/
def singleEntryMsg : Msg :=
  { fades := .array [{ time := some "06:00", brightness := Value.ofNumber 300 }] }

/-- The message of the witnesses: three elements, the second without levels. -/
def threeEntryMsg : Msg :=
  { fades := .array
      [{ time := some "06:00", brightness := Value.ofNumber 100 },
       { time := some "12:00", brightness := Value.ofNumber 300 },
       { time := some "18:00", brightness := Value.ofNumber 200 }] }

/-- The list that `GetFades` returns for `threeEntryMsg` at 07:00 of day 20000 (UTC). -/
def threeEntryList : List FadeResult :=
  [{ time := "06:00", offset_mins := 0, brightness := some 100,
     beforeTime := 1728021600000, afterTime := 1728108000000 },
   { time := "18:00", offset_mins := 0, brightness := some 200,
     beforeTime := 1727978400000, afterTime := 1728064800000 }]

/-- The `errors` object after `GetFades` on `threeEntryMsg`. -/
def threeEntryErrors : Errors :=
  { warn := [.outOfRange 1 .brightness (Value.ofNumber 300), .noLevels 1]
    status := some "msg.fades[1].brightness is invalid!" }

/-- Each rounded attribute of the validated element `f` is what the parser of its
field reads in the raw element `fade`: `parseInt` for `brightness` and the rgb
channels, which are therefore integers, and `parseFloat` for `brightness_pct`,
`color_temp` and `kelvin`, which keep their fraction. -/
def FadeResult.ParsedFrom (f : FadeResult) (fade : RawFade) : Prop :=
  (∀ v ∈ f.brightness, ∃ n : Int, fade.brightness.parseInt = some n ∧ v = n) ∧
  (∀ v ∈ f.brightness_pct, fade.brightness_pct.parseFloat = .fin v) ∧
  (∀ v ∈ f.color_temp, fade.color_temp.parseFloat = .fin v) ∧
  (∀ v ∈ f.kelvin, fade.kelvin.parseFloat = .fin v) ∧
  (∀ vs ∈ f.rgb_color, ∃ xs, fade.rgb_color = .array xs ∧
    List.Forall₂ (fun (x : Scalar) (v : ℚ) => ∃ n : Int, x.parseInt = some n ∧ v = n) xs vs) ∧
  (∀ vs ∈ f.rgbw_color, ∃ xs, fade.rgbw_color = .array xs ∧
    List.Forall₂ (fun (x : Scalar) (v : ℚ) => ∃ n : Int, x.parseInt = some n ∧ v = n) xs vs) ∧
  (∀ vs ∈ f.rgbww_color, ∃ xs, fade.rgbww_color = .array xs ∧
    List.Forall₂ (fun (x : Scalar) (v : ℚ) => ∃ n : Int, x.parseInt = some n ∧ v = n) xs vs)

/-- The message `{fades: [{time: "06:00", color_temp: 200.7}, {time: "18:00",
color_temp: 300}]}`. -/
def fractionalMsg : Msg :=
  { fades := .array
      [{ time := some "06:00", color_temp := Value.ofNumber (2007 / 10) },
       { time := some "18:00", color_temp := Value.ofNumber 300 }] }

/-- The list that `GetFades` returns for `fractionalMsg` at 07:00 of day 20000 (UTC). -/
def fractionalList : List FadeResult :=
  [{ time := "06:00", offset_mins := 0, color_temp := some (2007 / 10),
     beforeTime := 1728021600000, afterTime := 1728108000000 },
   { time := "18:00", offset_mins := 0, color_temp := some 300,
     beforeTime := 1727978400000, afterTime := 1728064800000 }]

/-- The message `{fades: [{time: "06:00", offset_mins: 12.7, brightness: 100},
{time: "18:00", brightness: 200}]}`. -/
def fractionalOffsetMsg : Msg :=
  { fades := .array
      [{ time := some "06:00", offset_mins := Value.ofNumber (127 / 10),
         brightness := Value.ofNumber 100 },
       { time := some "18:00", brightness := Value.ofNumber 200 }] }

/-- The list that `GetFades` returns for `fractionalOffsetMsg` at 07:00 of day
20000 (UTC). -/
def fractionalOffsetList : List FadeResult :=
  [{ time := "06:00", offset_mins := 12, brightness := some 100,
     beforeTime := 1728022320000, afterTime := 1728108720000 },
   { time := "18:00", offset_mins := 0, brightness := some 200,
     beforeTime := 1727978400000, afterTime := 1728064800000 }]

/-- The element `{time: "06:00", brightness: 100, rgb_color: [1, 2]}`, whose
`rgb_color` has two channels instead of three. -/
def shortRgbFade : RawFade :=
  { time := some "06:00", brightness := Value.ofNumber 100,
    rgb_color := .array [.num (.fin 1), .num (.fin 2)] }

/-- The element `{time: "25:00", brightness: 100}`, whose time is no clock time. -/
def badTimeFade : RawFade :=
  { time := some "25:00", brightness := Value.ofNumber 100 }

/-- The element `{time: "12:00", brightness: 300}`, whose only attribute is out of
range. -/
def noLevelFade : RawFade :=
  { time := some "12:00", brightness := Value.ofNumber 300 }

/-- The element `{time: "25:00", brightness: 100, rgb_color: [1, 2]}`: its time is
no clock time and its `rgb_color` has two channels. -/
def badTimeRgbFade : RawFade :=
  { time := some "25:00", brightness := Value.ofNumber 100,
    rgb_color := .array [.num (.fin 1), .num (.fin 2)] }

/-! ## `SwitchOn`, `GetLocation`, `GetNowOffset` and `IsStaticFade` -/

def MIN_LATITUDE : ℚ := -90
def MAX_LATITUDE : ℚ := 90
def MIN_LONGITUDE : ℚ := -180
def MAX_LONGITUDE : ℚ := 180

/-- The conversion of a primitive value to a boolean, as a condition does it. -/
def Scalar.truthy : Scalar → Bool
  | .undefined => false
  | .null => false
  | .bool b => b
  | .num .nan => false
  | .num (.fin q) => decide (q ≠ 0)
  | .num _ => true
  | .str s => decide (s ≠ "")

/-- The conversion of a value to a boolean: an array is an object, which is true. -/
def Value.truthy : Value → Bool
  | .scalar p => p.truthy
  | .array _ => true

/-- The condition `msg.payload`. -/
def Payload.truthy : Payload → Bool
  | .absent => false
  | .value v => v.truthy
  | .object _ => true

/-- The read `msg.payload.service` of a payload that passed the condition
`msg.payload`: `undefined` when the payload is not an object. -/
def Payload.service : Payload → Value
  | .object service => service
  | _ => .scalar .undefined

/-- The object that `SwitchOn` returns: `activate` and `enabled` are `none` when
they are not assigned. -/
structure Switch where
  topic : String
  activate : Option Bool := none
  enabled : Option Bool := none
  deriving DecidableEq

/-- The function `SwitchOn(msg)` (lines 52-78). -/
def SwitchOn (msg : Msg) : Switch :=
  { topic :=
      match msg.topic with
      | some topic => if topic ≠ "" then topic else "_none"
      | none => "_none"
    activate :=
      if msg.payload.truthy then
        if msg.payload.service = .scalar (.str "turn_on") ∨
            msg.payload.service = .scalar (.str "on") ∨
            msg.payload.service = .scalar (.bool true) then some true
        else if msg.payload.service ≠ .scalar .undefined ∧
            msg.payload.service ≠ .scalar (.str "") ∧
            msg.payload.service ≠ .scalar .null then some false
        else none
      else none
    enabled :=
      match msg.alx_enabled with
      | some v => some (v.truthy && decide (v ≠ .scalar (.str "false")))
      | none => none }

/-- The object that `GetLocation` returns: the two numbers that `parseFloat` read. -/
structure Location where
  latitude : JSNum
  longitude : JSNum
  deriving DecidableEq

/-- The function `GetLocation(msg, errors)` (lines 92-125): the value it returns
(`none` is `undefined`) and `errors` as the call leaves it. The template
literals turn the raw value into text with `quote`. In the first branch line 96
assigns `errors.error` and line 97 assigns `errors.error` again: `errors.status`
is not assigned there. -/
def GetLocation (quote : Value → String) (msg : Msg) (errors : Errors) :
    Option Location × Errors :=
  let missing : Errors :=
    { { errors with
        error := some "msg.location.latitude and/or msg.location.longitude not defined." } with
      error := some "msg.location error!" }
  match msg.location with
  | none => (none, missing)
  | some location =>
    if location.latitude = .scalar .undefined ∨ location.longitude = .scalar .undefined then
      (none, missing)
    else
      let latitude := location.latitude.parseFloat
      let longitude := location.longitude.parseFloat
      if latitude = .nan then
        (none,
          { errors with
            error := some ("msg.location.latitude " ++ quote location.latitude ++
              " is not a number.")
            status := some "msg.location error!" })
      else if outside MIN_LATITUDE MAX_LATITUDE latitude then
        (none,
          { errors with
            error := some ("msg.location.latitude " ++ quote location.latitude ++
              " is not between -90 and 90 degrees.")
            status := some "msg.location error!" })
      else if longitude = .nan then
        (none,
          { errors with
            error := some ("msg.location.longitude " ++ quote location.longitude ++
              " is not a number.")
            status := some "msg.location error!" })
      else if outside MIN_LONGITUDE MAX_LONGITUDE longitude then
        (none,
          { errors with
            error := some ("msg.location.longitude " ++ quote location.longitude ++
              " is not between -180 and 180 degrees.")
            status := some "msg.location error!" })
      else (some { latitude := latitude, longitude := longitude }, errors)

/-- The function `GetNowOffset(msg, errors)` (lines 473-489): the offset in
milliseconds and `errors` as the call leaves it. `parse` is `Date.parse` (`none`
is `NaN`) and `clock` is the time value of `new Date()`. -/
def GetNowOffset (parse : Value → Option Int) (clock : Int) (msg : Msg) (errors : Errors) :
    Int × Errors :=
  if msg.now ≠ .scalar .undefined then
    match parse msg.now with
    | none => (0, errors.note ⟨.invalidNow msg.now, "msg.now invalid!"⟩)
    | some result => (result - clock, errors)
  else (0, errors)

/-- The value of an attribute of a value set: a number or an array of numbers. -/
inductive Attribute where
  | number (x : JSNum) : Attribute
  | array (xs : List JSNum) : Attribute
  deriving DecidableEq

/-- The read `r[key]` of a value set; `none` is `undefined`. -/
def FadeData.get (r : FadeData) (key : String) : Option Attribute :=
  if key = "brightness" then r.brightness.map .number
  else if key = "brightness_pct" then r.brightness_pct.map .number
  else if key = "color_temp" then r.color_temp.map .number
  else if key = "kelvin" then r.kelvin.map .number
  else if key = "rgb_color" then r.rgb_color.map .array
  else if key = "rgbw_color" then r.rgbw_color.map .array
  else if key = "rgbww_color" then r.rgbww_color.map .array
  else if key = "hs_color" then r.hs_color.map .array
  else if key = "xy_color" then r.xy_color.map .array
  else none

/-- The global function `isFinite(v)`, which converts `v` to a number first: an
array converts through its text, so that the empty array is 0, an array of one
number is that number, and a longer array is `NaN`. -/
def Attribute.isFinite : Attribute → Bool
  | .number (.fin _) => true
  | .number _ => false
  | .array [] => true
  | .array [.fin _] => true
  | .array _ => false

/-- The comparison `x !== y` of two numbers. -/
def JSNum.strictNe (x y : JSNum) : Bool :=
  x = .nan || y = .nan || decide (x ≠ y)

/-- The comparison `before[val] !== after[val]`: two numbers compare by value;
two arrays are two objects, which are never the same object here. -/
def Attribute.strictNe : Attribute → Attribute → Bool
  | .number x, .number y => x.strictNe y
  | _, _ => true

/-- The callback of the `forEach` of `IsStaticFade` (lines 593-619) for the
attribute `val`: it returns `false` or nothing (`none`), or it throws: the loop
variable `i` is assigned without a declaration, which strict mode refuses unless
the global object has a property `i`. -/
def IsStaticFade.callback (globals : List String) (before after : FadeData) (val : String) :
    Completion Bool :=
  match before.get val, after.get val with
  | some b, some a =>
    if b.isFinite && a.isFinite then
      if b.strictNe a then .returned (some false) else .returned none
    else
      match b, a with
      | .array xs, .array ys =>
        if xs.length = ys.length then
          if "i" ∈ globals then
            if (List.zip xs ys).any (fun p => p.1.strictNe p.2) then .returned (some false)
            else .returned none
          else .threw
        else .returned (some false)
      | _, _ => .returned none
  | _, _ => .returned none

/-- The call `values.forEach(val => ...)`: the value that a callback returns is
dropped; the loop ends early only when a callback throws. -/
def IsStaticFade.forEach (globals : List String) (before after : FadeData) :
    List String → Completion Bool
  | [] => .returned none
  | val :: rest =>
    match IsStaticFade.callback globals before after val with
    | .threw => .threw
    | .returned _ => IsStaticFade.forEach globals before after rest

/-- The function `IsStaticFade(before, after)` (lines 588-622). `validate.js` is
strict code (`"use strict"`, line 3) and line 589 assigns `values` without a
declaration: the call throws a `ReferenceError` unless the global object has a
property `values`; `globals` lists the properties of the global object. Past
that assignment the function runs the loop and returns `true` (line 620). -/
def IsStaticFade (globals : List String) (before after : FadeData) : Completion Bool :=
  if "values" ∈ globals then
    match IsStaticFade.forEach globals before after attributeNames with
    | .threw => .threw
    | .returned _ => .returned (some true)
  else .threw

/-! ## The node of `adaptive-lighting.js` -/

/-- What the node takes from outside the repository: the conversion of a value to
text in a template literal (`quote`), `Date.parse` (`parse`, `none` is `NaN`),
the local time zone (`zone`) and `SunCalc.getTimes(date, latitude,
longitude)` (`getTimes`). -/
structure Env where
  quote : Value → String
  parse : Value → Option Int
  zone : Zone
  getTimes : Int → JSNum → JSNum → SunTimes

/-- The method `Date.prototype.getMilliseconds()`. -/
def getMilliseconds (zone : Zone) (t : Int) : Int := msFromTime (LocalTime zone t)

/-- The body of the loops of lines 127-134 and 202-209 for the element `vFade`:
the pair `(closestBefore, closestAfter)` after it; `none` is `undefined`. -/
def selectClosest.step (closest : Option FadeResult × Option FadeResult) (vFade : FadeResult) :
    Option FadeResult × Option FadeResult :=
  (match closest.1 with
    | none => some vFade
    | some closestBefore =>
      if closestBefore.beforeTime ≤ vFade.beforeTime then some vFade else some closestBefore,
   match closest.2 with
    | none => some vFade
    | some closestAfter =>
      if closestAfter.afterTime > vFade.afterTime then some vFade else some closestAfter)

/-- The loops `fades.forEach(vFade => ...)` of lines 127-134 and 202-209, from
`closestBefore` and `closestAfter` both `undefined`. -/
def selectClosest (fades : List FadeResult) : Option FadeResult × Option FadeResult :=
  fades.foldl selectClosest.step (none, none)

/-- The times `beforeTime` and `afterTime` of every element of `fades` are valid
dates. -/
def ValidTimes (fades : List FadeResult) : Prop :=
  ∀ f ∈ fades, f.beforeTime.isValid = true ∧ f.afterTime.isValid = true

/-- The object `result` of `setupAction` without its `errors`. The properties that
`recurringAction` deletes are `none` when they are absent. -/
structure SetupResult where
  now_offset : Int
  now : Int
  location : Location
  suntimes : Option SunTimes
  fades : Option (List FadeResult)
  closestBefore : Option FadeResult
  closestAfter : Option FadeResult
  deriving DecidableEq

/-- The object `validatedInput` of the input handler: the result of `setupAction`
with the `topic` that the handler adds and the `lastData` that `initialAction` and
`recurringAction` add (`none` when there is none yet). -/
structure Validated extends SetupResult where
  topic : String
  lastData : Option FadeData := none
  deriving DecidableEq

/-- How `setupAction` ends: `checkErrors` found `errors.error` set (`failed`), the
result is complete (`ready`), or a call threw. -/
inductive Setup where
  | failed (errors : Errors) : Setup
  | ready (result : SetupResult) (errors : Errors) : Setup
  | threw : Setup
  deriving DecidableEq

/-- The function `setupAction(msg, send, done)` (lines 92-138) at the instant
`clock`. The calls of `node.status`, `done` and `node.error` in `checkErrors`
report the error and are not part of the embedding. -/
def setupAction (env : Env) (clock : Int) (msg : Msg) : Setup :=
  let offset := GetNowOffset env.parse clock msg {}
  if offset.2.error.isSome then .failed offset.2
  else
    let now := setMilliseconds env.zone clock (getMilliseconds env.zone clock + offset.1)
    let located := GetLocation env.quote msg offset.2
    if located.2.error.isSome then .failed located.2
    else
      match located.1 with
      | none => .threw
      | some location =>
        let suntimes := env.getTimes now location.latitude location.longitude
        match GetFades msg suntimes env.zone now located.2 with
        | (.threw, _) => .threw
        | (.returned fades, errors) =>
          if errors.error.isSome then .failed errors
          else
            match fades with
            | none => .threw
            | some fades =>
              .ready
                { now_offset := offset.1
                  now := now
                  location := location
                  suntimes := some suntimes
                  fades := some fades
                  closestBefore := (selectClosest fades).1
                  closestAfter := (selectClosest fades).2 }
                errors

/-- A message that the node sends: the message it received (`send(msg)`), or a
clone of it with the keys of `data` copied into `payload.data`, `alx_enabled`
set, and `payload.data.transition` set on a recurring message. -/
inductive Sent where
  | original (msg : Msg) : Sent
  | adaptive (msg : Msg) (data : FadeData) (transition : Option ℚ) : Sent
  deriving DecidableEq

/-- The timer that the input handler stores in `node.topics`: its handler runs
`recurringAction` on the `validatedInput` and the `msg` it captured. -/
structure Timer where
  validated : Validated
  msg : Msg
  deriving DecidableEq

/-- The state of the node: the objects `node.enabled` and `node.topics`, as the
lists of their keys with the values. -/
structure Node where
  enabled : List (String × Bool) := []
  topics : List (String × Timer) := []
  deriving DecidableEq

/-- The assignment `table[key] = value`. -/
def assign {α : Type} (table : List (String × α)) (key : String) (value : α) :
    List (String × α) :=
  if (table.lookup key).isSome then
    table.map fun entry => if entry.1 = key then (key, value) else entry
  else table ++ [(key, value)]

/-- The statement `delete table[key]`. -/
def remove {α : Type} (table : List (String × α)) (key : String) : List (String × α) :=
  table.filter fun entry => entry.1 ≠ key

/-- The function `clearTimer(topic)` (lines 84-90, `node.perTopic` is `true`): the
`clear` of a timer ends it and deletes its entry of `node.topics`. -/
def clearTimer (node : Node) (topic : String) : Node :=
  match node.topics.lookup topic with
  | some _ => { node with topics := remove node.topics topic }
  | none => node

/-- The function `initialAction(validated, msg, send, done)` (lines 140-163):
`validated` after it and the message it sends, or `none` when it throws (`Fade`
returned nothing, and `Object.keys(vData)` throws). -/
def initialAction (node : Node) (validated : Validated) (msg : Msg) :
    Option (Validated × Sent) :=
  if node.enabled.lookup validated.topic = some true then
    match validated.closestBefore, validated.closestAfter with
    | some before, some after =>
      match Fade before after validated.now with
      | some vData => some ({ validated with lastData := some vData }, .adaptive msg vData none)
      | none => none
    | _, _ => none
  else some (validated, .original msg)

/-- Lines 225-235 of `recurringAction`: the flag `lastDataEqual`. Only the keys of
`vData` are compared, with `_.isEqual`. -/
def lastDataEqual (vData : FadeData) : Option FadeData → Bool
  | some lastData => vData.keys.all fun key => decide (vData.get key = lastData.get key)
  | none => false

/-- How a run of `recurringAction` ends: `validated` after it, the messages it
sent, and whether it threw. -/
structure Tick where
  validated : Validated
  sent : List Sent := []
  threw : Bool := false
  deriving DecidableEq

/-- Lines 168-171 of `recurringAction`: the new `validated.now`. -/
def recurringAction.now (env : Env) (clock : Int) (validated : Validated) : Int :=
  if validated.now_offset ≠ 0 then
    setMilliseconds env.zone clock (getMilliseconds env.zone clock + validated.now_offset)
  else clock

/-- The condition of lines 175-178 of `recurringAction`: `now` lies outside the
window, or a bracket is missing. -/
def recurringAction.outside (validated : Validated) (now : Int) : Bool :=
  match validated.closestBefore, validated.closestAfter with
  | some closestBefore, some closestAfter =>
    decide (JSDate.valid now < closestBefore.beforeTime) ||
      decide (JSDate.valid now > closestAfter.afterTime)
  | _, _ => true

/-- Lines 212-253 of `recurringAction`: the message of an enabled channel. -/
def recurringAction.emit (node : Node) (validated : Validated) (msg : Msg) : Tick :=
  if node.enabled.lookup validated.topic = some true then
    match validated.closestBefore, validated.closestAfter with
    | some before, some after =>
      match Fade before after validated.now with
      | some vData =>
        if !(lastDataEqual vData validated.lastData) then
          { validated := { validated with lastData := some vData }
            sent := [.adaptive msg vData (some (5000 / 1000))] }
        else { validated := validated }
      | none => { validated := validated, threw := true }
    | _, _ => { validated := validated, threw := true }
  else { validated := validated }

/-- The function `recurringAction(validated, msg, send, done)` (lines 165-254) at
the instant `clock`. -/
def recurringAction (env : Env) (clock : Int) (node : Node) (validated : Validated) (msg : Msg) :
    Tick :=
  let now := recurringAction.now env clock validated
  let validated : Validated := { validated with now := now }
  if recurringAction.outside validated now then
    let suntimes := env.getTimes now validated.location.latitude validated.location.longitude
    let validated : Validated :=
      { validated with
        suntimes := some suntimes, fades := none, closestBefore := none, closestAfter := none }
    match GetFades msg suntimes env.zone now {} with
    | (.threw, _) => { validated := validated, threw := true }
    | (.returned fades, errors) =>
      if errors.error.isSome then { validated := { validated with fades := fades } }
      else
        match fades with
        | none => { validated := validated, threw := true }
        | some fades =>
          recurringAction.emit node
            { validated with
              fades := some fades
              closestBefore := (selectClosest fades).1
              closestAfter := (selectClosest fades).2 }
            msg
  else recurringAction.emit node validated msg

/-- How a run of the input handler ends: the state of the node, the messages it
sent, and whether it threw. -/
structure Step where
  node : Node
  sent : List Sent := []
  threw : Bool := false
  deriving DecidableEq

/-- Lines 271-286 of the input handler: `node.enabled` after the flag of the
message is taken in. -/
def input.enabled (node : Node) (validatedActive : Switch) : Node :=
  match validatedActive.enabled with
  | some enabled => { node with enabled := assign node.enabled validatedActive.topic enabled }
  | none =>
    if (node.enabled.lookup validatedActive.topic).isSome then node
    else { node with enabled := assign node.enabled validatedActive.topic true }

/-- The handler `node.on('input', ...)` (lines 260-326) at the instant `clock`.
The calls of `checkErrors` and `checkWarningsAndClose` report to the runtime and
leave the state of the node alone. -/
def input (env : Env) (clock : Int) (node : Node) (msg : Msg) : Step :=
  let validatedActive := SwitchOn msg
  let node := input.enabled node validatedActive
  match validatedActive.activate with
  | none => { node := node, sent := [.original msg] }
  | some true =>
    match setupAction env clock msg with
    | .threw => { node := node, threw := true }
    | .failed _ => { node := node }
    | .ready result _ =>
      let node := clearTimer node validatedActive.topic
      match initialAction node { toSetupResult := result, topic := validatedActive.topic } msg with
      | none => { node := node, threw := true }
      | some (validatedInput, sent) =>
        { node := { node with
                    topics := assign node.topics validatedActive.topic ⟨validatedInput, msg⟩ }
          sent := [sent] }
  | some false => { node := clearTimer node validatedActive.topic, sent := [.original msg] }

/-! ## Examples and notions used to state the properties of the node -/

/-- The message `{topic: "lamp", payload: {service: "turn_on"}}`. -/
def turnOnMsg : Msg :=
  { topic := some "lamp", payload := .object (.scalar (.str "turn_on")) }

/-- The message `{topic: "", payload: {service: "turn_off"}}`. -/
def turnOffMsg : Msg :=
  { topic := some "", payload := .object (.scalar (.str "turn_off")) }

/-- The message `{location: {latitude: "53.63", longitude: -151.2}}`. -/
def locatedMsg : Msg :=
  { location := some
      { latitude := .scalar (.str "53.63"), longitude := Value.ofNumber (-756 / 5) } }

/-- The message `{location: {latitude: 91, longitude: "east"}}`: both fields are
invalid. -/
def misplacedMsg : Msg :=
  { location := some { latitude := Value.ofNumber 91, longitude := .scalar (.str "east") } }

/-- The message `{now: "noon"}`: a `now` that `Date.parse` does not read, and no
location. -/
def badNowMsg : Msg := { now := .scalar (.str "noon") }

/-- The message `{now: "2024-10-04T07:00:00.000Z"}`. -/
def nowMsg : Msg := { now := .scalar (.str "2024-10-04T07:00:00.000Z") }

/-- An environment in which `Date.parse` reads the text
`2024-10-04T07:00:00.000Z` and nothing else, the zone is UTC and `SunCalc` gives
no named instant. -/
def plainEnv : Env :=
  { quote := fun _ => ""
    parse := fun v =>
      if v = .scalar (.str "2024-10-04T07:00:00.000Z") then some 1728025200000 else none
    zone := 0
    getTimes := fun _ _ _ => [] }

/-- The value set `{brightness: 100}`. -/
def dimData : FadeData := { brightness := some (.fin 100) }

/-- The value set `{brightness: 200}`. -/
def brightData : FadeData := { brightness := some (.fin 200) }

/-- The message of the witnesses of the node: the three elements of
`threeEntryMsg`, a location, the topic `lamp` and the service `turn_on`. -/
def lampMsg : Msg :=
  { fades := .array
      [{ time := some "06:00", brightness := Value.ofNumber 100 },
       { time := some "12:00", brightness := Value.ofNumber 300 },
       { time := some "18:00", brightness := Value.ofNumber 200 }]
    location := some { latitude := Value.ofNumber 53, longitude := Value.ofNumber (-1) }
    topic := some "lamp"
    payload := .object (.scalar (.str "turn_on")) }

/-- The result of `setupAction` on `lampMsg` at 07:00 of day 20000 (UTC). -/
def lampSetup : SetupResult :=
  { now_offset := 0
    now := 1728025200000
    location := { latitude := .fin 53, longitude := .fin (-1) }
    suntimes := some []
    fades := some threeEntryList
    closestBefore := threeEntryList.get? 0
    closestAfter := threeEntryList.get? 1 }

/-- The value set that a run of `recurringAction` computes from the brackets and
the `now` it leaves in `validated`: `Fade(closestBefore, closestAfter, now)`;
`none` when a bracket is missing or `Fade` returns nothing. -/
def Tick.vData (r : Tick) : Option FadeData :=
  match r.validated.closestBefore, r.validated.closestAfter with
  | some before, some after => Fade before after r.validated.now
  | _, _ => none

/-- The handler of the timer of `topic` (lines 310-311) at the instant `clock`:
`recurringAction` on the `validatedInput` and the `msg` that the timer holds. -/
def tick (env : Env) (clock : Int) (node : Node) (topic : String) : Option Tick :=
  (node.topics.lookup topic).map fun timer =>
    recurringAction env clock node timer.validated timer.msg

/-- A message with three anchors, of which the last has no `color_temp`:
`06:00` and `12:00` with `brightness` 100 and `color_temp` 300, `18:00` with
`brightness` 100. -/
def shiftMsg : Msg :=
  { fades := .array
      [{ time := some "06:00", brightness := Value.ofNumber 100,
         color_temp := Value.ofNumber 300 },
       { time := some "12:00", brightness := Value.ofNumber 100,
         color_temp := Value.ofNumber 300 },
       { time := some "18:00", brightness := Value.ofNumber 100 }]
    location := some { latitude := Value.ofNumber 53, longitude := Value.ofNumber (-1) }
    topic := some "lamp"
    payload := .object (.scalar (.str "turn_on")) }

/-- The node after the input handler has run on `shiftMsg` at 07:00 of day 20000
(UTC), from the initial state. -/
def shiftNode : Node := (input plainEnv 1728025200000 {} shiftMsg).node

/-- The node after the input handler has run on `lampMsg` at 07:00 of day 20000
(UTC), from the initial state. -/
def lampNode : Node := (input plainEnv 1728025200000 {} lampMsg).node

/-- The `validatedInput` that the timer of `lampNode` holds. -/
def lampValidated : Validated :=
  { toSetupResult := lampSetup, topic := "lamp", lastData := some { brightness := some (.fin 108) } }

/-- The message `{topic: "lamp", payload: {service: "turn_on"}, alx_enabled:
false}`, without a location. -/
def flaggedMsg : Msg :=
  { topic := some "lamp", payload := .object (.scalar (.str "turn_on")),
    alx_enabled := some (.scalar (.bool false)) }

/-! ## Notions and inputs for the colours and for the dates that fail -/

/-- The components of `hs_color` and `xy_color` of the validated element `f` are
the numbers that `parseFloat` reads in the raw element `fade`, as they are. -/
def FadeResult.ColorsParsedFrom (f : FadeResult) (fade : RawFade) : Prop :=
  (∀ vs ∈ f.hs_color, ∃ h s, fade.hs_color = .array [h, s] ∧
    [h.parseFloat, s.parseFloat] = vs.map JSNum.fin) ∧
  (∀ vs ∈ f.xy_color, ∃ xs, fade.xy_color = .array xs ∧
    xs.map Scalar.parseFloat = vs.map JSNum.fin)

/-- The zone `Europe/London` for the instants between 29 October 2023 and 30
March 2025: summer time, one hour ahead of UTC, from 31 March 2024 01:00 UTC to
27 October 2024 01:00 UTC, and UTC otherwise. The local times from 01:00 to 02:00
of 31 March do not exist and those of 27 October come twice; they are read with
the offset in force before the change. -/
def europeLondon : Zone :=
  { offsetUTC := fun t => if 1711846800000 ≤ t ∧ t < 1729990800000 then 3600000 else 0
    offsetLocal := fun t => if 1711850400000 ≤ t ∧ t < 1729994400000 then 3600000 else 0 }

/-- Named instants of `SunCalc` for London on 27 October 2024, to the minute:
`sunrise` at 06:44 and `sunset` at 16:43 UTC. -/
def londonSunTimes : SunTimes :=
  [("sunrise", 1730011440000), ("sunset", 1730047380000)]

/-- The element `{time: "23:45", brightness: 1}`. -/
def lateFade : RawFade := { time := some "23:45", brightness := Value.ofNumber 1 }

/-- The element `{time: "00:30", brightness: 1}`. -/
def earlyFade : RawFade := { time := some "00:30", brightness := Value.ofNumber 1 }

/-- A message with the anchors `23:45` and `00:15`, a location in London, the
topic `lamp` and the service `turn_on`. -/
def londonMsg : Msg :=
  { fades := .array
      [{ time := some "23:45", brightness := Value.ofNumber 1 },
       { time := some "00:15", brightness := Value.ofNumber 200 }]
    location := some { latitude := Value.ofNumber (103 / 2), longitude := Value.ofNumber 0 }
    topic := some "lamp"
    payload := .object (.scalar (.str "turn_on")) }

/-- An environment in the zone `Europe/London`, in which `SunCalc` gives
`londonSunTimes`. -/
def londonEnv : Env :=
  { quote := fun _ => ""
    parse := fun _ => none
    zone := europeLondon
    getTimes := fun _ _ _ => londonSunTimes }

/-- The list that `GetFades` returns for `londonMsg` in the zone `Europe/London`
at `now` = 27 October 2024 00:30 local time (26 October 23:30 UTC). -/
def londonList : List FadeResult :=
  [{ time := "23:45", offset_mins := 0, brightness := some 1,
     beforeTime := 1729896300000, afterTime := 1729982700000 },
   { time := "00:15", offset_mins := 0, brightness := some 200,
     beforeTime := 1729984500000, afterTime := 1730074500000 }]

/-- Named instants of `SunCalc` at latitude 89, longitude 0 on 4 October 2024, to
the minute: the sun stays below the horizon, so that `sunrise` and `sunset` are
Invalid Dates; `solarNoon` is at 11:49 UTC and `nadir` twelve hours before. -/
def polarSunTimes : SunTimes :=
  [("solarNoon", 1728042540000), ("nadir", 1727999340000),
   ("sunrise", .invalid), ("sunset", .invalid)]

/-- A message with the anchors `sunrise` and `solarNoon`, a location at latitude
89, the topic `lamp` and the service `turn_on`. -/
def polarMsg : Msg :=
  { fades := .array
      [{ time := some "sunrise", brightness := Value.ofNumber 100 },
       { time := some "solarNoon", brightness := Value.ofNumber 200 }]
    location := some { latitude := Value.ofNumber 89, longitude := Value.ofNumber 0 }
    topic := some "lamp"
    payload := .object (.scalar (.str "turn_on")) }

/-- An environment in the zone UTC, in which `SunCalc` gives `polarSunTimes`. -/
def polarEnv : Env :=
  { quote := fun _ => ""
    parse := fun _ => none
    zone := 0
    getTimes := fun _ _ _ => polarSunTimes }

/-- The element that `GetFades` keeps from `{time: "sunrise", brightness: 100}`
with `polarSunTimes`: both its times are Invalid Dates. -/
def polarSunrise : FadeResult :=
  { time := "sunrise", offset_mins := 0, brightness := some 100,
    beforeTime := .invalid, afterTime := .invalid }

/-- The element that `GetFades` keeps from `{time: "solarNoon", brightness: 200}`
with `polarSunTimes` at 07:00 UTC of 4 October 2024. -/
def polarNoon : FadeResult :=
  { time := "solarNoon", offset_mins := 0, brightness := some 200,
    beforeTime := 1727956140000, afterTime := 1728042540000 }

/-- A message whose first anchor has the `time` `toString`, a name that every
object inherits, before the anchors `06:00` and `18:00`. -/
def inheritedMsg : Msg :=
  { fades := .array
      [{ time := some "toString", brightness := Value.ofNumber 7 },
       { time := some "06:00", brightness := Value.ofNumber 1 },
       { time := some "18:00", brightness := Value.ofNumber 1 }] }

/-- The list that `GetFades` returns for `inheritedMsg` at 07:00 of day 20000
(UTC). -/
def inheritedList : List FadeResult :=
  [{ time := "toString", offset_mins := 0, brightness := some 7,
     beforeTime := .invalid, afterTime := .invalid },
   { time := "06:00", offset_mins := 0, brightness := some 1,
     beforeTime := 1728021600000, afterTime := 1728108000000 },
   { time := "18:00", offset_mins := 0, brightness := some 1,
     beforeTime := 1727978400000, afterTime := 1728064800000 }]

/-- The result of `setupAction` on `londonMsg` in `londonEnv` at 27 October 2024
00:30 local time: `closestBefore` is the anchor `00:15` and `closestAfter` the
anchor `23:45`. -/
def londonSetup : SetupResult :=
  { now_offset := 0
    now := 1729985400000
    location := { latitude := .fin (103 / 2), longitude := .fin 0 }
    suntimes := some londonSunTimes
    fades := some londonList
    closestBefore := londonList.get? 1
    closestAfter := londonList.get? 0 }

/-- The result of `setupAction` on `polarMsg` in `polarEnv` at 07:00 UTC of 4
October 2024: both brackets are the anchor `sunrise`. -/
def polarSetup : SetupResult :=
  { now_offset := 0
    now := 1728025200000
    location := { latitude := .fin 89, longitude := .fin 0 }
    suntimes := some polarSunTimes
    fades := some [polarSunrise, polarNoon]
    closestBefore := some polarSunrise
    closestAfter := some polarSunrise }

/-! ## Comparisons of dates -/

theorem JSDate.valid_lt_valid (x y : Int) : JSDate.valid x < JSDate.valid y ↔ x < y := Iff.rfl

theorem JSDate.valid_le_valid (x y : Int) : JSDate.valid x ≤ JSDate.valid y ↔ x ≤ y := Iff.rfl

/-- A comparison `<` that holds is one of two valid dates. -/
theorem JSDate.lt_iff (a b : JSDate) :
    a < b ↔ ∃ x y, a = .valid x ∧ b = .valid y ∧ x < y := by
  cases a <;> cases b
  · exact ⟨fun h => h.elim, fun ⟨_, _, h, _⟩ => by cases h⟩
  · exact ⟨fun h => h.elim, fun ⟨_, _, h, _⟩ => by cases h⟩
  · exact ⟨fun h => h.elim, fun ⟨_, _, _, h, _⟩ => by cases h⟩
  · rename_i x y
    constructor
    · intro h
      exact ⟨x, y, rfl, rfl, h⟩
    · rintro ⟨_, _, h1, h2, h⟩
      cases h1
      cases h2
      exact h

/-- A comparison `<=` that holds is one of two valid dates. -/
theorem JSDate.le_iff (a b : JSDate) :
    a ≤ b ↔ ∃ x y, a = .valid x ∧ b = .valid y ∧ x ≤ y := by
  cases a <;> cases b
  · exact ⟨fun h => h.elim, fun ⟨_, _, h, _⟩ => by cases h⟩
  · exact ⟨fun h => h.elim, fun ⟨_, _, h, _⟩ => by cases h⟩
  · exact ⟨fun h => h.elim, fun ⟨_, _, _, h, _⟩ => by cases h⟩
  · rename_i x y
    constructor
    · intro h
      exact ⟨x, y, rfl, rfl, h⟩
    · rintro ⟨_, _, h1, h2, h⟩
      cases h1
      cases h2
      exact h

theorem JSDate.le_of_lt {a b : JSDate} (h : a < b) : a ≤ b := by
  obtain ⟨x, y, rfl, rfl, h⟩ := (JSDate.lt_iff a b).mp h
  exact Int.le_of_lt h

theorem JSDate.not_lt_of_le {a b : JSDate} (h : a ≤ b) : ¬ b < a := by
  obtain ⟨x, y, rfl, rfl, hxy⟩ := (JSDate.le_iff a b).mp h
  intro hyx
  exact absurd ((JSDate.valid_lt_valid y x).mp hyx) (not_lt.mpr hxy)

theorem JSDate.le_refl_of_isValid {a : JSDate} (h : a.isValid = true) : a ≤ a := by
  cases a with
  | invalid => cases h
  | valid x => exact Int.le_refl x

theorem JSDate.le_trans {a b c : JSDate} (h1 : a ≤ b) (h2 : b ≤ c) : a ≤ c := by
  obtain ⟨x, y, rfl, rfl, hxy⟩ := (JSDate.le_iff a b).mp h1
  obtain ⟨y', z, hy, rfl, hyz⟩ := (JSDate.le_iff _ c).mp h2
  cases hy
  exact Int.le_trans hxy hyz

theorem JSDate.lt_of_lt_of_le {a b c : JSDate} (h1 : a < b) (h2 : b ≤ c) : a < c := by
  obtain ⟨x, y, rfl, rfl, hxy⟩ := (JSDate.lt_iff a b).mp h1
  obtain ⟨y', z, hy, rfl, hyz⟩ := (JSDate.le_iff _ c).mp h2
  cases hy
  exact Int.lt_of_lt_of_le hxy hyz

theorem JSDate.lt_of_not_le {a b : JSDate} (ha : a.isValid = true) (hb : b.isValid = true)
    (h : ¬ a ≤ b) : b < a := by
  cases a with
  | invalid => cases ha
  | valid x =>
    cases b with
    | invalid => cases hb
    | valid y => exact not_le.mp (fun hxy : x ≤ y => h hxy)

theorem JSDate.le_of_not_lt {a b : JSDate} (ha : a.isValid = true) (hb : b.isValid = true)
    (h : ¬ a < b) : b ≤ a := by
  cases a with
  | invalid => cases ha
  | valid x =>
    cases b with
    | invalid => cases hb
    | valid y => exact not_lt.mp (fun hxy : x < y => h hxy)

/-! ## Date arithmetic -/

theorem setMinutes_getMinutes_add (tza t k : Int) :
    setMinutes (Zone.fixed tza) t (getMinutes (Zone.fixed tza) t + k) = t + k * msPerMinute := by
  simp only [setMinutes, getMinutes, LocalTime, UTC, Zone.fixed, MakeDate, MakeTime, Day, HourFromTime,
    MinFromTime, SecFromTime, msFromTime, msPerDay, msPerHour, msPerMinute, msPerSecond]
  omega

theorem setDateRelative_eq (tza t k : Int) :
    setDateRelative (Zone.fixed tza) t k = t + k * msPerDay := by
  simp only [setDateRelative, LocalTime, UTC, Zone.fixed, MakeDate, Day, TimeWithinDay, msPerDay]
  omega

theorem setHours_eq (tza t hour : Int) :
    setHours (Zone.fixed tza) t hour = t + (hour - HourFromTime (LocalTime (Zone.fixed tza) t)) * msPerHour := by
  simp only [setHours, LocalTime, UTC, Zone.fixed, MakeDate, MakeTime, Day, HourFromTime,
    MinFromTime, SecFromTime, msFromTime, msPerDay, msPerHour, msPerMinute, msPerSecond]
  omega

theorem setMinutes_eq (tza t min : Int) :
    setMinutes (Zone.fixed tza) t min = t + (min - MinFromTime (LocalTime (Zone.fixed tza) t)) * msPerMinute := by
  simp only [setMinutes, LocalTime, UTC, Zone.fixed, MakeDate, MakeTime, Day, HourFromTime,
    MinFromTime, SecFromTime, msFromTime, msPerDay, msPerHour, msPerMinute, msPerSecond]
  omega

theorem setSeconds_eq (tza t sec : Int) :
    setSeconds (Zone.fixed tza) t sec = t + (sec - SecFromTime (LocalTime (Zone.fixed tza) t)) * msPerSecond := by
  simp only [setSeconds, LocalTime, UTC, Zone.fixed, MakeDate, MakeTime, Day, HourFromTime,
    MinFromTime, SecFromTime, msFromTime, msPerDay, msPerHour, msPerMinute, msPerSecond]
  omega

theorem setMilliseconds_eq (tza t ms : Int) :
    setMilliseconds (Zone.fixed tza) t ms = t + (ms - msFromTime (LocalTime (Zone.fixed tza) t)) := by
  simp only [setMilliseconds, LocalTime, UTC, Zone.fixed, MakeDate, MakeTime, Day, HourFromTime,
    MinFromTime, SecFromTime, msFromTime, msPerDay, msPerHour, msPerMinute, msPerSecond]
  omega

theorem MinFromTime_add_hours (t k : Int) : MinFromTime (t + k * msPerHour) = MinFromTime t := by
  simp only [MinFromTime, msPerHour, msPerMinute]
  omega

theorem SecFromTime_add_minutes (t k : Int) :
    SecFromTime (t + k * msPerMinute) = SecFromTime t := by
  simp only [SecFromTime, msPerMinute, msPerSecond]
  omega

theorem msFromTime_add_seconds (t k : Int) :
    msFromTime (t + k * msPerSecond) = msFromTime t := by
  simp only [msFromTime, msPerSecond]
  omega

theorem time_decomposition (t : Int) :
    t = MakeDate (Day t) (MakeTime (HourFromTime t) (MinFromTime t) (SecFromTime t) (msFromTime t)) := by
  simp only [MakeDate, MakeTime, Day, HourFromTime, MinFromTime, SecFromTime, msFromTime, msPerDay,
    msPerHour, msPerMinute, msPerSecond]
  omega

/-- The four setters of lines 423-426 put the clock time on the local day of `now`. -/
theorem clock_setters_eq (tza now hours minutes : Int) :
    setMilliseconds (Zone.fixed tza) (setSeconds (Zone.fixed tza) (setMinutes (Zone.fixed tza) (setHours (Zone.fixed tza) now hours) minutes) 0) 0
      = UTC (Zone.fixed tza) (MakeDate (Day (LocalTime (Zone.fixed tza) now)) (MakeTime hours minutes 0 0)) := by
  have hdec := time_decomposition (LocalTime (Zone.fixed tza) now)
  have h1 : MinFromTime (LocalTime (Zone.fixed tza) (setHours (Zone.fixed tza) now hours)) = MinFromTime (LocalTime (Zone.fixed tza) now) := by
    rw [setHours_eq]
    have e : LocalTime (Zone.fixed tza) (now + (hours - HourFromTime (LocalTime (Zone.fixed tza) now)) * msPerHour)
        = LocalTime (Zone.fixed tza) now + (hours - HourFromTime (LocalTime (Zone.fixed tza) now)) * msPerHour := by
      simp only [LocalTime, Zone.fixed]; ring
    rw [e, MinFromTime_add_hours]
  have h2 : SecFromTime (LocalTime (Zone.fixed tza) (setMinutes (Zone.fixed tza) (setHours (Zone.fixed tza) now hours) minutes))
      = SecFromTime (LocalTime (Zone.fixed tza) now) := by
    rw [setMinutes_eq, h1, setHours_eq]
    have e : LocalTime (Zone.fixed tza) (now + (hours - HourFromTime (LocalTime (Zone.fixed tza) now)) * msPerHour
          + (minutes - MinFromTime (LocalTime (Zone.fixed tza) now)) * msPerMinute)
        = LocalTime (Zone.fixed tza) now + ((hours - HourFromTime (LocalTime (Zone.fixed tza) now)) * 60
          + (minutes - MinFromTime (LocalTime (Zone.fixed tza) now))) * msPerMinute := by
      simp only [LocalTime, Zone.fixed, msPerHour, msPerMinute]; ring
    rw [e, SecFromTime_add_minutes]
  have h3 : msFromTime (LocalTime (Zone.fixed tza)
        (setSeconds (Zone.fixed tza) (setMinutes (Zone.fixed tza) (setHours (Zone.fixed tza) now hours) minutes) 0))
      = msFromTime (LocalTime (Zone.fixed tza) now) := by
    rw [setSeconds_eq, h2, setMinutes_eq, h1, setHours_eq]
    have e : LocalTime (Zone.fixed tza) (now + (hours - HourFromTime (LocalTime (Zone.fixed tza) now)) * msPerHour
          + (minutes - MinFromTime (LocalTime (Zone.fixed tza) now)) * msPerMinute
          + (0 - SecFromTime (LocalTime (Zone.fixed tza) now)) * msPerSecond)
        = LocalTime (Zone.fixed tza) now + ((hours - HourFromTime (LocalTime (Zone.fixed tza) now)) * 3600
          + (minutes - MinFromTime (LocalTime (Zone.fixed tza) now)) * 60
          + (0 - SecFromTime (LocalTime (Zone.fixed tza) now))) * msPerSecond := by
      simp only [LocalTime, Zone.fixed, msPerHour, msPerMinute, msPerSecond]; ring
    rw [e, msFromTime_add_seconds]
  rw [setMilliseconds_eq, h3, setSeconds_eq, h2, setMinutes_eq, h1, setHours_eq]
  generalize HourFromTime (LocalTime (Zone.fixed tza) now) = a at hdec ⊢
  generalize MinFromTime (LocalTime (Zone.fixed tza) now) = b at hdec ⊢
  generalize SecFromTime (LocalTime (Zone.fixed tza) now) = c at hdec ⊢
  generalize msFromTime (LocalTime (Zone.fixed tza) now) = d at hdec ⊢
  generalize Day (LocalTime (Zone.fixed tza) now) = e at hdec ⊢
  simp only [LocalTime, UTC, Zone.fixed, MakeDate, MakeTime, msPerDay, msPerHour, msPerMinute,
    msPerSecond] at hdec ⊢
  omega

theorem floor_diffInDays (n : Int) :
    Math.floor ((n : ℚ) / (1000 * 60 * 60 * 24)) = n / msPerDay := by
  have h : ((1000 * 60 * 60 * 24 : ℚ)) = ((86400000 : ℕ) : ℚ) := by norm_num
  rw [Math.floor, h, Rat.floor_intCast_div_natCast]
  rfl

theorem ceil_diffInDays (n : Int) :
    Math.ceil ((n : ℚ) / (1000 * 60 * 60 * 24)) = - ((-n) / msPerDay) := by
  have h := floor_diffInDays (-n)
  rw [Math.floor] at h
  rw [Math.ceil, ← h]
  have e : (((-n : Int) : ℚ)) / (1000 * 60 * 60 * 24) = - ((n : ℚ) / (1000 * 60 * 60 * 24)) := by
    push_cast
    ring
  rw [e, Int.floor_neg, neg_neg]

/-- Closed form of the normalisation: `beforeTime` is `now` minus the remainder of
`now - u` modulo a day, `afterTime` is `now` plus the remainder of `u - now`,
where `u` is the anchor instant with the offset applied. -/
theorem normalise_eq (tza now t offset_mins : Int) :
    GetFades.normalise (Zone.fixed tza) now t offset_mins =
      (now - (now - (t + offset_mins * msPerMinute)) % msPerDay,
       now + ((t + offset_mins * msPerMinute) - now) % msPerDay) := by
  simp only [GetFades.normalise, setMinutes_getMinutes_add, setDateRelative_eq, floor_diffInDays,
    ceil_diffInDays]
  simp only [msPerDay, msPerMinute, Prod.mk.injEq]
  constructor <;> omega

/-! ## Clock anchors -/

theorem inClass_iff (lo hi c : Char) : inClass lo hi c = true ↔ lo.toNat ≤ c.toNat ∧ c.toNat ≤ hi.toNat := by
  simp [inClass]

theorem digit_ne_colon (c : Char) (h : c.toNat ≤ 57) : (c == ':') = false := by
  rw [beq_eq_false_iff_ne]
  rintro rfl
  revert h
  decide

theorem matchHHMM_parse (cs : List Char) (h : matchHHMM cs = true) :
    ∃ hours minutes : Int,
      parseInt ((splitColon cs).getD 0 []) = some hours ∧
      parseInt ((splitColon cs).getD 1 []) = some minutes ∧
      0 ≤ hours ∧ hours ≤ 23 ∧ 0 ≤ minutes ∧ minutes ≤ 59 := by
  have k0 : ('0' : Char).toNat = 48 := by decide
  have k1 : ('1' : Char).toNat = 49 := by decide
  have k2 : ('2' : Char).toNat = 50 := by decide
  have k3 : ('3' : Char).toNat = 51 := by decide
  have k5 : ('5' : Char).toNat = 53 := by decide
  have k9 : ('9' : Char).toNat = 57 := by decide
  unfold matchHHMM at h
  split at h
  · rename_i h1 h2 c m1 m2
    simp only [Bool.and_eq_true, Bool.or_eq_true, beq_iff_eq, inClass_iff, k0, k3, k5, k9] at h
    obtain ⟨⟨⟨hh, hc⟩, hm1⟩, hm2⟩ := h
    subst hc
    have a1 : 48 ≤ h1.toNat ∧ h1.toNat ≤ 50 := by
      rcases hh with ⟨rfl, _⟩ | ⟨rfl | rfl, _⟩ <;> simp [k0, k1, k2]
    have a2 : 48 ≤ h2.toNat ∧ h2.toNat ≤ 57 ∧ (h1.toNat = 50 → h2.toNat ≤ 51) := by
      rcases hh with ⟨rfl, h⟩ | ⟨rfl | rfl, h⟩ <;> simp [k0, k1, k2] <;> omega
    have e1 : (h1 == ':') = false := digit_ne_colon h1 (by omega)
    have e2 : (h2 == ':') = false := digit_ne_colon h2 (by omega)
    have e3 : (m1 == ':') = false := digit_ne_colon m1 (by omega)
    have e4 : (m2 == ':') = false := digit_ne_colon m2 (by omega)
    have d1 : inClass '0' '9' h1 = true := by rw [inClass_iff, k0, k9]; omega
    have d2 : inClass '0' '9' h2 = true := by rw [inClass_iff, k0, k9]; omega
    have d3 : inClass '0' '9' m1 = true := by rw [inClass_iff, k0, k9]; omega
    have d4 : inClass '0' '9' m2 = true := by rw [inClass_iff, k0, k9]; omega
    refine ⟨((h1.toNat - 48) * 10 + (h2.toNat - 48) : Nat), ((m1.toNat - 48) * 10 + (m2.toNat - 48) : Nat),
      ?_, ?_, ?_, ?_, ?_, ?_⟩
    · simp [splitColon, splitColonAux, e1, e2, parseInt, digitsValue, d1, d2]
    · simp [splitColon, splitColonAux, e1, e2, e3, e4, parseInt, digitsValue, d3, d4]
    · omega
    · omega
    · omega
    · omega
  · rename_i h1 c m1 m2
    simp only [Bool.and_eq_true, beq_iff_eq, inClass_iff, k0, k5, k9] at h
    obtain ⟨⟨⟨hh, hc⟩, hm1⟩, hm2⟩ := h
    subst hc
    have e1 : (h1 == ':') = false := digit_ne_colon h1 (by omega)
    have e3 : (m1 == ':') = false := digit_ne_colon m1 (by omega)
    have e4 : (m2 == ':') = false := digit_ne_colon m2 (by omega)
    have d1 : inClass '0' '9' h1 = true := by rw [inClass_iff, k0, k9]; omega
    have d3 : inClass '0' '9' m1 = true := by rw [inClass_iff, k0, k9]; omega
    have d4 : inClass '0' '9' m2 = true := by rw [inClass_iff, k0, k9]; omega
    refine ⟨((h1.toNat - 48 : Nat)), ((m1.toNat - 48) * 10 + (m2.toNat - 48) : Nat),
      ?_, ?_, ?_, ?_, ?_, ?_⟩
    · simp [splitColon, splitColonAux, e1, parseInt, digitsValue, d1]
    · simp [splitColon, splitColonAux, e1, e3, e4, parseInt, digitsValue, d3, d4]
    · omega
    · omega
    · omega
    · omega
  · simp at h

/-! ## Time resolution of `GetFades` -/

/-- An element passes the time test exactly when its times are computed. -/
theorem times_isSome_iff (suntimes : SunTimes) (zone : Zone) (now : Int) (time : String)
    (offset_mins : Int) :
    (GetFades.times suntimes zone now time offset_mins).isSome = true ↔
      (suntimes.has time = true ∨ REGEX_HHMM time = true) := by
  unfold GetFades.times
  cases suntimes.has time <;> cases REGEX_HHMM time <;>
    cases GetFades.anchorTime suntimes zone now time <;> simp

/-- The times of a kept element are both valid dates, the normalisation of a valid
anchor date, or both Invalid Dates, for an anchor that is an Invalid Date. -/
theorem times_eq_some (suntimes : SunTimes) (zone : Zone) (now : Int) (time : String)
    (offset_mins : Int) (r : JSDate × JSDate)
    (h : GetFades.times suntimes zone now time offset_mins = some r) :
    (∃ t, GetFades.anchorTime suntimes zone now time = .valid t ∧
      r = (.valid (GetFades.normalise zone now t offset_mins).1,
           .valid (GetFades.normalise zone now t offset_mins).2)) ∨
    (GetFades.anchorTime suntimes zone now time = .invalid ∧ r = (.invalid, .invalid)) := by
  unfold GetFades.times at h
  split at h
  · simp at h
  · split at h
    · rename_i t ht
      exact Or.inl ⟨t, ht, by simpa using h.symm⟩
    · rename_i ht
      exact Or.inr ⟨ht, by simpa using h.symm⟩

/-- In a zone at a fixed offset, where every day lasts `msPerDay` milliseconds, the
times of a kept element that are valid dates bracket `now`, each less than one
day away from it. -/
theorem times_fixed_bracket (suntimes : SunTimes) (tza now : Int) (time : String)
    (offset_mins beforeTime afterTime : Int)
    (h : GetFades.times suntimes (Zone.fixed tza) now time offset_mins
      = some (.valid beforeTime, .valid afterTime)) :
    (beforeTime ≤ now ∧ now ≤ afterTime) ∧
      (now - beforeTime < 86400000 ∧ afterTime - now < 86400000) := by
  rcases times_eq_some suntimes (Zone.fixed tza) now time offset_mins _ h with ⟨t, -, hr⟩ | ⟨-, hr⟩
  · rw [normalise_eq, Prod.mk.injEq, JSDate.valid.injEq, JSDate.valid.injEq] at hr
    obtain ⟨hb, ha⟩ := hr
    simp only [msPerDay, msPerMinute] at hb ha
    omega
  · simp at hr

/-- In a zone at a fixed offset, a clock anchor `HH:MM` that is no name `in
suntimes`, with offset 0, at a `now` whose local time of day is strictly later
than `HH:MM`, resolves to `beforeTime` = `HH:MM:00.000` on the local day of `now`
and `afterTime` = `HH:MM:00.000` on the next day. -/
theorem times_fixed_clock_day_wrap (suntimes : SunTimes) (tza now : Int) (time : String)
    (hours minutes : Int)
    (hclock : REGEX_HHMM time = true) (hkey : suntimes.has time = false)
    (hh : parseInt ((splitColon time.data).getD 0 []) = some hours)
    (hm : parseInt ((splitColon time.data).getD 1 []) = some minutes)
    (hlater : MakeTime hours minutes 0 0 < TimeWithinDay (LocalTime (Zone.fixed tza) now)) :
    GetFades.times suntimes (Zone.fixed tza) now time 0 =
      some (.valid (UTC (Zone.fixed tza)
              (MakeDate (Day (LocalTime (Zone.fixed tza) now)) (MakeTime hours minutes 0 0))),
            .valid (UTC (Zone.fixed tza)
              (MakeDate (Day (LocalTime (Zone.fixed tza) now) + 1) (MakeTime hours minutes 0 0)))) := by
  obtain ⟨h', m', hh', hm', h0, h23, m0, m59⟩ := matchHHMM_parse time.data hclock
  rw [hh] at hh'
  rw [hm] at hm'
  obtain rfl : hours = h' := by simpa using hh'
  obtain rfl : minutes = m' := by simpa using hm'
  simp only [GetFades.times, hkey, hclock, GetFades.anchorTime, GetFades.clockTime, hh, hm,
    clock_setters_eq, normalise_eq]
  simp only [LocalTime, UTC, Zone.fixed, MakeDate, MakeTime, Day, TimeWithinDay, msPerDay,
    msPerHour, msPerMinute, msPerSecond] at hlater ⊢
  simp only [Bool.not_false, Bool.not_true, Bool.and_false, Bool.false_eq_true, if_false,
    Option.some.injEq, Prod.mk.injEq, JSDate.valid.injEq]
  constructor <;> omega

/-! ## Times that do not bracket `now` -/

/-- C1: with the named instants of `SunCalc` at latitude 89 on 4 October 2024, of
which `sunrise` is an Invalid Date, `GetFades` keeps the element `{time:
"sunrise", brightness: 100}` without a warning, with Invalid Dates for
`beforeTime` and `afterTime`: neither `beforeTime <= now` nor `now <= afterTime`
holds for this element of the list that `GetFades` returns. -/
theorem GetFades_keeps_invalid_named_instant :
    polarSunTimes.lookup "sunrise" = some .invalid ∧
    GetFades polarMsg polarSunTimes 0 1728025200000 {} =
      (.returned (some [polarSunrise, polarNoon]), {}) ∧
    ¬ (polarSunrise.beforeTime ≤ JSDate.valid 1728025200000) ∧
    ¬ (JSDate.valid 1728025200000 ≤ polarSunrise.afterTime) := by
  refine ⟨by decide, by decide!, by decide, by decide⟩

/-- C2: in the zone `Europe/London` at `now` = 27 October 2024 00:30 local time,
the day on which the clocks go back, `GetFades` keeps `{time: "23:45",
brightness: 1}` with `beforeTime` = 25 October 23:45 local time, 89100000 ms
before `now`, which is more than one day, and with `afterTime` = 26 October
23:45 local time, which is before `now`. -/
theorem GetFades_times_at_clock_change :
    GetFades.element londonSunTimes europeLondon 1729985400000 lateFade 0 =
      (some { time := "23:45", offset_mins := 0, brightness := some 1,
              beforeTime := 1729896300000, afterTime := 1729982700000 }, []) ∧
    (1729985400000 : Int) - 1729896300000 = 89100000 ∧
    ¬ ((1729985400000 : Int) - 1729896300000 < 86400000) ∧
    ¬ ((1729985400000 : Int) ≤ 1729982700000) := by
  refine ⟨by decide!, by decide, by decide, by decide⟩

/-- C3: in the zone `Europe/London`, `now` = 23:45 local time on 27 October 2024
(day `D` = 20023, which lasts 25 hours) is later in the day than the clock
anchor `00:30`; `00:30` on day `D` is the instant 1729985400000 and `00:30` on
day `D + 1` is 1730075400000. `GetFades` resolves `beforeTime` to `00:30` on day
`D + 1`, which is after `now`, and `afterTime` to `00:30` on day `D + 2`. -/
theorem GetFades_clock_anchor_at_clock_change :
    Day (LocalTime europeLondon 1730072700000) = 20023 ∧
    TimeWithinDay (LocalTime europeLondon 1730072700000) = MakeTime 23 45 0 0 ∧
    MakeTime 0 30 0 0 < MakeTime 23 45 0 0 ∧
    UTC europeLondon (MakeDate 20023 (MakeTime 0 30 0 0)) = 1729985400000 ∧
    UTC europeLondon (MakeDate (20023 + 1) (MakeTime 0 30 0 0)) = 1730075400000 ∧
    UTC europeLondon (MakeDate (20023 + 2) (MakeTime 0 30 0 0)) = 1730161800000 ∧
    GetFades.element londonSunTimes europeLondon 1730072700000 earlyFade 0 =
      (some { time := "00:30", offset_mins := 0, brightness := some 1,
              beforeTime := 1730075400000, afterTime := 1730161800000 }, []) ∧
    (1730072700000 : Int) < 1730075400000 := by
  refine ⟨by decide, by decide, by decide, by decide, by decide, by decide, by decide!, by decide⟩

/-! ## Arithmetic of finite numbers -/

theorem fin_add_fin (a b : ℚ) : JSNum.fin a + JSNum.fin b = JSNum.fin (a + b) := rfl

theorem fin_sub_fin (a b : ℚ) : JSNum.fin a - JSNum.fin b = JSNum.fin (a - b) := by
  show JSNum.add (JSNum.fin a) (JSNum.neg (JSNum.fin b)) = _
  simp only [JSNum.neg, JSNum.add, sub_eq_add_neg]

theorem fin_mul_fin (a b : ℚ) : JSNum.fin a * JSNum.fin b = JSNum.fin (a * b) := rfl

theorem fin_div_fin (a b : ℚ) (h : b ≠ 0) : JSNum.fin a / JSNum.fin b = JSNum.fin (a / b) := by
  show JSNum.div (JSNum.fin a) (JSNum.fin b) = _
  simp only [JSNum.div, h, if_false]

theorem min_fin_fin (a b : ℚ) : Math.min (.fin a) (.fin b) = .fin (min a b) := rfl

theorem max_fin_fin (a b : ℚ) : Math.max (.fin a) (.fin b) = .fin (max a b) := rfl

theorem round_fin (q : ℚ) : Math.round (.fin q) = .fin (Int.floor (q + 1 / 2) : Int) := rfl

theorem fraction_valid (bT aT now : Int) :
    fraction (.valid bT) (.valid aT) now
      = max 0 (min 1 (((now - bT : Int) : ℚ) / ((aT - bT : Int) : ℚ))) := rfl

theorem constrainNow_valid (bT aT now : Int) :
    constrainNow (.valid bT) (.valid aT) now = max bT (min aT now) := rfl

theorem fraction_nonneg (bT aT : JSDate) (now : Int) : 0 ≤ fraction bT aT now := by
  unfold fraction
  split
  · exact le_max_left _ _
  · exact le_rfl

theorem fraction_le_one (bT aT : JSDate) (now : Int) : fraction bT aT now ≤ 1 := by
  unfold fraction
  split
  · exact max_le (by norm_num) (min_le_left _ _)
  · norm_num

theorem progress_of_lt (before after : FadeResult) (now : Int)
    (h : before.beforeTime < after.afterTime) :
    Fade.progress before after now
      = .fin (fraction before.beforeTime after.afterTime now) := by
  obtain ⟨bT, aT, hb, ha, hlt⟩ := (JSDate.lt_iff _ _).mp h
  have hne : (((aT : ℚ)) - (bT : ℚ)) ≠ 0 := by
    have : aT - bT ≠ 0 := by omega
    exact_mod_cast this
  rw [Fade.progress, hb, ha, fraction_valid]
  simp only [JSDate.toNumber]
  rw [fin_sub_fin, fin_sub_fin, fin_div_fin _ _ hne, min_fin_fin, max_fin_fin]
  push_cast
  rfl

theorem rounded_fin (lo hi p b a : ℚ) :
    Fade.rounded lo hi (.fin p) (.fin b) (.fin a)
      = .fin (max lo (min hi ((Int.floor (p * (a - b) + b + 1 / 2) : Int) : ℚ))) := by
  rw [Fade.rounded, fin_sub_fin, fin_mul_fin, fin_add_fin, round_fin, min_fin_fin, max_fin_fin]

theorem unrounded_fin (lo hi p b a : ℚ) :
    Fade.unrounded lo hi (.fin p) (.fin b) (.fin a)
      = .fin (max lo (min hi (p * (a - b) + b))) := by
  rw [Fade.unrounded, fin_sub_fin, fin_mul_fin, fin_add_fin, min_fin_fin, max_fin_fin]

/-! ## The window and the progress of `Fade` -/

theorem Fade_of_le (before after : FadeResult) (now : Int)
    (h : before.beforeTime ≤ after.afterTime) :
    Fade before after now = some (Fade.result before after (Fade.progress before after now)) := by
  rw [Fade, if_neg (JSDate.not_lt_of_le h)]

theorem fraction_constrainNow (beforeTime afterTime : JSDate) (now : Int)
    (h : beforeTime < afterTime) :
    fraction beforeTime afterTime (constrainNow beforeTime afterTime now)
      = fraction beforeTime afterTime now := by
  obtain ⟨bT, aT, rfl, rfl, h⟩ := (JSDate.lt_iff _ _).mp h
  have hd : (0 : ℚ) < ((aT - bT : Int) : ℚ) := by
    have : 0 < aT - bT := by omega
    exact_mod_cast this
  rw [constrainNow_valid, fraction_valid, fraction_valid]
  rcases le_total now bT with h1 | h1
  · have e : max bT (min aT now) = bT := by omega
    have hx : (((now - bT : Int)) : ℚ) ≤ 0 := by
      have : now - bT ≤ 0 := by omega
      exact_mod_cast this
    have hq : (((now - bT : Int)) : ℚ) / ((aT - bT : Int) : ℚ) ≤ 0 :=
      div_nonpos_of_nonpos_of_nonneg hx hd.le
    rw [e, sub_self, Int.cast_zero, zero_div, min_eq_right (by norm_num : (0 : ℚ) ≤ 1),
      min_eq_right (hq.trans (by norm_num)), max_eq_left hq]
    simp
  · rcases le_total now aT with h2 | h2
    · have e : max bT (min aT now) = now := by omega
      rw [e]
    · have e : max bT (min aT now) = aT := by omega
      have hx : (((aT - bT : Int)) : ℚ) ≤ ((now - bT : Int) : ℚ) := by
        have : aT - bT ≤ now - bT := by omega
        exact_mod_cast this
      have hq : 1 ≤ (((now - bT : Int)) : ℚ) / ((aT - bT : Int) : ℚ) := by
        rw [le_div_iff₀ hd]
        simpa using hx
      rw [e, div_self hd.ne', min_self, min_eq_left hq]

theorem Fade_of_lt (before after : FadeResult) (now : Int)
    (h : before.beforeTime < after.afterTime) :
    Fade before after now
      = some (Fade.result before after (.fin (fraction before.beforeTime after.afterTime now))) := by
  rw [Fade_of_le _ _ _ (JSDate.le_of_lt h), progress_of_lt _ _ _ h]

/-- C8: when `before.beforeTime > after.afterTime`, `Fade` returns without a
value, whatever `now` is; no attribute is computed. -/
theorem Fade_invalid_window (before after : FadeResult) (now : Int)
    (h : before.beforeTime > after.afterTime) : Fade before after now = none := by
  rw [Fade, if_pos h]

/-- C10: when `before.beforeTime < after.afterTime`, `Fade` at `now` is `Fade` at
`now` constrained to the window, and the progress it uses is the elapsed
fraction clamped to 0..1. -/
theorem Fade_constrains_now (before after : FadeResult) (now : Int)
    (h : before.beforeTime < after.afterTime) :
    Fade before after now
        = Fade before after (constrainNow before.beforeTime after.afterTime now) ∧
      Fade.progress before after now
        = .fin (fraction before.beforeTime after.afterTime now) ∧
      Fade before after now
        = some (Fade.result before after
            (.fin (fraction before.beforeTime after.afterTime now))) := by
  have hp := progress_of_lt before after now h
  have hp' := progress_of_lt before after (constrainNow before.beforeTime after.afterTime now) h
  rw [fraction_constrainNow _ _ _ h] at hp'
  refine ⟨?_, hp, ?_⟩
  · rw [Fade_of_le _ _ _ (JSDate.le_of_lt h), Fade_of_le _ _ _ (JSDate.le_of_lt h), hp, hp']
  · rw [Fade_of_le _ _ _ (JSDate.le_of_lt h), hp]

theorem both_isSome {α β : Type} (b a : Option α) (f : α → α → β) :
    (Fade.both b a f).isSome = (b.isSome && a.isSome) := by
  cases b <;> cases a <;> rfl

theorem mem_keys (r : FadeData) (key : String) :
    key ∈ r.keys ↔
      (r.brightness.isSome = true ∧ key = "brightness") ∨
      (r.brightness_pct.isSome = true ∧ key = "brightness_pct") ∨
      (r.color_temp.isSome = true ∧ key = "color_temp") ∨
      (r.kelvin.isSome = true ∧ key = "kelvin") ∨
      (r.rgb_color.isSome = true ∧ key = "rgb_color") ∨
      (r.rgbw_color.isSome = true ∧ key = "rgbw_color") ∨
      (r.rgbww_color.isSome = true ∧ key = "rgbww_color") ∨
      (r.hs_color.isSome = true ∧ key = "hs_color") ∨
      (r.xy_color.isSome = true ∧ key = "xy_color") := by
  unfold FadeData.keys
  simp only [List.mem_append, List.mem_ite_nil_right, List.mem_singleton, or_assoc]

/-- C7: whenever `Fade` returns a result, the attribute names of the result are
exactly those of the nine attributes that are present in both `before` and
`after`; an attribute present in only one of them is not in the result. -/
theorem Fade_keys (before after : FadeResult) (now : Int) (r : FadeData)
    (h : Fade before after now = some r) (key : String) :
    key ∈ r.keys ↔ (key ∈ attributeNames ∧ before.has key = true ∧ after.has key = true) := by
  have hr : r = Fade.result before after (Fade.progress before after now) := by
    unfold Fade at h
    split at h
    · simp at h
    · simpa using h.symm
  rw [mem_keys, hr]
  simp only [Fade.result, both_isSome, Bool.and_eq_true]
  constructor
  · rintro (⟨h, rfl⟩ | ⟨h, rfl⟩ | ⟨h, rfl⟩ | ⟨h, rfl⟩ | ⟨h, rfl⟩ | ⟨h, rfl⟩ | ⟨h, rfl⟩ | ⟨h, rfl⟩ | ⟨h, rfl⟩) <;>
      simpa [attributeNames, FadeResult.has] using h
  · rintro ⟨hk, hb, ha⟩
    simp only [attributeNames, List.mem_cons, List.mem_singleton, List.not_mem_nil, or_false] at hk
    rcases hk with rfl | rfl | rfl | rfl | rfl | rfl | rfl | rfl | rfl <;>
      simp [FadeResult.has] at hb ha <;> simp [hb, ha]

/-! ## Rounding and clamping -/

theorem isInt_eq_intCast (v : ℚ) (h : v.isInt = true) : ∃ n : Int, v = (n : ℚ) := by
  refine ⟨v.num, ?_⟩
  have hd : v.den = 1 := by simpa [Rat.isInt] using h
  exact (Rat.coe_int_num_of_den_eq_one hd).symm

theorem floor_intCast_add_half (n : Int) : Int.floor ((n : ℚ) + 1 / 2) = n := by
  rw [Int.floor_eq_iff]
  constructor <;> norm_num

/-- Rounding keeps a value between two integers that bound it. -/
theorem round_between (x : ℚ) (lo hi : Int) (hlo : (lo : ℚ) ≤ x) (hhi : x ≤ (hi : ℚ)) :
    lo ≤ Int.floor (x + 1 / 2) ∧ Int.floor (x + 1 / 2) ≤ hi := by
  constructor
  · rw [Int.le_floor]
    linarith
  · have h : Int.floor (x + 1 / 2) < hi + 1 := by
      rw [Int.floor_lt]
      push_cast
      linarith
    omega

theorem fraction_mono (beforeTime afterTime : JSDate) (now1 now2 : Int)
    (h : beforeTime < afterTime) (h12 : now1 ≤ now2) :
    fraction beforeTime afterTime now1 ≤ fraction beforeTime afterTime now2 := by
  obtain ⟨bT, aT, rfl, rfl, h⟩ := (JSDate.lt_iff _ _).mp h
  have hd : (0 : ℚ) < ((aT - bT : Int) : ℚ) := by
    have : 0 < aT - bT := by omega
    exact_mod_cast this
  have hx : (((now1 - bT : Int)) : ℚ) ≤ ((now2 - bT : Int) : ℚ) := by
    have : now1 - bT ≤ now2 - bT := by omega
    exact_mod_cast this
  rw [fraction_valid, fraction_valid]
  exact max_le_max le_rfl (min_le_min le_rfl (div_le_div_of_nonneg_right hx hd.le))

/-- The brightness that `Fade` computes at progress `p`, as a rational. -/
theorem brightness_value_between (p b a : ℚ) (hp0 : 0 ≤ p) (hp1 : p ≤ 1)
    (hb : b.isInt = true ∧ 0 ≤ b ∧ b ≤ MAX_BRIGHTNESS)
    (ha : a.isInt = true ∧ 0 ≤ a ∧ a ≤ MAX_BRIGHTNESS) (hle : b ≤ a) :
    b ≤ max 0 (min MAX_BRIGHTNESS ((Int.floor (p * (a - b) + b + 1 / 2) : Int) : ℚ)) ∧
      max 0 (min MAX_BRIGHTNESS ((Int.floor (p * (a - b) + b + 1 / 2) : Int) : ℚ)) ≤ a := by
  obtain ⟨n, rfl⟩ := isInt_eq_intCast b hb.1
  obtain ⟨m, rfl⟩ := isInt_eq_intCast a ha.1
  have hx0 : ((n : ℚ)) ≤ p * ((m : ℚ) - n) + n := by nlinarith
  have hx1 : p * ((m : ℚ) - n) + n ≤ (m : ℚ) := by nlinarith
  obtain ⟨h1, h2⟩ := round_between _ n m hx0 hx1
  have h1' : (n : ℚ) ≤ ((Int.floor (p * ((m : ℚ) - n) + n + 1 / 2) : Int) : ℚ) := by
    exact_mod_cast h1
  have h2' : ((Int.floor (p * ((m : ℚ) - n) + n + 1 / 2) : Int) : ℚ) ≤ (m : ℚ) := by
    exact_mod_cast h2
  constructor
  · exact le_max_of_le_right (le_min hb.2.2 h1')
  · exact max_le ha.2.1 ((min_le_right _ _).trans h2')

/-- C6: for validated anchors with `before.beforeTime < after.afterTime` and
`before.brightness ≤ after.brightness`, the brightness returned by `Fade` is
non-decreasing in `now` and lies between the two brightness values. -/
theorem Fade_brightness_monotone (before after : FadeResult)
    (hb : before.Validated) (ha : after.Validated)
    (hlt : before.beforeTime < after.afterTime) (b a : ℚ)
    (hbb : before.brightness = some b) (hab : after.brightness = some a) (hle : b ≤ a)
    (now1 now2 : Int) (h12 : now1 ≤ now2) :
    ∃ r1 r2 v1 v2, Fade before after now1 = some r1 ∧ Fade before after now2 = some r2 ∧
      r1.brightness = some (.fin v1) ∧ r2.brightness = some (.fin v2) ∧
      b ≤ v1 ∧ v1 ≤ v2 ∧ v2 ≤ a := by
  have hvb := hb.2.1 b hbb
  have hva := ha.2.1 a hab
  have hab0 : 0 ≤ a - b := by linarith
  have hmono : ∀ p q : ℚ, p ≤ q →
      max 0 (min MAX_BRIGHTNESS ((Int.floor (p * (a - b) + b + 1 / 2) : Int) : ℚ)) ≤
      max 0 (min MAX_BRIGHTNESS ((Int.floor (q * (a - b) + b + 1 / 2) : Int) : ℚ)) := by
    intro p q hpq
    have hfl : Int.floor (p * (a - b) + b + 1 / 2) ≤ Int.floor (q * (a - b) + b + 1 / 2) := by
      apply Int.floor_mono
      have := mul_le_mul_of_nonneg_right hpq hab0
      linarith
    exact max_le_max le_rfl (min_le_min le_rfl (by exact_mod_cast hfl))
  refine ⟨_, _,
    max 0 (min MAX_BRIGHTNESS ((Int.floor (fraction before.beforeTime after.afterTime now1
      * (a - b) + b + 1 / 2) : Int) : ℚ)),
    max 0 (min MAX_BRIGHTNESS ((Int.floor (fraction before.beforeTime after.afterTime now2
      * (a - b) + b + 1 / 2) : Int) : ℚ)),
    Fade_of_lt before after now1 hlt, Fade_of_lt before after now2 hlt, ?_, ?_, ?_, ?_, ?_⟩
  · simp only [Fade.result, hbb, hab, Fade.both, rounded_fin]
  · simp only [Fade.result, hbb, hab, Fade.both, rounded_fin]
  · exact (brightness_value_between _ b a (fraction_nonneg _ _ _) (fraction_le_one _ _ _)
      hvb hva hle).1
  · exact hmono _ _ (fraction_mono _ _ _ _ hlt h12)
  · exact (brightness_value_between _ b a (fraction_nonneg _ _ _) (fraction_le_one _ _ _)
      hvb hva hle).2

/-! ## The two ends of the window -/

theorem fraction_start (bT aT : Int) : fraction bT aT bT = 0 := by
  show fraction (.valid bT) (.valid aT) bT = 0
  simp [fraction_valid]

theorem fraction_end (bT aT : Int) (h : bT < aT) : fraction bT aT aT = 1 := by
  have hd : (((aT - bT : Int)) : ℚ) ≠ 0 := by
    have : aT - bT ≠ 0 := by omega
    exact_mod_cast this
  show fraction (.valid bT) (.valid aT) aT = 1
  rw [fraction_valid, div_self hd, min_self]
  norm_num

theorem round_of_isInt (v : ℚ) (h : v.isInt = true) : Math.round (.fin v) = .fin v := by
  obtain ⟨n, rfl⟩ := isInt_eq_intCast v h
  rw [round_fin, floor_intCast_add_half]

theorem rounded_zero (lo hi : ℚ) (l h : Int) (hl : lo = l) (hh : hi = h) (b a : ℚ)
    (hb : lo ≤ b ∧ b ≤ hi) :
    Fade.rounded lo hi (.fin 0) (.fin b) (.fin a) = Math.round (.fin b) := by
  subst hl hh
  obtain ⟨h1, h2⟩ := round_between b l h hb.1 hb.2
  have h1' : (l : ℚ) ≤ ((Int.floor (b + 1 / 2) : Int) : ℚ) := by exact_mod_cast h1
  have h2' : ((Int.floor (b + 1 / 2) : Int) : ℚ) ≤ (h : ℚ) := by exact_mod_cast h2
  rw [rounded_fin, round_fin]
  have e : (0 : ℚ) * (a - b) + b + 1 / 2 = b + 1 / 2 := by ring
  rw [e, min_eq_right h2', max_eq_right h1']

theorem rounded_one (lo hi : ℚ) (l h : Int) (hl : lo = l) (hh : hi = h) (b a : ℚ)
    (ha : lo ≤ a ∧ a ≤ hi) :
    Fade.rounded lo hi (.fin 1) (.fin b) (.fin a) = Math.round (.fin a) := by
  subst hl hh
  obtain ⟨h1, h2⟩ := round_between a l h ha.1 ha.2
  have h1' : (l : ℚ) ≤ ((Int.floor (a + 1 / 2) : Int) : ℚ) := by exact_mod_cast h1
  have h2' : ((Int.floor (a + 1 / 2) : Int) : ℚ) ≤ (h : ℚ) := by exact_mod_cast h2
  rw [rounded_fin, round_fin]
  have e : (1 : ℚ) * (a - b) + b + 1 / 2 = a + 1 / 2 := by ring
  rw [e, min_eq_right h2', max_eq_right h1']

theorem unrounded_zero (lo hi b a : ℚ) (hb : lo ≤ b ∧ b ≤ hi) :
    Fade.unrounded lo hi (.fin 0) (.fin b) (.fin a) = .fin b := by
  rw [unrounded_fin]
  have e : (0 : ℚ) * (a - b) + b = b := by ring
  rw [e, min_eq_right hb.2, max_eq_right hb.1]

theorem unrounded_one (lo hi b a : ℚ) (ha : lo ≤ a ∧ a ≤ hi) :
    Fade.unrounded lo hi (.fin 1) (.fin b) (.fin a) = .fin a := by
  rw [unrounded_fin]
  have e : (1 : ℚ) * (a - b) + b = a := by ring
  rw [e, min_eq_right ha.2, max_eq_right ha.1]

theorem channel_zero (b a : ℚ) (hb : b.isInt = true ∧ 0 ≤ b ∧ b ≤ MAX_RGB) :
    Fade.rounded 0 MAX_RGB (.fin 0) (.fin b) (.fin a) = .fin b := by
  rw [rounded_zero 0 MAX_RGB 0 255 (by norm_num) (by norm_num [MAX_RGB]) b a hb.2,
    round_of_isInt b hb.1]

theorem channel_one (b a : ℚ) (ha : a.isInt = true ∧ 0 ≤ a ∧ a ≤ MAX_RGB) :
    Fade.rounded 0 MAX_RGB (.fin 1) (.fin b) (.fin a) = .fin a := by
  rw [rounded_one 0 MAX_RGB 0 255 (by norm_num) (by norm_num [MAX_RGB]) b a ha.2,
    round_of_isInt a ha.1]

theorem length_eq_four {α : Type} (l : List α) (h : l.length = 4) :
    ∃ a b c d, l = [a, b, c, d] := by
  rcases l with _ | ⟨a, _ | ⟨b, _ | ⟨c, _ | ⟨d, _ | ⟨e, l⟩⟩⟩⟩⟩ <;> simp at h
  exact ⟨a, b, c, d, rfl⟩

theorem length_eq_five {α : Type} (l : List α) (h : l.length = 5) :
    ∃ a b c d e, l = [a, b, c, d, e] := by
  rcases l with _ | ⟨a, _ | ⟨b, _ | ⟨c, _ | ⟨d, _ | ⟨e, _ | ⟨f, l⟩⟩⟩⟩⟩⟩ <;> simp at h
  exact ⟨a, b, c, d, e, rfl⟩

theorem result_zero (before after : FadeResult)
    (hb : before.Validated) (ha : after.Validated) :
    (Fade.result before after (.fin 0)).HasValuesOf before after := by
  obtain ⟨-, Bbr, Bpct, Bct, Bk, Brgb, Brgbw, Brgbww, Bhs, Bxy⟩ := hb
  obtain ⟨-, Abr, Apct, Act, Ak, Argb, Argbw, Argbww, Ahs, Axy⟩ := ha
  refine ⟨?_, ?_, ?_, ?_, ?_, ?_, ?_, ?_, ?_⟩
  · intro v hv hy
    obtain ⟨w, hw⟩ := Option.isSome_iff_exists.mp hy
    rw [Option.mem_def] at hv
    have hd := Bbr v hv
    simp only [Fade.result, hv, hw, Fade.both]
    rw [rounded_zero 0 MAX_BRIGHTNESS 0 255 (by norm_num) (by norm_num [MAX_BRIGHTNESS]) _ _ hd.2,
      round_of_isInt v hd.1]
  · intro v hv hy
    obtain ⟨w, hw⟩ := Option.isSome_iff_exists.mp hy
    rw [Option.mem_def] at hv
    have hd := Bpct v hv
    have e : (Fade.result before after (.fin 0)).brightness_pct = some (Math.round (.fin v)) := by
      simp only [Fade.result, hv, hw, Fade.both]
      rw [rounded_zero 0 MAX_BRIGHTNESS_PERCENT 0 100 (by norm_num [MAX_BRIGHTNESS_PERCENT])
        (by norm_num [MAX_BRIGHTNESS_PERCENT]) _ _ hd]
    exact ⟨e, fun hi => by rw [e, round_of_isInt v hi]⟩
  · intro v hv hy
    obtain ⟨w, hw⟩ := Option.isSome_iff_exists.mp hy
    rw [Option.mem_def] at hv
    have hd := Bct v hv
    have e : (Fade.result before after (.fin 0)).color_temp = some (Math.round (.fin v)) := by
      simp only [Fade.result, hv, hw, Fade.both]
      rw [rounded_zero MIN_MIREDS MAX_MIREDS 150 500 (by norm_num [MIN_MIREDS, MAX_MIREDS])
        (by norm_num [MIN_MIREDS, MAX_MIREDS]) _ _ hd]
    exact ⟨e, fun hi => by rw [e, round_of_isInt v hi]⟩
  · intro v hv hy
    obtain ⟨w, hw⟩ := Option.isSome_iff_exists.mp hy
    rw [Option.mem_def] at hv
    have hd := Bk v hv
    have e : (Fade.result before after (.fin 0)).kelvin = some (Math.round (.fin v)) := by
      simp only [Fade.result, hv, hw, Fade.both]
      rw [rounded_zero MIN_KELVIN MAX_KELVIN 2000 6500 (by norm_num [MIN_KELVIN, MAX_KELVIN])
        (by norm_num [MIN_KELVIN, MAX_KELVIN]) _ _ hd]
    exact ⟨e, fun hi => by rw [e, round_of_isInt v hi]⟩
  · intro xs hxs hy
    obtain ⟨ys, hys⟩ := Option.isSome_iff_exists.mp hy
    rw [Option.mem_def] at hxs
    have hx := Brgb xs hxs
    have hy' := Argb ys hys
    obtain ⟨x0, x1, x2, rfl⟩ := List.length_eq_three.mp hx.1
    obtain ⟨y0, y1, y2, rfl⟩ := List.length_eq_three.mp hy'.1
    simp only [Fade.result, hxs, hys, Fade.both, List.map, elem, List.get?]
    rw [channel_zero _ _ (hx.2 x0 (by simp)), channel_zero _ _ (hx.2 x1 (by simp)), channel_zero _ _ (hx.2 x2 (by simp))]
  · intro xs hxs hy
    obtain ⟨ys, hys⟩ := Option.isSome_iff_exists.mp hy
    rw [Option.mem_def] at hxs
    have hx := Brgbw xs hxs
    have hy' := Argbw ys hys
    obtain ⟨x0, x1, x2, x3, rfl⟩ := length_eq_four _ hx.1
    obtain ⟨y0, y1, y2, y3, rfl⟩ := length_eq_four _ hy'.1
    simp only [Fade.result, hxs, hys, Fade.both, List.map, elem, List.get?]
    rw [channel_zero _ _ (hx.2 x0 (by simp)), channel_zero _ _ (hx.2 x1 (by simp)), channel_zero _ _ (hx.2 x2 (by simp)), channel_zero _ _ (hx.2 x3 (by simp))]
  · intro xs hxs hy
    obtain ⟨ys, hys⟩ := Option.isSome_iff_exists.mp hy
    rw [Option.mem_def] at hxs
    have hx := Brgbww xs hxs
    have hy' := Argbww ys hys
    obtain ⟨x0, x1, x2, x3, x4, rfl⟩ := length_eq_five _ hx.1
    obtain ⟨y0, y1, y2, y3, y4, rfl⟩ := length_eq_five _ hy'.1
    simp only [Fade.result, hxs, hys, Fade.both, List.map, elem, List.get?]
    rw [channel_zero _ _ (hx.2 x0 (by simp)), channel_zero _ _ (hx.2 x1 (by simp)), channel_zero _ _ (hx.2 x2 (by simp)), channel_zero _ _ (hx.2 x3 (by simp)), channel_zero _ _ (hx.2 x4 (by simp))]
  · intro xs hxs hy
    obtain ⟨ys, hys⟩ := Option.isSome_iff_exists.mp hy
    rw [Option.mem_def] at hxs
    have hx := Bhs xs hxs
    have hy' := Ahs ys hys
    obtain ⟨x0, x1, rfl⟩ := List.length_eq_two.mp hx.1
    obtain ⟨y0, y1, rfl⟩ := List.length_eq_two.mp hy'.1
    have hx0 := hx.2.1 x0 rfl
    have hx1 := hx.2.2 x1 rfl
    simp only [Fade.result, hxs, hys, Fade.both, List.map, elem, List.get?]
    rw [unrounded_zero _ _ _ _ hx0, unrounded_zero _ _ _ _ hx1]
  · intro xs hxs hy
    obtain ⟨ys, hys⟩ := Option.isSome_iff_exists.mp hy
    rw [Option.mem_def] at hxs
    have hx := Bxy xs hxs
    have hy' := Axy ys hys
    obtain ⟨x0, x1, rfl⟩ := List.length_eq_two.mp hx.1
    obtain ⟨y0, y1, rfl⟩ := List.length_eq_two.mp hy'.1
    simp only [Fade.result, hxs, hys, Fade.both, List.map, elem, List.get?]
    rw [unrounded_zero _ _ _ _ (hx.2 x0 (by simp)), unrounded_zero _ _ _ _ (hx.2 x1 (by simp))]

theorem result_one (before after : FadeResult)
    (hb : before.Validated) (ha : after.Validated) :
    (Fade.result before after (.fin 1)).HasValuesOf after before := by
  obtain ⟨-, Bbr, Bpct, Bct, Bk, Brgb, Brgbw, Brgbww, Bhs, Bxy⟩ := hb
  obtain ⟨-, Abr, Apct, Act, Ak, Argb, Argbw, Argbww, Ahs, Axy⟩ := ha
  refine ⟨?_, ?_, ?_, ?_, ?_, ?_, ?_, ?_, ?_⟩
  · intro v hv hy
    obtain ⟨w, hw⟩ := Option.isSome_iff_exists.mp hy
    rw [Option.mem_def] at hv
    have hd := Abr v hv
    simp only [Fade.result, hw, hv, Fade.both]
    rw [rounded_one 0 MAX_BRIGHTNESS 0 255 (by norm_num) (by norm_num [MAX_BRIGHTNESS]) _ _ hd.2,
      round_of_isInt v hd.1]
  · intro v hv hy
    obtain ⟨w, hw⟩ := Option.isSome_iff_exists.mp hy
    rw [Option.mem_def] at hv
    have hd := Apct v hv
    have e : (Fade.result before after (.fin 1)).brightness_pct = some (Math.round (.fin v)) := by
      simp only [Fade.result, hw, hv, Fade.both]
      rw [rounded_one 0 MAX_BRIGHTNESS_PERCENT 0 100 (by norm_num [MAX_BRIGHTNESS_PERCENT])
        (by norm_num [MAX_BRIGHTNESS_PERCENT]) _ _ hd]
    exact ⟨e, fun hi => by rw [e, round_of_isInt v hi]⟩
  · intro v hv hy
    obtain ⟨w, hw⟩ := Option.isSome_iff_exists.mp hy
    rw [Option.mem_def] at hv
    have hd := Act v hv
    have e : (Fade.result before after (.fin 1)).color_temp = some (Math.round (.fin v)) := by
      simp only [Fade.result, hw, hv, Fade.both]
      rw [rounded_one MIN_MIREDS MAX_MIREDS 150 500 (by norm_num [MIN_MIREDS, MAX_MIREDS])
        (by norm_num [MIN_MIREDS, MAX_MIREDS]) _ _ hd]
    exact ⟨e, fun hi => by rw [e, round_of_isInt v hi]⟩
  · intro v hv hy
    obtain ⟨w, hw⟩ := Option.isSome_iff_exists.mp hy
    rw [Option.mem_def] at hv
    have hd := Ak v hv
    have e : (Fade.result before after (.fin 1)).kelvin = some (Math.round (.fin v)) := by
      simp only [Fade.result, hw, hv, Fade.both]
      rw [rounded_one MIN_KELVIN MAX_KELVIN 2000 6500 (by norm_num [MIN_KELVIN, MAX_KELVIN])
        (by norm_num [MIN_KELVIN, MAX_KELVIN]) _ _ hd]
    exact ⟨e, fun hi => by rw [e, round_of_isInt v hi]⟩
  · intro xs hxs hy
    obtain ⟨ys, hys⟩ := Option.isSome_iff_exists.mp hy
    rw [Option.mem_def] at hxs
    have hx := Argb xs hxs
    have hy' := Brgb ys hys
    obtain ⟨x0, x1, x2, rfl⟩ := List.length_eq_three.mp hx.1
    obtain ⟨y0, y1, y2, rfl⟩ := List.length_eq_three.mp hy'.1
    simp only [Fade.result, hxs, hys, Fade.both, List.map, elem, List.get?]
    rw [channel_one _ _ (hx.2 x0 (by simp)), channel_one _ _ (hx.2 x1 (by simp)), channel_one _ _ (hx.2 x2 (by simp))]
  · intro xs hxs hy
    obtain ⟨ys, hys⟩ := Option.isSome_iff_exists.mp hy
    rw [Option.mem_def] at hxs
    have hx := Argbw xs hxs
    have hy' := Brgbw ys hys
    obtain ⟨x0, x1, x2, x3, rfl⟩ := length_eq_four _ hx.1
    obtain ⟨y0, y1, y2, y3, rfl⟩ := length_eq_four _ hy'.1
    simp only [Fade.result, hxs, hys, Fade.both, List.map, elem, List.get?]
    rw [channel_one _ _ (hx.2 x0 (by simp)), channel_one _ _ (hx.2 x1 (by simp)), channel_one _ _ (hx.2 x2 (by simp)), channel_one _ _ (hx.2 x3 (by simp))]
  · intro xs hxs hy
    obtain ⟨ys, hys⟩ := Option.isSome_iff_exists.mp hy
    rw [Option.mem_def] at hxs
    have hx := Argbww xs hxs
    have hy' := Brgbww ys hys
    obtain ⟨x0, x1, x2, x3, x4, rfl⟩ := length_eq_five _ hx.1
    obtain ⟨y0, y1, y2, y3, y4, rfl⟩ := length_eq_five _ hy'.1
    simp only [Fade.result, hxs, hys, Fade.both, List.map, elem, List.get?]
    rw [channel_one _ _ (hx.2 x0 (by simp)), channel_one _ _ (hx.2 x1 (by simp)), channel_one _ _ (hx.2 x2 (by simp)), channel_one _ _ (hx.2 x3 (by simp)), channel_one _ _ (hx.2 x4 (by simp))]
  · intro xs hxs hy
    obtain ⟨ys, hys⟩ := Option.isSome_iff_exists.mp hy
    rw [Option.mem_def] at hxs
    have hx := Ahs xs hxs
    have hy' := Bhs ys hys
    obtain ⟨x0, x1, rfl⟩ := List.length_eq_two.mp hx.1
    obtain ⟨y0, y1, rfl⟩ := List.length_eq_two.mp hy'.1
    have hx0 := hx.2.1 x0 rfl
    have hx1 := hx.2.2 x1 rfl
    simp only [Fade.result, hxs, hys, Fade.both, List.map, elem, List.get?]
    rw [unrounded_one _ _ _ _ hx0, unrounded_one _ _ _ _ hx1]
  · intro xs hxs hy
    obtain ⟨ys, hys⟩ := Option.isSome_iff_exists.mp hy
    rw [Option.mem_def] at hxs
    have hx := Axy xs hxs
    have hy' := Bxy ys hys
    obtain ⟨x0, x1, rfl⟩ := List.length_eq_two.mp hx.1
    obtain ⟨y0, y1, rfl⟩ := List.length_eq_two.mp hy'.1
    simp only [Fade.result, hxs, hys, Fade.both, List.map, elem, List.get?]
    rw [unrounded_one _ _ _ _ (hx.2 x0 (by simp)), unrounded_one _ _ _ _ (hx.2 x1 (by simp))]

theorem hasIntegerValuesOf_of_hasValuesOf (r : FadeData) (x y : FadeResult)
    (h : r.HasValuesOf x y) : r.HasIntegerValuesOf x y := by
  obtain ⟨h1, h2, h3, h4, h5, h6, h7, h8, h9⟩ := h
  refine ⟨h1, ?_, ?_, ?_, h5, h6, h7, ?_, ?_⟩
  · intro v hv w hw hi _
    exact (h2 v hv (by rw [Option.mem_def.mp hw]; rfl)).2 hi
  · intro v hv w hw hi _
    exact (h3 v hv (by rw [Option.mem_def.mp hw]; rfl)).2 hi
  · intro v hv w hw hi _
    exact (h4 v hv (by rw [Option.mem_def.mp hw]; rfl)).2 hi
  · intro xs hxs ys hys _ _
    exact h8 xs hxs (by rw [Option.mem_def.mp hys]; rfl)
  · intro xs hxs ys hys _ _
    exact h9 xs hxs (by rw [Option.mem_def.mp hys]; rfl)

/-- C5 (as amended): for validated anchors whose window runs from the valid date
`before.beforeTime` to the later valid date `after.afterTime`, `Fade` at
`before.beforeTime` yields, for every attribute present in both anchors, the
value of `before`: unchanged for `brightness`, the rgb channels and the
components of `hs_color` and `xy_color`, rounded to the nearest integer for
`brightness_pct`, `color_temp` and `kelvin` (so unchanged when that value is an
integer). `Fade` at `after.afterTime` yields the value of `after`, unchanged, for
`brightness` and the rgb channels, and for each other attribute present in both
anchors whose values in both anchors are integers. -/
theorem Fade_at_window_ends (before after : FadeResult)
    (hb : before.Validated) (ha : after.Validated) (beforeTime afterTime : Int)
    (hbT : before.beforeTime = .valid beforeTime) (haT : after.afterTime = .valid afterTime)
    (hlt : beforeTime < afterTime) :
    ∃ r0 r1, Fade before after beforeTime = some r0 ∧
      Fade before after afterTime = some r1 ∧
      r0.HasValuesOf before after ∧ r1.HasIntegerValuesOf after before := by
  have hlt' : before.beforeTime < after.afterTime := by
    rw [hbT, haT]
    exact hlt
  refine ⟨_, _, Fade_of_lt before after _ hlt', Fade_of_lt before after _ hlt', ?_, ?_⟩
  · rw [hbT, haT]
    rw [show fraction (.valid beforeTime) (.valid afterTime) beforeTime = 0 from
      fraction_start beforeTime afterTime]
    exact result_zero before after hb ha
  · rw [hbT, haT]
    rw [show fraction (.valid beforeTime) (.valid afterTime) afterTime = 1 from
      fraction_end beforeTime afterTime hlt]
    exact hasIntegerValuesOf_of_hasValuesOf _ _ _ (result_one before after hb ha)

/-- Witness of C5 (as amended): the anchors `06:00` and `18:00`. -/
theorem Fade_at_window_ends_witness :
    morningAnchor.beforeTime = .valid 1728021600000 ∧
      eveningAnchor.afterTime = .valid 1728064800000 ∧
      ∃ r0 r1, Fade morningAnchor eveningAnchor 1728021600000 = some r0 ∧
        Fade morningAnchor eveningAnchor 1728064800000 = some r1 ∧
        r0.HasValuesOf morningAnchor eveningAnchor ∧
        r1.HasIntegerValuesOf eveningAnchor morningAnchor :=
  ⟨rfl, rfl, Fade_at_window_ends morningAnchor eveningAnchor (by decide!) (by decide!)
    1728021600000 1728064800000 rfl rfl (by decide)⟩

/-- Counterexample to C5 as stated: both anchors are validated and the window is
proper, `before.brightness_pct` is 50.5, and `Fade` at `before.beforeTime`
returns `brightness_pct` 51. -/
theorem Fade_start_rounds_fractional_percentage :
    morningAnchor.Validated ∧ eveningAnchor.Validated ∧
      morningAnchor.beforeTime = .valid 1728021600000 ∧
      morningAnchor.beforeTime < eveningAnchor.afterTime ∧
      morningAnchor.brightness_pct = some (101 / 2) ∧
      eveningAnchor.brightness_pct = some 80 ∧
      (Fade morningAnchor eveningAnchor 1728021600000).bind
        (fun r => r.brightness_pct) = some (.fin 51) ∧
      JSNum.fin 51 ≠ JSNum.fin (101 / 2) :=
  ⟨by decide!, by decide!, rfl, by decide, rfl, rfl, by decide!, by decide!⟩

/-! ## Domains of the values of `Fade` -/

theorem both_eq_some {α β : Type} (b a : Option α) (f : α → α → β) (v : β)
    (h : Fade.both b a f = some v) : ∃ x y, b = some x ∧ a = some y ∧ v = f x y := by
  cases b <;> cases a <;> simp [Fade.both] at h
  exact ⟨_, _, rfl, rfl, h.symm⟩

theorem inDomain_rounded (lo hi p b a : ℚ) (h : lo ≤ hi) :
    InDomain lo hi (Fade.rounded lo hi (.fin p) (.fin b) (.fin a)) :=
  ⟨_, rounded_fin lo hi p b a, le_max_left _ _, max_le h (min_le_left _ _)⟩

theorem inDomain_unrounded (lo hi p b a : ℚ) (h : lo ≤ hi) :
    InDomain lo hi (Fade.unrounded lo hi (.fin p) (.fin b) (.fin a)) :=
  ⟨_, unrounded_fin lo hi p b a, le_max_left _ _, max_le h (min_le_left _ _)⟩

/-- With a finite progress, every value computed from validated anchors lies in
the domain of its attribute. -/
theorem result_inDomains (before after : FadeResult)
    (hb : before.Validated) (ha : after.Validated) (p : ℚ) :
    (Fade.result before after (.fin p)).InDomains := by
  obtain ⟨-, -, -, -, -, Brgb, Brgbw, Brgbww, Bhs, Bxy⟩ := hb
  obtain ⟨-, -, -, -, -, Argb, Argbw, Argbww, Ahs, Axy⟩ := ha
  refine ⟨?_, ?_, ?_, ?_, ?_, ?_, ?_, ?_, ?_⟩
  · intro v hv
    rw [Option.mem_def] at hv
    obtain ⟨b, a, -, -, rfl⟩ := both_eq_some _ _ _ _ hv
    exact inDomain_rounded 0 255 p b a (by norm_num)
  · intro v hv
    rw [Option.mem_def] at hv
    obtain ⟨b, a, -, -, rfl⟩ := both_eq_some _ _ _ _ hv
    exact inDomain_rounded 0 100 p b a (by norm_num)
  · intro v hv
    rw [Option.mem_def] at hv
    obtain ⟨b, a, -, -, rfl⟩ := both_eq_some _ _ _ _ hv
    exact inDomain_rounded 150 500 p b a (by norm_num)
  · intro v hv
    rw [Option.mem_def] at hv
    obtain ⟨b, a, -, -, rfl⟩ := both_eq_some _ _ _ _ hv
    exact inDomain_rounded 2000 6500 p b a (by norm_num)
  · intro xs hxs v hv
    rw [Option.mem_def] at hxs
    obtain ⟨b, a, hbe, haf, rfl⟩ := both_eq_some _ _ _ _ hxs
    obtain ⟨x0, x1, x2, rfl⟩ := List.length_eq_three.mp (Brgb b hbe).1
    obtain ⟨y0, y1, y2, rfl⟩ := List.length_eq_three.mp (Argb a haf).1
    simp only [List.map, elem, List.get?, List.mem_cons, List.mem_singleton, List.not_mem_nil,
      or_false] at hv
    rcases hv with rfl | rfl | rfl <;> exact inDomain_rounded 0 255 p _ _ (by norm_num)
  · intro xs hxs v hv
    rw [Option.mem_def] at hxs
    obtain ⟨b, a, hbe, haf, rfl⟩ := both_eq_some _ _ _ _ hxs
    obtain ⟨x0, x1, x2, x3, rfl⟩ := length_eq_four _ (Brgbw b hbe).1
    obtain ⟨y0, y1, y2, y3, rfl⟩ := length_eq_four _ (Argbw a haf).1
    simp only [List.map, elem, List.get?, List.mem_cons, List.mem_singleton, List.not_mem_nil,
      or_false] at hv
    rcases hv with rfl | rfl | rfl | rfl <;> exact inDomain_rounded 0 255 p _ _ (by norm_num)
  · intro xs hxs v hv
    rw [Option.mem_def] at hxs
    obtain ⟨b, a, hbe, haf, rfl⟩ := both_eq_some _ _ _ _ hxs
    obtain ⟨x0, x1, x2, x3, x4, rfl⟩ := length_eq_five _ (Brgbww b hbe).1
    obtain ⟨y0, y1, y2, y3, y4, rfl⟩ := length_eq_five _ (Argbww a haf).1
    simp only [List.map, elem, List.get?, List.mem_cons, List.mem_singleton, List.not_mem_nil,
      or_false] at hv
    rcases hv with rfl | rfl | rfl | rfl | rfl <;> exact inDomain_rounded 0 255 p _ _ (by norm_num)
  · intro xs hxs
    rw [Option.mem_def] at hxs
    obtain ⟨b, a, hbe, haf, rfl⟩ := both_eq_some _ _ _ _ hxs
    obtain ⟨x0, x1, rfl⟩ := List.length_eq_two.mp (Bhs b hbe).1
    obtain ⟨y0, y1, rfl⟩ := List.length_eq_two.mp (Ahs a haf).1
    exact ⟨_, _, rfl, inDomain_unrounded 0 360 p x0 y0 (by norm_num),
      inDomain_unrounded 0 100 p x1 y1 (by norm_num)⟩
  · intro xs hxs v hv
    rw [Option.mem_def] at hxs
    obtain ⟨b, a, hbe, haf, rfl⟩ := both_eq_some _ _ _ _ hxs
    obtain ⟨x0, x1, rfl⟩ := List.length_eq_two.mp (Bxy b hbe).1
    obtain ⟨y0, y1, rfl⟩ := List.length_eq_two.mp (Axy a haf).1
    simp only [List.map, elem, List.get?, List.mem_cons, List.mem_singleton, List.not_mem_nil,
      or_false] at hv
    rcases hv with rfl | rfl <;> exact inDomain_unrounded 0 1 p _ _ (by norm_num)

/-- For validated anchors with `before.beforeTime < after.afterTime`, every value
in the result of `Fade` lies in the domain of its attribute, whatever `now` is. -/
theorem Fade_inDomains_of_lt (before after : FadeResult)
    (hb : before.Validated) (ha : after.Validated)
    (hlt : before.beforeTime < after.afterTime) (now : Int) :
    ∃ r, Fade before after now = some r ∧ r.InDomains :=
  ⟨_, Fade_of_lt before after now hlt, result_inDomains before after hb ha _⟩

theorem not_inDomain_nan (lo hi : ℚ) : ¬ InDomain lo hi .nan := by
  rintro ⟨q, hq, -⟩
  cases hq

/-- C4 at its boundary case: at `now` = 06:00:00.000 `GetFades` resolves the anchor
`06:00` to `beforeTime = afterTime = now`; for this validated anchor, with
`before.beforeTime = after.afterTime = now`, `Fade` returns a result whose
`brightness` is `NaN`, outside the domain 0..255. -/
theorem Fade_nan_when_window_is_now :
    GetFades.times [] 0 1728021600000 "06:00" 0 = some (1728021600000, 1728021600000) ∧
      exactAnchor.Validated ∧
      exactAnchor.beforeTime ≤ 1728021600000 ∧ 1728021600000 ≤ exactAnchor.afterTime ∧
      Fade exactAnchor exactAnchor 1728021600000 = some { brightness := some .nan } ∧
      ¬ ({ brightness := some .nan } : FadeData).InDomains := by
  refine ⟨by decide!, by decide!, by decide, by decide, by decide!, ?_⟩
  intro h
  exact not_inDomain_nan 0 255 (h.1 .nan rfl)

/-- C9 at `before.beforeTime = after.afterTime`: `Fade` does not return without a
value; it returns a result (here, past the instant, the brightness of `after`). -/
theorem Fade_returns_value_when_times_equal :
    exactAnchor.beforeTime = exactAnchor.afterTime ∧
      Fade exactAnchor exactAnchor 1728021601000 = some { brightness := some (.fin 100) } ∧
      Fade exactAnchor exactAnchor 1728021601000 ≠ none := by
  refine ⟨rfl, by decide!, by decide!⟩

/-! ## Instances of the theorems -/

/-- Witness of C6: brightness 100 at sunrise and 200 at sunset, at two instants. -/
theorem Fade_brightness_monotone_witness :
    ∃ r1 r2 v1 v2, Fade sunriseAnchor sunsetAnchor 1728030000000 = some r1 ∧
      Fade sunriseAnchor sunsetAnchor 1728050000000 = some r2 ∧
      r1.brightness = some (.fin v1) ∧ r2.brightness = some (.fin v2) ∧
      100 ≤ v1 ∧ v1 ≤ v2 ∧ v2 ≤ 200 :=
  Fade_brightness_monotone sunriseAnchor sunsetAnchor (by decide!) (by decide!) (by decide)
    100 200 rfl rfl (by norm_num) 1728030000000 1728050000000 (by decide)

/-- Witness of C7: `brightness` is in both anchors, `kelvin` only in the second. -/
theorem Fade_keys_witness :
    Fade sunriseAnchor sunsetAnchor 1728030000000
        = some (Fade.result sunriseAnchor sunsetAnchor
            (Fade.progress sunriseAnchor sunsetAnchor 1728030000000)) ∧
      ("kelvin" ∈ (Fade.result sunriseAnchor sunsetAnchor
            (Fade.progress sunriseAnchor sunsetAnchor 1728030000000)).keys ↔
        ("kelvin" ∈ attributeNames ∧ sunriseAnchor.has "kelvin" = true ∧
          sunsetAnchor.has "kelvin" = true)) :=
  ⟨by decide!, Fade_keys sunriseAnchor sunsetAnchor 1728030000000 _ (by decide!) "kelvin"⟩

/-- Witness of C8: the anchors of C6 taken in the wrong order. -/
theorem Fade_invalid_window_witness :
    sunsetAnchor.beforeTime > { sunriseAnchor with afterTime := 1727900000000 }.afterTime ∧
      Fade sunsetAnchor { sunriseAnchor with afterTime := 1727900000000 } 1728030000000 = none :=
  ⟨by decide, Fade_invalid_window sunsetAnchor { sunriseAnchor with afterTime := 1727900000000 }
    1728030000000 (by decide)⟩

/-- Witness of C10: an instant after the end of the window. -/
theorem Fade_constrains_now_witness :
    sunriseAnchor.beforeTime < sunsetAnchor.afterTime ∧
      Fade sunriseAnchor sunsetAnchor 1728070000000
        = Fade sunriseAnchor sunsetAnchor
            (constrainNow sunriseAnchor.beforeTime sunsetAnchor.afterTime 1728070000000) :=
  ⟨by decide, (Fade_constrains_now sunriseAnchor sunsetAnchor 1728070000000 (by decide)).1⟩

/-! ## The field validators of `GetFades` -/

theorem parseInt_undefined : (Value.scalar Scalar.undefined).parseInt = none := rfl

theorem parseFloat_undefined : (Value.scalar Scalar.undefined).parseFloat = .nan := rfl

theorem offset_range (index : Nat) (value : Value) :
    MINIMUM_OFFSET_MINS ≤ (GetFades.offset index value).1 ∧
      (GetFades.offset index value).1 ≤ MAXIMUM_OFFSET_MINS := by
  unfold GetFades.offset
  split
  · simp [MINIMUM_OFFSET_MINS, MAXIMUM_OFFSET_MINS]
  · split
    · simp [MINIMUM_OFFSET_MINS, MAXIMUM_OFFSET_MINS]
    · split
      · simp [MINIMUM_OFFSET_MINS, MAXIMUM_OFFSET_MINS]
      · rename_i h
        simp only [not_or, not_lt] at h
        exact ⟨h.1, h.2⟩

theorem intField_eq_some_iff (field : FadeField) (hi : ℚ) (index : Nat) (value : Value) (q : ℚ) :
    (GetFades.intField field hi index value).1 = some q ↔
      ∃ n : Int, value.parseInt = some n ∧ q = n ∧ 0 ≤ (n : ℚ) ∧ (n : ℚ) ≤ hi := by
  unfold GetFades.intField
  split
  · rename_i h
    subst h
    simp [parseInt_undefined]
  · split
    · rename_i h
      simp [h]
    · rename_i n h
      split
      · rename_i hr
        simp only [h, Option.some.injEq, false_iff, not_exists, not_and, reduceCtorEq]
        rintro m rfl - h0 h1
        rcases hr with hr | hr
        · exact absurd h0 (not_le.mpr hr)
        · exact absurd h1 (not_le.mpr hr)
      · rename_i hr
        simp only [not_or, not_lt] at hr
        simp only [h, Option.some.injEq]
        constructor
        · rintro rfl
          exact ⟨n, rfl, rfl, hr.1, hr.2⟩
        · rintro ⟨m, rfl, rfl, -, -⟩
          rfl

theorem intField_notice (field : FadeField) (hi : ℚ) (index : Nat) (value : Value) :
    ((GetFades.intField field hi index value).2 = none ↔
      (value = .scalar .undefined ∨ (GetFades.intField field hi index value).1.isSome = true)) ∧
    ∀ n, (GetFades.intField field hi index value).2 = some n →
      n.warning.field = some field ∧ n.warning.index = index ∧
        n.status = fieldStatus index field := by
  unfold GetFades.intField
  split
  · simp_all
  · rename_i hv
    split
    · simp [hv, Warning.field, Warning.index]
    · split
      · simp [hv, Warning.field, Warning.index]
      · simp [hv]

theorem floatField_eq_some_iff (field : FadeField) (lo hi : ℚ) (index : Nat) (value : Value)
    (q : ℚ) :
    (GetFades.floatField field lo hi index value).1 = some q ↔
      value.parseFloat = .fin q ∧ lo ≤ q ∧ q ≤ hi := by
  unfold GetFades.floatField
  split
  · rename_i h
    subst h
    simp [parseFloat_undefined]
  · cases hx : value.parseFloat with
    | nan => simp
    | posInf => simp [outside]
    | negInf => simp [outside]
    | fin x =>
      simp only [outside, Bool.or_eq_true, decide_eq_true_eq, JSNum.fin.injEq]
      split
      · rename_i hr
        simp only [false_iff, not_and, not_le, reduceCtorEq]
        rintro rfl h0
        rcases hr with hr | hr
        · exact absurd h0 (not_le.mpr hr)
        · exact hr
      · rename_i hr
        simp only [not_or, not_lt] at hr
        simp only [Option.some.injEq]
        constructor
        · rintro rfl
          exact ⟨rfl, hr.1, hr.2⟩
        · rintro ⟨rfl, -, -⟩
          rfl

theorem floatField_notice (field : FadeField) (lo hi : ℚ) (index : Nat) (value : Value) :
    ((GetFades.floatField field lo hi index value).2 = none ↔
      (value = .scalar .undefined ∨
        (GetFades.floatField field lo hi index value).1.isSome = true)) ∧
    ∀ n, (GetFades.floatField field lo hi index value).2 = some n →
      n.warning.field = some field ∧ n.warning.index = index ∧
        n.status = fieldStatus index field := by
  unfold GetFades.floatField
  split
  · simp_all
  · rename_i hv
    cases hx : value.parseFloat with
    | nan => simp [hv, Warning.field, Warning.index]
    | posInf => simp [hv, outside, Warning.field, Warning.index]
    | negInf => simp [hv, outside, Warning.field, Warning.index]
    | fin x =>
      simp only [outside, Bool.or_eq_true, decide_eq_true_eq]
      split
      · simp [hv, Warning.field, Warning.index]
      · simp [hv]

theorem channels_eq_some_iff (xs : List Scalar) (vs : List ℚ) :
    GetFades.channels xs = some vs ↔
      List.Forall₂ (fun (x : Scalar) (v : ℚ) => ∃ n : Int, x.parseInt = some n ∧ v = n ∧
        0 ≤ (n : ℚ) ∧ (n : ℚ) ≤ MAX_RGB) xs vs := by
  induction xs generalizing vs with
  | nil =>
    simp [GetFades.channels, eq_comm]
  | cons x xs ih =>
    unfold GetFades.channels
    cases hx : x.parseInt with
    | none =>
      simp only [false_iff, reduceCtorEq]
      intro h
      cases h with
      | cons h1 _ =>
        obtain ⟨n, hn, -⟩ := h1
        simp [hn] at hx
    | some n =>
      simp only
      split
      · rename_i hr
        constructor
        · intro h
          simp only [Option.map_eq_some'] at h
          obtain ⟨ws, hws, rfl⟩ := h
          exact List.Forall₂.cons ⟨n, hx, rfl, hr.1, hr.2⟩ ((ih ws).mp hws)
        · intro h
          cases h with
          | cons h1 h2 =>
            obtain ⟨m, hm, rfl, -, -⟩ := h1
            obtain rfl : n = m := by rw [hx] at hm; simpa using hm
            simp only [Option.map_eq_some']
            exact ⟨_, (ih _).mpr h2, rfl⟩
      · rename_i hr
        simp only [false_iff, reduceCtorEq]
        intro h
        cases h with
        | cons h1 _ =>
          obtain ⟨m, hm, -, h0, h1'⟩ := h1
          obtain rfl : n = m := by rw [hx] at hm; simpa using hm
          exact hr ⟨h0, h1'⟩

theorem intArrayField_eq_some_iff (field : FadeField) (length index : Nat) (value : Value)
    (vs : List ℚ) :
    (GetFades.intArrayField field length index value).1 = some vs ↔
      ∃ xs, value = .array xs ∧ xs.length = length ∧ GetFades.channels xs = some vs := by
  unfold GetFades.intArrayField
  cases value with
  | scalar p =>
    by_cases hp : p = .undefined
    · simp [hp]
    · simp [hp]
  | array xs =>
    by_cases hl : xs.length = length
    · cases hc : GetFades.channels xs <;> simp [hl, hc]
    · simp [hl]

theorem intArrayField_notice (field : FadeField) (length index : Nat) (value : Value) :
    ((GetFades.intArrayField field length index value).2 = none ↔
      (value = .scalar .undefined ∨
        (GetFades.intArrayField field length index value).1.isSome = true)) ∧
    ∀ n, (GetFades.intArrayField field length index value).2 = some n →
      n.warning.field = some field ∧ n.warning.index = index ∧
        n.status = fieldStatus index field := by
  unfold GetFades.intArrayField
  cases value with
  | scalar p =>
    by_cases hp : p = .undefined
    · simp [hp]
    · simp [hp, Warning.field, Warning.index]
  | array xs =>
    by_cases hl : xs.length = length
    · cases hc : GetFades.channels xs <;> simp [hl, hc, Warning.field, Warning.index]
    · simp [hl, Warning.field, Warning.index]

theorem finiteWithin_eq_some_iff (lo hi : ℚ) (x : JSNum) (q : ℚ) :
    finiteWithin lo hi x = some q ↔ x = .fin q ∧ lo ≤ q ∧ q ≤ hi := by
  cases x with
  | fin y =>
    simp only [finiteWithin, JSNum.fin.injEq]
    split
    · rename_i h
      simp only [Option.some.injEq]
      constructor
      · rintro rfl
        exact ⟨rfl, h⟩
      · rintro ⟨rfl, -⟩
        rfl
    · rename_i h
      simp only [false_iff, not_and, reduceCtorEq]
      rintro rfl h0 h1
      exact h ⟨h0, h1⟩
  | _ => simp [finiteWithin]

theorem hsField_eq_some_iff (index : Nat) (value : Value) (vs : List ℚ) :
    (GetFades.hsField index value).1 = some vs ↔
      ∃ h s vh vsat, value = .array [h, s] ∧
        finiteWithin 0 MAX_HUE h.parseFloat = some vh ∧
        finiteWithin 0 MAX_SAT s.parseFloat = some vsat ∧ vs = [vh, vsat] := by
  unfold GetFades.hsField
  cases value with
  | scalar p =>
    by_cases hp : p = .undefined
    · simp [hp]
    · simp [hp]
  | array xs =>
    rcases xs with _ | ⟨h, _ | ⟨s, _ | ⟨t, l⟩⟩⟩
    · simp
    · simp
    · cases h1 : finiteWithin 0 MAX_HUE h.parseFloat with
      | none => simp [h1]
      | some a =>
        cases h2 : finiteWithin 0 MAX_SAT s.parseFloat with
        | none => simp [h1, h2]
        | some b =>
          simp only [h1, h2, reduceCtorEq, if_false, Option.some.injEq]
          constructor
          · rintro rfl
            exact ⟨h, s, a, b, rfl, h1, h2, rfl⟩
          · rintro ⟨h', s', a', b', he, ha, hb, rfl⟩
            simp only [Value.array.injEq, List.cons.injEq, and_true] at he
            obtain ⟨rfl, rfl⟩ := he
            rw [h1] at ha
            rw [h2] at hb
            simp only [Option.some.injEq] at ha hb
            rw [ha, hb]
    · simp

theorem hsField_notice (index : Nat) (value : Value) :
    ((GetFades.hsField index value).2 = none ↔
      (value = .scalar .undefined ∨ (GetFades.hsField index value).1.isSome = true)) ∧
    ∀ n, (GetFades.hsField index value).2 = some n →
      n.warning.field = some .hs_color ∧ n.warning.index = index ∧
        n.status = fieldStatus index .hs_color := by
  unfold GetFades.hsField
  cases value with
  | scalar p =>
    by_cases hp : p = .undefined
    · simp [hp]
    · simp [hp, Warning.field, Warning.index]
  | array xs =>
    rcases xs with _ | ⟨h, _ | ⟨s, _ | ⟨t, l⟩⟩⟩
    · simp [Warning.field, Warning.index]
    · simp [Warning.field, Warning.index]
    · cases h1 : finiteWithin 0 MAX_HUE h.parseFloat <;>
        cases h2 : finiteWithin 0 MAX_SAT s.parseFloat <;>
        simp [h1, h2, Warning.field, Warning.index]
    · simp [Warning.field, Warning.index]

theorem components_eq_some_iff (xs : List Scalar) (vs : List ℚ) :
    GetFades.components xs = some vs ↔
      List.Forall₂ (fun (x : Scalar) (v : ℚ) => finiteWithin 0 MAX_XY x.parseFloat = some v)
        xs vs := by
  induction xs generalizing vs with
  | nil => simp [GetFades.components, eq_comm]
  | cons x xs ih =>
    unfold GetFades.components
    cases hx : finiteWithin 0 MAX_XY x.parseFloat with
    | none =>
      simp only [false_iff, reduceCtorEq]
      intro h
      cases h with
      | cons h1 _ => simp [hx] at h1
    | some q =>
      simp only [Option.map_eq_some']
      constructor
      · rintro ⟨ws, hws, rfl⟩
        exact List.Forall₂.cons hx ((ih ws).mp hws)
      · intro h
        cases h with
        | cons h1 h2 =>
          obtain rfl : q = _ := by simpa [hx] using h1
          exact ⟨_, (ih _).mpr h2, rfl⟩

theorem xyField_eq_some_iff (index : Nat) (value : Value) (vs : List ℚ) :
    (GetFades.xyField index value).1 = some vs ↔
      ∃ xs, value = .array xs ∧ xs.length = 2 ∧ GetFades.components xs = some vs := by
  unfold GetFades.xyField
  cases value with
  | scalar p =>
    by_cases hp : p = .undefined
    · simp [hp]
    · simp [hp]
  | array xs =>
    by_cases hl : xs.length = 2
    · cases hc : GetFades.components xs <;> simp [hl, hc]
    · simp [hl]

theorem xyField_notice (index : Nat) (value : Value) :
    ((GetFades.xyField index value).2 = none ↔
      (value = .scalar .undefined ∨ (GetFades.xyField index value).1.isSome = true)) ∧
    ∀ n, (GetFades.xyField index value).2 = some n →
      n.warning.field = some .xy_color ∧ n.warning.index = index ∧
        n.status = fieldStatus index .xy_color := by
  unfold GetFades.xyField
  cases value with
  | scalar p =>
    by_cases hp : p = .undefined
    · simp [hp]
    · simp [hp, Warning.field, Warning.index]
  | array xs =>
    by_cases hl : xs.length = 2
    · cases hc : GetFades.components xs <;> simp [hl, hc, Warning.field, Warning.index]
    · simp [hl, Warning.field, Warning.index]

theorem offset_notice (index : Nat) (value : Value) :
    ∀ n, (GetFades.offset index value).2 = some n →
      n.warning.field = some .offset_mins ∧ n.warning.index = index ∧
        n.status = fieldStatus index .offset_mins := by
  unfold GetFades.offset
  split
  · simp
  · split
    · simp [Warning.field, Warning.index]
    · split
      · simp [Warning.field, Warning.index]
      · simp

/-! ## One element of `msg.fades` -/

theorem element_of_time_rejected (suntimes : SunTimes) (zone : Zone) (now : Int) (fade : RawFade)
    (index : Nat) (h : ¬ fade.TimeAccepted suntimes) :
    ∃ n, GetFades.element suntimes zone now fade index = (none, [n]) ∧
      n.status = elementStatus index ∧
      (n.warning = .timeNotDefined index ∨ ∃ t, n.warning = .invalidTime index t) := by
  unfold GetFades.element
  cases ht : fade.time with
  | none => exact ⟨_, rfl, rfl, Or.inl rfl⟩
  | some time =>
    have hrej : (!(suntimes.has time) && !(REGEX_HHMM time)) = true := by
      cases h1 : suntimes.has time
      · cases h2 : REGEX_HHMM time
        · rfl
        · exact absurd ⟨time, ht, Or.inr h2⟩ h
      · exact absurd ⟨time, ht, Or.inl h1⟩ h
    simp only [hrej, if_true]
    exact ⟨_, rfl, rfl, Or.inr ⟨time, rfl⟩⟩

theorem times_isSome_of_accepted (suntimes : SunTimes) (zone : Zone) (now : Int) (time : String)
    (offset_mins : Int) (h : suntimes.has time = true ∨ REGEX_HHMM time = true) :
    ∃ bT aT, GetFades.times suntimes zone now time offset_mins = some (bT, aT) := by
  have := (times_isSome_iff suntimes zone now time offset_mins).mpr h
  obtain ⟨⟨bT, aT⟩, hr⟩ := Option.isSome_iff_exists.mp this
  exact ⟨bT, aT, hr⟩

/-- The element as `GetFades` leaves it when the time test passes. -/
theorem element_of_time_accepted (suntimes : SunTimes) (zone : Zone) (now : Int) (fade : RawFade)
    (index : Nat) (time : String) (ht : fade.time = some time)
    (h : suntimes.has time = true ∨ REGEX_HHMM time = true) :
    (GetFades.hasLevel fade index = false ∧
      GetFades.element suntimes zone now fade index =
        (none, GetFades.fieldNotices fade index ++ [⟨.noLevels index, elementStatus index⟩])) ∨
    (GetFades.hasLevel fade index = true ∧ ∃ bT aT,
      GetFades.times suntimes zone now time (GetFades.offset_mins fade index).1 = some (bT, aT) ∧
      GetFades.element suntimes zone now fade index =
        (some
          { time := time
            offset_mins := (GetFades.offset_mins fade index).1
            brightness := (GetFades.brightness fade index).1
            brightness_pct := (GetFades.brightness_pct fade index).1
            color_temp := (GetFades.color_temp fade index).1
            kelvin := (GetFades.kelvin fade index).1
            rgb_color := (GetFades.rgb_color fade index).1
            rgbw_color := (GetFades.rgbw_color fade index).1
            rgbww_color := (GetFades.rgbww_color fade index).1
            hs_color := (GetFades.hs_color fade index).1
            xy_color := (GetFades.xy_color fade index).1
            beforeTime := bT
            afterTime := aT },
          GetFades.fieldNotices fade index)) := by
  have hgate : (!(suntimes.has time) && !(REGEX_HHMM time)) = false := by
    rcases h with h | h <;> simp [h]
  unfold GetFades.element
  simp only [ht, hgate, Bool.false_eq_true, if_false]
  cases hl : GetFades.hasLevel fade index with
  | false => exact Or.inl ⟨rfl, by simp⟩
  | true =>
    obtain ⟨bT, aT, htimes⟩ := times_isSome_of_accepted suntimes zone now time
      (GetFades.offset_mins fade index).1 h
    exact Or.inr ⟨rfl, bT, aT, htimes, by simp [htimes]⟩

theorem element_isSome_iff (suntimes : SunTimes) (zone : Zone) (now : Int) (fade : RawFade) (index : Nat) :
    (GetFades.element suntimes zone now fade index).1.isSome = true ↔
      (fade.TimeAccepted suntimes ∧ GetFades.hasLevel fade index = true) := by
  by_cases hacc : fade.TimeAccepted suntimes
  · obtain ⟨time, ht, h⟩ := hacc
    rcases element_of_time_accepted suntimes zone now fade index time ht h with
      ⟨hl, he⟩ | ⟨hl, bT, aT, -, he⟩
    · simp [he, hl]
    · simp only [he, Option.isSome_some, hl, and_true, true_iff]
      exact ⟨time, ht, h⟩
  · obtain ⟨n, he, -⟩ := element_of_time_rejected suntimes zone now fade index hacc
    simp [he, hacc]

theorem offset_index (i j : Nat) (value : Value) :
    (GetFades.offset i value).1 = (GetFades.offset j value).1 := by
  unfold GetFades.offset
  split
  · rfl
  · split
    · rfl
    · split <;> rfl

theorem intField_index (field : FadeField) (hi : ℚ) (i j : Nat) (value : Value) :
    (GetFades.intField field hi i value).1 = (GetFades.intField field hi j value).1 := by
  ext q
  simp only [Option.mem_def, intField_eq_some_iff]

theorem floatField_index (field : FadeField) (lo hi : ℚ) (i j : Nat) (value : Value) :
    (GetFades.floatField field lo hi i value).1 = (GetFades.floatField field lo hi j value).1 := by
  ext q
  simp only [Option.mem_def, floatField_eq_some_iff]

theorem intArrayField_index (field : FadeField) (n i j : Nat) (value : Value) :
    (GetFades.intArrayField field n i value).1 = (GetFades.intArrayField field n j value).1 := by
  ext q
  simp only [Option.mem_def, intArrayField_eq_some_iff]

theorem hsField_index (i j : Nat) (value : Value) :
    (GetFades.hsField i value).1 = (GetFades.hsField j value).1 := by
  ext q
  simp only [Option.mem_def, hsField_eq_some_iff]

theorem xyField_index (i j : Nat) (value : Value) :
    (GetFades.xyField i value).1 = (GetFades.xyField j value).1 := by
  ext q
  simp only [Option.mem_def, xyField_eq_some_iff]

theorem hasLevel_index (fade : RawFade) (i j : Nat) :
    GetFades.hasLevel fade i = GetFades.hasLevel fade j := by
  simp only [GetFades.hasLevel, GetFades.brightness, GetFades.brightness_pct, GetFades.color_temp,
    GetFades.kelvin, GetFades.rgb_color, GetFades.rgbw_color, GetFades.rgbww_color,
    GetFades.hs_color, GetFades.xy_color]
  rw [intField_index _ _ i j, floatField_index .brightness_pct _ _ i j,
    floatField_index .color_temp _ _ i j, floatField_index .kelvin _ _ i j,
    intArrayField_index .rgb_color _ i j, intArrayField_index .rgbw_color _ i j,
    intArrayField_index .rgbww_color _ i j, hsField_index i j, xyField_index i j]

theorem element_index (suntimes : SunTimes) (zone : Zone) (now : Int) (fade : RawFade) (i : Nat) :
    (GetFades.element suntimes zone now fade i).1 = GetFades.validated suntimes zone now fade := by
  unfold GetFades.validated
  by_cases hacc : fade.TimeAccepted suntimes
  · obtain ⟨time, ht, h⟩ := hacc
    have hl := hasLevel_index fade i 0
    rcases element_of_time_accepted suntimes zone now fade i time ht h with
      ⟨hl1, he1⟩ | ⟨hl1, bT, aT, ht1, he1⟩ <;>
    rcases element_of_time_accepted suntimes zone now fade 0 time ht h with
      ⟨hl2, he2⟩ | ⟨hl2, bT', aT', ht2, he2⟩
    · rw [he1, he2]
    · rw [hl1, hl2] at hl
      cases hl
    · rw [hl1, hl2] at hl
      cases hl
    · rw [he1, he2]
      have ho : (GetFades.offset_mins fade i).1 = (GetFades.offset_mins fade 0).1 :=
        offset_index i 0 _
      rw [ho] at ht1
      rw [ht1] at ht2
      simp only [Option.some.injEq, Prod.mk.injEq] at ht2
      obtain ⟨rfl, rfl⟩ := ht2
      simp only [GetFades.offset_mins, GetFades.brightness, GetFades.brightness_pct,
        GetFades.color_temp, GetFades.kelvin, GetFades.rgb_color, GetFades.rgbw_color,
        GetFades.rgbww_color, GetFades.hs_color, GetFades.xy_color]
      rw [offset_index i 0, intField_index _ _ i 0, floatField_index .brightness_pct _ _ i 0,
        floatField_index .color_temp _ _ i 0, floatField_index .kelvin _ _ i 0,
        intArrayField_index .rgb_color _ i 0, intArrayField_index .rgbw_color _ i 0,
        intArrayField_index .rgbww_color _ i 0, hsField_index i 0, xyField_index i 0]
  · obtain ⟨n, he, -⟩ := element_of_time_rejected suntimes zone now fade i hacc
    obtain ⟨m, he', -⟩ := element_of_time_rejected suntimes zone now fade 0 hacc
    rw [he, he']

/-! ## The loop over `msg.fades` -/

theorem forEach_eq (suntimes : SunTimes) (zone : Zone) (now : Int) (fades : List RawFade) (index : Nat)
    (result : List FadeResult) (errors : Errors) :
    GetFades.forEach suntimes zone now fades index result errors =
      (result ++ fades.filterMap (GetFades.validated suntimes zone now),
       (GetFades.notices suntimes zone now fades index).foldl Errors.note errors) := by
  induction fades generalizing index result errors with
  | nil => simp [GetFades.forEach, GetFades.notices]
  | cons fade rest ih =>
    rw [GetFades.forEach, ih, element_index]
    simp only [GetFades.notices, List.foldl_append, Prod.mk.injEq, and_true]
    cases hv : GetFades.validated suntimes zone now fade with
    | none => simp [List.filterMap_cons, hv]
    | some f => simp [List.filterMap_cons, hv]

theorem foldl_note_warn (ns : List Notice) (errors : Errors) :
    (ns.foldl Errors.note errors).warn = errors.warn ++ ns.map (fun n => n.warning) ∧
      (ns.foldl Errors.note errors).error = errors.error := by
  induction ns generalizing errors with
  | nil => simp
  | cons n ns ih =>
    rw [List.foldl_cons]
    obtain ⟨h1, h2⟩ := ih (errors.note n)
    rw [h1, h2]
    simp [Errors.note]

/-- What `GetFades` does on an array: it throws when fewer than two elements
pass, else it returns the elements that pass, in the order of the array. -/
theorem GetFades_of_array (msg : Msg) (suntimes : SunTimes) (zone : Zone) (now : Int)
    (elements : List RawFade) (errors : Errors) (hm : msg.fades = .array elements) :
    GetFades msg suntimes zone now errors =
      (if (elements.filterMap (GetFades.validated suntimes zone now)).length < 2 then .threw
        else .returned (some (elements.filterMap (GetFades.validated suntimes zone now))),
       (GetFades.notices suntimes zone now elements 0).foldl Errors.note errors) := by
  simp only [GetFades, hm, forEach_eq, List.nil_append]
  split <;> rfl

theorem GetFades_array (suntimes : SunTimes) (zone : Zone) (now : Int) (elements : List RawFade)
    (errors : Errors) :
    GetFades { fades := .array elements } suntimes zone now errors =
      (if (elements.filterMap (GetFades.validated suntimes zone now)).length < 2 then .threw
        else .returned (some (elements.filterMap (GetFades.validated suntimes zone now))),
       (GetFades.notices suntimes zone now elements 0).foldl Errors.note errors) :=
  GetFades_of_array _ suntimes zone now elements errors rfl

theorem GetFades_returned (msg : Msg) (suntimes : SunTimes) (zone : Zone) (now : Int) (errors errors' : Errors)
    (L : List FadeResult)
    (h : GetFades msg suntimes zone now errors = (.returned (some L), errors')) :
    ∃ elements, msg.fades = .array elements ∧
      L = elements.filterMap (GetFades.validated suntimes zone now) ∧ 2 ≤ L.length ∧
      errors' = (GetFades.notices suntimes zone now elements 0).foldl Errors.note errors := by
  cases hm : msg.fades with
  | absent => simp [GetFades, hm] at h
  | notArray => simp [GetFades, hm] at h
  | array elements =>
    rw [GetFades_of_array msg suntimes zone now elements errors hm] at h
    refine ⟨elements, rfl, ?_⟩
    split at h
    · simp at h
    · rename_i hlen
      simp only [Prod.mk.injEq, Completion.returned.injEq, Option.some.injEq] at h
      obtain ⟨rfl, rfl⟩ := h
      exact ⟨rfl, by omega, rfl⟩

theorem filterMap_indices {α β : Type} (f : α → Option β) (l : List α) :
    ∃ indices : List Nat, indices.Pairwise (fun i j => i < j) ∧
      (∀ i, i ∈ indices ↔ ∃ a, l.get? i = some a ∧ (f a).isSome = true) ∧
      List.Forall₂ (fun i b => ∃ a, l.get? i = some a ∧ f a = some b) indices (l.filterMap f) := by
  induction l with
  | nil => exact ⟨[], List.Pairwise.nil, by simp, by simp⟩
  | cons a l ih =>
    obtain ⟨indices, hp, hm, hf⟩ := ih
    have hp' : (indices.map (fun i => i + 1)).Pairwise (fun i j => i < j) := by
      rw [List.pairwise_map]
      exact hp.imp (fun h => by omega)
    have hm' : ∀ i, i ∈ indices.map (fun i => i + 1) ↔
        ∃ i', i = i' + 1 ∧ ∃ b, l.get? i' = some b ∧ (f b).isSome = true := by
      intro i
      simp only [List.mem_map]
      constructor
      · rintro ⟨i', hi', rfl⟩
        exact ⟨i', rfl, (hm i').mp hi'⟩
      · rintro ⟨i', rfl, h⟩
        exact ⟨i', (hm i').mpr h, rfl⟩
    have hf' : List.Forall₂ (fun i b => ∃ x, (a :: l).get? i = some x ∧ f x = some b)
        (indices.map (fun i => i + 1)) (l.filterMap f) := by
      rw [List.forall₂_map_left_iff]
      exact hf.imp (fun _ _ h => by simp only [List.get?_cons_succ]; exact h)
    cases hfa : f a with
    | none =>
      refine ⟨indices.map (fun i => i + 1), hp', ?_, ?_⟩
      · intro i
        rw [hm']
        constructor
        · rintro ⟨i', rfl, b, hb, hfb⟩
          exact ⟨b, by simpa using hb, hfb⟩
        · rintro ⟨b, hb, hfb⟩
          cases i with
          | zero =>
            simp only [List.get?_cons_zero, Option.some.injEq] at hb
            subst hb
            simp [hfa] at hfb
          | succ i' => exact ⟨i', rfl, b, by simpa using hb, hfb⟩
      · rw [List.filterMap_cons_none hfa]
        exact hf'
    | some b0 =>
      refine ⟨0 :: indices.map (fun i => i + 1), ?_, ?_, ?_⟩
      · rw [List.pairwise_cons]
        refine ⟨?_, hp'⟩
        intro j hj
        simp only [List.mem_map] at hj
        obtain ⟨i', -, rfl⟩ := hj
        omega
      · intro i
        rw [List.mem_cons, hm']
        constructor
        · rintro (rfl | ⟨i', rfl, b, hb, hfb⟩)
          · exact ⟨a, rfl, by simp [hfa]⟩
          · exact ⟨b, by simpa using hb, hfb⟩
        · rintro ⟨b, hb, hfb⟩
          cases i with
          | zero => exact Or.inl rfl
          | succ i' => exact Or.inr ⟨i', rfl, b, by simpa using hb, hfb⟩
      · rw [List.filterMap_cons_some hfa]
        exact List.Forall₂.cons ⟨a, rfl, hfa⟩ hf'

/-- C18: when `msg.fades` is absent or is not an array, `GetFades` sets
`errors.error` and sets `errors.status` to `msg.fades error!`, returns no list,
and leaves `errors.warn` as it was. -/
theorem GetFades_fades_missing (msg : Msg) (suntimes : SunTimes) (zone : Zone) (now : Int) (errors : Errors)
    (h : msg.fades = .absent ∨ msg.fades = .notArray) :
    ∃ text, GetFades msg suntimes zone now errors =
        (.returned none, { errors with error := some text, status := some "msg.fades error!" }) ∧
      (GetFades msg suntimes zone now errors).2.warn = errors.warn ∧
      (msg.fades = .absent → text = "fades not defined in msg.") ∧
      (msg.fades = .notArray → text = "msg.fades is not an array.") := by
  rcases h with h | h
  · exact ⟨"fades not defined in msg.", by simp [GetFades, h], by simp [GetFades, h],
      fun _ => rfl, fun h' => by simp [h] at h'⟩
  · exact ⟨"msg.fades is not an array.", by simp [GetFades, h], by simp [GetFades, h],
      fun h' => by simp [h] at h', fun _ => rfl⟩

/-- Witness of C18: a message without `fades`, with a warning already recorded. -/
theorem GetFades_fades_missing_witness :
    ∃ text, GetFades {} [] 0 1728030000000 { warn := [.noLevels 7] } =
        (.returned none,
          { ({ warn := [.noLevels 7] } : Errors) with
            error := some text, status := some "msg.fades error!" }) ∧
      (GetFades {} [] 0 1728030000000 { warn := [.noLevels 7] }).2.warn = [.noLevels 7] ∧
      ((({} : Msg)).fades = .absent → text = "fades not defined in msg.") ∧
      ((({} : Msg)).fades = .notArray → text = "msg.fades is not an array.") :=
  GetFades_fades_missing {} [] 0 1728030000000 { warn := [.noLevels 7] } (Or.inl rfl)

/-- C17 on its own example `fades = [{time: "06:00", brightness: 300}]`: no entry
is valid, and the call throws; `errors.error` is left unset and `errors.status`
keeps the status of the first warning. -/
theorem GetFades_throws_on_single_entry :
    GetFades singleEntryMsg [] 0 1728030000000 {} =
      (.threw,
        { error := none
          warn := [.outOfRange 0 .brightness (Value.ofNumber 300), .noLevels 0]
          status := some "msg.fades[0].brightness is invalid!" }) := by
  decide!

/-- C20: the list returned by `GetFades` keeps the order of `msg.fades`: there is
a strictly increasing list of indices, holding exactly the indices of the
elements that pass validation, such that the returned list has one element for
every index of it, in that order: the validated form of the element at that index. -/
theorem GetFades_keeps_order (msg : Msg) (suntimes : SunTimes) (zone : Zone) (now : Int)
    (errors errors' : Errors) (L : List FadeResult)
    (h : GetFades msg suntimes zone now errors = (.returned (some L), errors')) :
    ∃ elements, msg.fades = .array elements ∧
      ∃ indices : List Nat, indices.Pairwise (fun i j => i < j) ∧
        (∀ i, i ∈ indices ↔ ∃ fade, elements.get? i = some fade ∧
          (GetFades.element suntimes zone now fade i).1.isSome = true) ∧
        List.Forall₂ (fun i f => ∃ fade, elements.get? i = some fade ∧
          (GetFades.element suntimes zone now fade i).1 = some f) indices L := by
  obtain ⟨elements, hm, rfl, -, -⟩ := GetFades_returned msg suntimes zone now errors errors' L h
  obtain ⟨indices, hp, hmem, hf⟩ := filterMap_indices (GetFades.validated suntimes zone now) elements
  refine ⟨elements, hm, indices, hp, ?_, ?_⟩
  · intro i
    rw [hmem]
    simp only [element_index]
  · simp only [element_index]
    exact hf

theorem GetFades_threeEntryMsg :
    GetFades threeEntryMsg [] 0 1728025200000 {} = (.returned (some threeEntryList), threeEntryErrors) := by
  decide!

/-- Witness of C20: the elements 0 and 2 of three are returned, in that order. -/
theorem GetFades_keeps_order_witness :
    ∃ elements, threeEntryMsg.fades = .array elements ∧
      ∃ indices : List Nat, indices.Pairwise (fun i j => i < j) ∧
        (∀ i, i ∈ indices ↔ ∃ fade, elements.get? i = some fade ∧
          (GetFades.element [] 0 1728025200000 fade i).1.isSome = true) ∧
        List.Forall₂ (fun i f => ∃ fade, elements.get? i = some fade ∧
          (GetFades.element [] 0 1728025200000 fade i).1 = some f) indices threeEntryList :=
  GetFades_keeps_order threeEntryMsg [] 0 1728025200000 {} threeEntryErrors threeEntryList
    (by decide!)

theorem hasLevel_iff_survives (fade : RawFade) (index : Nat) :
    GetFades.hasLevel fade index = true ↔
      ∃ field ∈ attributeFields, GetFades.survives fade index field = true := by
  simp only [GetFades.hasLevel, attributeFields, List.mem_cons, List.mem_singleton,
    List.not_mem_nil, or_false, exists_eq_or_imp, exists_eq_left, GetFades.survives,
    Bool.or_eq_true, or_assoc]

theorem notices_mem (suntimes : SunTimes) (zone : Zone) (now : Int) (elements : List RawFade) (k i : Nat)
    (fade : RawFade) (h : elements.get? i = some fade) (n : Notice)
    (hn : n ∈ (GetFades.element suntimes zone now fade (k + i)).2) :
    n ∈ GetFades.notices suntimes zone now elements k := by
  induction elements generalizing k i with
  | nil => simp at h
  | cons e rest ih =>
    rw [GetFades.notices, List.mem_append]
    cases i with
    | zero =>
      simp only [List.get?_cons_zero, Option.some.injEq] at h
      subst h
      exact Or.inl hn
    | succ i' =>
      simp only [List.get?_cons_succ] at h
      have e1 : k + (i' + 1) = (k + 1) + i' := by omega
      rw [e1] at hn
      exact Or.inr (ih (k + 1) i' h hn)

/-- C16: an element of `msg.fades` is pushed on the validated list exactly when its
time passes the time test and at least one of its nine attribute fields survives
validation; an element whose time passes but that has no surviving attribute is
dropped, and its last warning is `No levels provided within msg.fades[i].
Skipping.`. In a list that `GetFades` returns, the elements are exactly the
validated forms of those elements, and that warning is in `errors.warn`. -/
theorem GetFades_element_kept_iff (suntimes : SunTimes) (zone : Zone) (now : Int) :
    (∀ (fade : RawFade) (index : Nat),
      ((GetFades.element suntimes zone now fade index).1.isSome = true ↔
        (fade.TimeAccepted suntimes ∧
          ∃ field ∈ attributeFields, GetFades.survives fade index field = true)) ∧
      (fade.TimeAccepted suntimes →
        (∀ field ∈ attributeFields, GetFades.survives fade index field = false) →
        (GetFades.element suntimes zone now fade index).1 = none ∧
        (∃ ns, (GetFades.element suntimes zone now fade index).2 =
          ns ++ [⟨.noLevels index, elementStatus index⟩]) ∧
        ∀ quote allowed, Warning.text quote allowed (.noLevels index) =
          "No levels provided within msg.fades[" ++ toString index ++ "]. Skipping.")) ∧
    (∀ (msg : Msg) (errors errors' : Errors) (L : List FadeResult),
      GetFades msg suntimes zone now errors = (.returned (some L), errors') →
      ∃ elements, msg.fades = .array elements ∧
        (∀ f, f ∈ L ↔ ∃ i fade, elements.get? i = some fade ∧
          (GetFades.element suntimes zone now fade i).1 = some f) ∧
        (∀ i fade, elements.get? i = some fade → fade.TimeAccepted suntimes →
          (∀ field ∈ attributeFields, GetFades.survives fade i field = false) →
          Warning.noLevels i ∈ errors'.warn)) := by
  have hnone : ∀ (fade : RawFade) (index : Nat), fade.TimeAccepted suntimes →
      (∀ field ∈ attributeFields, GetFades.survives fade index field = false) →
      GetFades.element suntimes zone now fade index =
        (none, GetFades.fieldNotices fade index ++ [⟨.noLevels index, elementStatus index⟩]) := by
    intro fade index hacc hall
    obtain ⟨time, ht, hk⟩ := hacc
    rcases element_of_time_accepted suntimes zone now fade index time ht hk with
      ⟨-, he⟩ | ⟨hl, -⟩
    · exact he
    · obtain ⟨field, hf, hs⟩ := (hasLevel_iff_survives fade index).mp hl
      rw [hall field hf] at hs
      cases hs
  constructor
  · intro fade index
    refine ⟨?_, ?_⟩
    · rw [element_isSome_iff, hasLevel_iff_survives]
    · intro hacc hall
      rw [hnone fade index hacc hall]
      exact ⟨rfl, ⟨_, rfl⟩, fun _ _ => rfl⟩
  · intro msg errors errors' L h
    obtain ⟨elements, hm, rfl, -, rfl⟩ := GetFades_returned msg suntimes zone now errors errors' L h
    refine ⟨elements, hm, ?_, ?_⟩
    · intro f
      simp only [List.mem_filterMap, element_index]
      constructor
      · rintro ⟨fade, hmem, hv⟩
        obtain ⟨i, hi⟩ := List.get?_of_mem hmem
        exact ⟨i, fade, hi, hv⟩
      · rintro ⟨i, fade, hi, hv⟩
        exact ⟨fade, List.get?_mem hi, hv⟩
    · intro i fade hi hacc hall
      rw [(foldl_note_warn _ errors).1, List.mem_append]
      right
      rw [List.mem_map]
      refine ⟨⟨.noLevels i, elementStatus i⟩, ?_, rfl⟩
      apply notices_mem suntimes zone now elements 0 i fade hi
      rw [Nat.zero_add, hnone fade i hacc hall]
      simp

theorem char_eq_digitChar (c : Char) (h0 : 48 ≤ c.toNat) :
    c = digitChar (c.toNat - 48) := by
  have e : 48 + (c.toNat - 48) = c.toNat := by omega
  rw [digitChar, e, Char.ofNat_toNat]

theorem matchHHMM_two_digit_hour :
    ∀ h : Fin 24, ∀ m : Fin 60,
      matchHHMM [digitChar (h.val / 10), digitChar (h.val % 10), ':', digitChar (m.val / 10),
        digitChar (m.val % 10)] = true := by
  decide

theorem matchHHMM_one_digit_hour :
    ∀ h : Fin 10, ∀ m : Fin 60,
      matchHHMM [digitChar h.val, ':', digitChar (m.val / 10), digitChar (m.val % 10)] = true := by
  decide

theorem matchHHMM_clock (cs : List Char) (h : matchHHMM cs = true) :
    ∃ hh mm : Nat, hh ≤ 23 ∧ mm ≤ 59 ∧
      (cs = [digitChar (hh / 10), digitChar (hh % 10), ':', digitChar (mm / 10),
          digitChar (mm % 10)] ∨
        (hh ≤ 9 ∧ cs = [digitChar hh, ':', digitChar (mm / 10), digitChar (mm % 10)])) := by
  have k0 : ('0' : Char).toNat = 48 := by decide
  have k1 : ('1' : Char).toNat = 49 := by decide
  have k2 : ('2' : Char).toNat = 50 := by decide
  have k3 : ('3' : Char).toNat = 51 := by decide
  have k5 : ('5' : Char).toNat = 53 := by decide
  have k9 : ('9' : Char).toNat = 57 := by decide
  unfold matchHHMM at h
  split at h
  · rename_i h1 h2 c m1 m2
    simp only [Bool.and_eq_true, Bool.or_eq_true, beq_iff_eq, inClass_iff, k0, k3, k5, k9] at h
    obtain ⟨⟨⟨hh, hc⟩, hm1⟩, hm2⟩ := h
    subst hc
    have a1 : 48 ≤ h1.toNat ∧ h1.toNat ≤ 50 := by
      rcases hh with ⟨rfl, _⟩ | ⟨rfl | rfl, _⟩ <;> simp [k0, k1, k2]
    have a2 : 48 ≤ h2.toNat ∧ h2.toNat ≤ 57 ∧ (h1.toNat = 50 → h2.toNat ≤ 51) := by
      rcases hh with ⟨rfl, h⟩ | ⟨rfl | rfl, h⟩ <;> simp [k0, k1, k2] <;> omega
    refine ⟨(h1.toNat - 48) * 10 + (h2.toNat - 48), (m1.toNat - 48) * 10 + (m2.toNat - 48),
      by omega, by omega, Or.inl ?_⟩
    have e1 : ((h1.toNat - 48) * 10 + (h2.toNat - 48)) / 10 = h1.toNat - 48 := by omega
    have e2 : ((h1.toNat - 48) * 10 + (h2.toNat - 48)) % 10 = h2.toNat - 48 := by omega
    have e3 : ((m1.toNat - 48) * 10 + (m2.toNat - 48)) / 10 = m1.toNat - 48 := by omega
    have e4 : ((m1.toNat - 48) * 10 + (m2.toNat - 48)) % 10 = m2.toNat - 48 := by omega
    rw [e1, e2, e3, e4, ← char_eq_digitChar h1 a1.1, ← char_eq_digitChar h2 a2.1,
      ← char_eq_digitChar m1 hm1.1, ← char_eq_digitChar m2 hm2.1]
  · rename_i h1 c m1 m2
    simp only [Bool.and_eq_true, beq_iff_eq, inClass_iff, k0, k5, k9] at h
    obtain ⟨⟨⟨hh, hc⟩, hm1⟩, hm2⟩ := h
    subst hc
    refine ⟨h1.toNat - 48, (m1.toNat - 48) * 10 + (m2.toNat - 48),
      by omega, by omega, Or.inr ⟨by omega, ?_⟩⟩
    have e3 : ((m1.toNat - 48) * 10 + (m2.toNat - 48)) / 10 = m1.toNat - 48 := by omega
    have e4 : ((m1.toNat - 48) * 10 + (m2.toNat - 48)) % 10 = m2.toNat - 48 := by omega
    rw [e3, e4, ← char_eq_digitChar h1 hh.1, ← char_eq_digitChar m1 hm1.1,
      ← char_eq_digitChar m2 hm2.1]
  · simp at h

theorem REGEX_HHMM_iff_clockString (time : String) :
    REGEX_HHMM time = true ↔ ClockString time := by
  constructor
  · intro h
    exact matchHHMM_clock time.data h
  · rintro ⟨hh, mm, h1, h2, h | ⟨h9, h⟩⟩
    · rw [REGEX_HHMM, h]
      exact matchHHMM_two_digit_hour ⟨hh, by omega⟩ ⟨mm, by omega⟩
    · rw [REGEX_HHMM, h]
      exact matchHHMM_one_digit_hour ⟨hh, by omega⟩ ⟨mm, by omega⟩

/-- The time test of lines 178-189: the time of an element passes exactly when it
is present and is `in suntimes` (a named instant, or a name that the table
inherits) or a 24-hour clock string (hour 0..23 with one or two digits, two-digit
minute 00..59). An element whose time is absent or fails the test is dropped with
exactly one warning, a time warning, and nothing else of the element is read: any
element with the same `time` gives the same result and the same warning. An
element whose time passes gets no time warning. -/
theorem time_test_of_element (suntimes : SunTimes) (zone : Zone) (now : Int) (fade : RawFade) (index : Nat) :
    (fade.TimeAccepted suntimes ↔
      ∃ time, fade.time = some time ∧ (suntimes.has time = true ∨ ClockString time)) ∧
    (fade.TimeAccepted suntimes →
      ∀ n ∈ (GetFades.element suntimes zone now fade index).2,
        n.warning ≠ .timeNotDefined index ∧ ∀ t, n.warning ≠ .invalidTime index t) ∧
    (¬ fade.TimeAccepted suntimes →
      (∃ n, GetFades.element suntimes zone now fade index = (none, [n]) ∧
        (n.warning = .timeNotDefined index ∨ ∃ t, n.warning = .invalidTime index t)) ∧
      ∀ other : RawFade, other.time = fade.time →
        GetFades.element suntimes zone now other index =
          GetFades.element suntimes zone now fade index) := by
  refine ⟨?_, ?_, ?_⟩
  · simp only [RawFade.TimeAccepted, REGEX_HHMM_iff_clockString]
  · rintro ⟨time, ht, hk⟩ n hn
    have hfield : ∀ m ∈ GetFades.fieldNotices fade index, ∃ f, m.warning.field = some f := by
      intro m hm
      simp only [GetFades.fieldNotices, List.mem_append, Option.mem_toList, Option.mem_def] at hm
      rcases hm with ((((((((hm | hm) | hm) | hm) | hm) | hm) | hm) | hm) | hm) | hm
      · exact ⟨_, (offset_notice _ _ m hm).1⟩
      · exact ⟨_, ((intField_notice _ _ _ _).2 m hm).1⟩
      · exact ⟨_, ((floatField_notice _ _ _ _ _).2 m hm).1⟩
      · exact ⟨_, ((floatField_notice _ _ _ _ _).2 m hm).1⟩
      · exact ⟨_, ((floatField_notice _ _ _ _ _).2 m hm).1⟩
      · exact ⟨_, ((intArrayField_notice _ _ _ _).2 m hm).1⟩
      · exact ⟨_, ((intArrayField_notice _ _ _ _).2 m hm).1⟩
      · exact ⟨_, ((intArrayField_notice _ _ _ _).2 m hm).1⟩
      · exact ⟨_, ((hsField_notice _ _).2 m hm).1⟩
      · exact ⟨_, ((xyField_notice _ _).2 m hm).1⟩
    have hcases : (∃ f, n.warning.field = some f) ∨ n.warning = .noLevels index := by
      rcases element_of_time_accepted suntimes zone now fade index time ht hk with
        ⟨-, he⟩ | ⟨-, bT, aT, -, he⟩
      · rw [he] at hn
        simp only [List.mem_append, List.mem_singleton] at hn
        rcases hn with hn | rfl
        · exact Or.inl (hfield n hn)
        · exact Or.inr rfl
      · rw [he] at hn
        exact Or.inl (hfield n hn)
    rcases hcases with ⟨f, hf⟩ | hw
    · constructor
      · intro h
        rw [h] at hf
        simp [Warning.field] at hf
      · intro t h
        rw [h] at hf
        simp [Warning.field] at hf
    · rw [hw]
      simp
  · intro hrej
    obtain ⟨n, he, -, hw⟩ := element_of_time_rejected suntimes zone now fade index hrej
    refine ⟨⟨n, he, hw⟩, ?_⟩
    intro other hother
    unfold GetFades.element
    rw [hother]
    cases ht : fade.time with
    | none => rfl
    | some time =>
      have hgate : (!(suntimes.has time) && !(REGEX_HHMM time)) = true := by
        cases h1 : suntimes.has time
        · cases h2 : REGEX_HHMM time
          · rfl
          · exact absurd ⟨time, ht, Or.inr h2⟩ hrej
        · exact absurd ⟨time, ht, Or.inl h1⟩ hrej
      simp only [hgate, if_true]

/-! ## Fields taken one at a time -/

theorem intField_undefined (field : FadeField) (hi : ℚ) (index : Nat) :
    GetFades.intField field hi index (.scalar .undefined) = (none, none) := by
  simp [GetFades.intField]

theorem floatField_undefined (field : FadeField) (lo hi : ℚ) (index : Nat) :
    GetFades.floatField field lo hi index (.scalar .undefined) = (none, none) := by
  simp [GetFades.floatField]

theorem intArrayField_undefined (field : FadeField) (n index : Nat) :
    GetFades.intArrayField field n index (.scalar .undefined) = (none, none) := by
  simp [GetFades.intArrayField]

theorem hsField_undefined (index : Nat) :
    GetFades.hsField index (.scalar .undefined) = (none, none) := by
  simp [GetFades.hsField]

theorem xyField_undefined (index : Nat) :
    GetFades.xyField index (.scalar .undefined) = (none, none) := by
  simp [GetFades.xyField]

theorem fieldNotices_eq_flatMap (fade : RawFade) (index : Nat) :
    GetFades.fieldNotices fade index =
      (FadeField.offset_mins :: attributeFields).flatMap
        (fun j => (GetFades.notice fade index j).toList) := by
  simp [GetFades.fieldNotices, attributeFields, GetFades.notice, List.flatMap]

theorem notice_field (fade : RawFade) (index : Nat) (j : FadeField) (n : Notice)
    (h : GetFades.notice fade index j = some n) : n.warning.field = some j := by
  cases j
  · exact (offset_notice _ _ n h).1
  · exact ((intField_notice _ _ _ _).2 n h).1
  · exact ((floatField_notice _ _ _ _ _).2 n h).1
  · exact ((floatField_notice _ _ _ _ _).2 n h).1
  · exact ((floatField_notice _ _ _ _ _).2 n h).1
  · exact ((intArrayField_notice _ _ _ _).2 n h).1
  · exact ((intArrayField_notice _ _ _ _).2 n h).1
  · exact ((intArrayField_notice _ _ _ _).2 n h).1
  · exact ((hsField_notice _ _).2 n h).1
  · exact ((xyField_notice _ _).2 n h).1

theorem notice_eq_none_iff (fade : RawFade) (index : Nat) (j : FadeField)
    (hj : j ≠ .offset_mins) :
    GetFades.notice fade index j = none ↔
      (fade.get j = .scalar .undefined ∨ GetFades.survives fade index j = true) := by
  cases j
  · exact absurd rfl hj
  · exact (intField_notice _ _ _ _).1
  · exact (floatField_notice _ _ _ _ _).1
  · exact (floatField_notice _ _ _ _ _).1
  · exact (floatField_notice _ _ _ _ _).1
  · exact (intArrayField_notice _ _ _ _).1
  · exact (intArrayField_notice _ _ _ _).1
  · exact (intArrayField_notice _ _ _ _).1
  · exact (hsField_notice _ _).1
  · exact (xyField_notice _ _).1

theorem set_time (fade : RawFade) (k : FadeField) (value : Value) :
    (fade.set k value).time = fade.time := by
  cases k <;> rfl

theorem notice_set_undefined (fade : RawFade) (index : Nat) (k j : FadeField)
    (hk : k ≠ .offset_mins) :
    GetFades.notice (fade.set k (.scalar .undefined)) index j =
      if j = k then none else GetFades.notice fade index j := by
  cases k <;> cases j <;>
    first
    | exact absurd rfl hk
    | rfl

/-- Taking an attribute that does not survive out of the element changes none of
the validated values. -/
theorem values_set_undefined (fade : RawFade) (index : Nat) (k : FadeField)
    (hk : k ≠ .offset_mins) (hs : GetFades.survives fade index k = false) :
    (GetFades.offset_mins (fade.set k (.scalar .undefined)) index).1 =
        (GetFades.offset_mins fade index).1 ∧
    (GetFades.brightness (fade.set k (.scalar .undefined)) index).1 =
        (GetFades.brightness fade index).1 ∧
    (GetFades.brightness_pct (fade.set k (.scalar .undefined)) index).1 =
        (GetFades.brightness_pct fade index).1 ∧
    (GetFades.color_temp (fade.set k (.scalar .undefined)) index).1 =
        (GetFades.color_temp fade index).1 ∧
    (GetFades.kelvin (fade.set k (.scalar .undefined)) index).1 =
        (GetFades.kelvin fade index).1 ∧
    (GetFades.rgb_color (fade.set k (.scalar .undefined)) index).1 =
        (GetFades.rgb_color fade index).1 ∧
    (GetFades.rgbw_color (fade.set k (.scalar .undefined)) index).1 =
        (GetFades.rgbw_color fade index).1 ∧
    (GetFades.rgbww_color (fade.set k (.scalar .undefined)) index).1 =
        (GetFades.rgbww_color fade index).1 ∧
    (GetFades.hs_color (fade.set k (.scalar .undefined)) index).1 =
        (GetFades.hs_color fade index).1 ∧
    (GetFades.xy_color (fade.set k (.scalar .undefined)) index).1 =
        (GetFades.xy_color fade index).1 := by
  cases k
  · exact absurd rfl hk
  all_goals
    simp only [GetFades.survives, Option.not_isSome, Option.isNone_iff_eq_none] at hs
    refine ⟨?_, ?_, ?_, ?_, ?_, ?_, ?_, ?_, ?_, ?_⟩ <;>
      first
      | rfl
      | (rw [hs]
         simp [RawFade.set, GetFades.brightness, GetFades.brightness_pct,
          GetFades.color_temp, GetFades.kelvin, GetFades.rgb_color, GetFades.rgbw_color,
          GetFades.rgbww_color, GetFades.hs_color, GetFades.xy_color, intField_undefined,
          floatField_undefined, intArrayField_undefined, hsField_undefined, xyField_undefined])

theorem notice_isSome_of_invalid (fade : RawFade) (index : Nat) (k : FadeField)
    (hk : k ≠ .offset_mins) (hs : GetFades.survives fade index k = false)
    (hp : fade.get k ≠ .scalar .undefined) :
    ∃ n, GetFades.notice fade index k = some n := by
  cases hn : GetFades.notice fade index k with
  | some n => exact ⟨n, rfl⟩
  | none =>
    rcases (notice_eq_none_iff fade index k hk).mp hn with h | h
    · exact absurd h hp
    · rw [hs] at h
      cases h

theorem filter_notice_ne (fade : RawFade) (index : Nat) (k j : FadeField)
    (hk : k ≠ .offset_mins) (hs : GetFades.survives fade index k = false)
    (hp : fade.get k ≠ .scalar .undefined) :
    ((GetFades.notice fade index j).toList.filter
        (fun n => decide (n.warning.field ≠ some k)) =
      (GetFades.notice (fade.set k (.scalar .undefined)) index j).toList) ∧
    (((GetFades.notice fade index j).toList.filter
        (fun n => decide (n.warning.field = some k))).length = if j = k then 1 else 0) := by
  rw [notice_set_undefined fade index k j hk]
  cases hn : GetFades.notice fade index j with
  | none =>
    have hjk : j ≠ k := by
      rintro rfl
      obtain ⟨n, hn'⟩ := notice_isSome_of_invalid fade index j hk hs hp
      rw [hn] at hn'
      cases hn'
    simp [hjk]
  | some n =>
    have hf := notice_field fade index j n hn
    by_cases hjk : j = k
    · subst hjk
      simp [hf]
    · simp [hf, hjk]

theorem fieldNotices_set_undefined (fade : RawFade) (index : Nat) (k : FadeField)
    (hk : k ≠ .offset_mins) (hs : GetFades.survives fade index k = false)
    (hp : fade.get k ≠ .scalar .undefined) :
    (GetFades.fieldNotices fade index).filter (fun n => decide (n.warning.field ≠ some k)) =
        GetFades.fieldNotices (fade.set k (.scalar .undefined)) index ∧
    ((GetFades.fieldNotices fade index).filter
        (fun n => decide (n.warning.field = some k))).length = 1 := by
  obtain ⟨n, hn⟩ := notice_isSome_of_invalid fade index k hk hs hp
  constructor
  · rw [fieldNotices_eq_flatMap, fieldNotices_eq_flatMap, List.filter_flatMap]
    apply List.flatMap_congr
    intro j _
    exact (filter_notice_ne fade index k j hk hs hp).1
  · have hlen : ∀ j, ((GetFades.notice fade index j).toList.filter
        (fun n => decide (n.warning.field = some k))).length = if j = k then 1 else 0 :=
      fun j => (filter_notice_ne fade index k j hk hs hp).2
    simp only [GetFades.fieldNotices, List.filter_append, List.length_append]
    have h0 := hlen .offset_mins
    have h1 := hlen .brightness
    have h2 := hlen .brightness_pct
    have h3 := hlen .color_temp
    have h4 := hlen .kelvin
    have h5 := hlen .rgb_color
    have h6 := hlen .rgbw_color
    have h7 := hlen .rgbww_color
    have h8 := hlen .hs_color
    have h9 := hlen .xy_color
    simp only [GetFades.notice] at h0 h1 h2 h3 h4 h5 h6 h7 h8 h9
    rw [h0, h1, h2, h3, h4, h5, h6, h7, h8, h9]
    cases k <;> first | exact absurd rfl hk | rfl

theorem hasLevel_set_undefined (fade : RawFade) (index : Nat) (k : FadeField)
    (hk : k ≠ .offset_mins) (hs : GetFades.survives fade index k = false) :
    GetFades.hasLevel (fade.set k (.scalar .undefined)) index = GetFades.hasLevel fade index := by
  obtain ⟨-, h1, h2, h3, h4, h5, h6, h7, h8, h9⟩ := values_set_undefined fade index k hk hs
  simp only [GetFades.hasLevel, h1, h2, h3, h4, h5, h6, h7, h8, h9]

theorem element_of_rejected_time_congr (suntimes : SunTimes) (zone : Zone) (now : Int)
    (fade other : RawFade) (index : Nat) (hrej : ¬ fade.TimeAccepted suntimes)
    (hother : other.time = fade.time) :
    GetFades.element suntimes zone now other index =
      GetFades.element suntimes zone now fade index := by
  unfold GetFades.element
  rw [hother]
  cases ht : fade.time with
  | none => rfl
  | some time =>
    have hgate : (!(suntimes.has time) && !(REGEX_HHMM time)) = true := by
      cases h1 : suntimes.has time
      · cases h2 : REGEX_HHMM time
        · rfl
        · exact absurd ⟨time, ht, Or.inr h2⟩ hrej
      · exact absurd ⟨time, ht, Or.inl h1⟩ hrej
    simp only [hgate, if_true]

theorem invalid_field_frame_of_accepted (suntimes : SunTimes) (zone : Zone) (now : Int) (fade : RawFade)
    (index : Nat) (k : FadeField) (hk : k ∈ attributeFields)
    (hacc : fade.TimeAccepted suntimes)
    (hp : fade.get k ≠ .scalar .undefined)
    (hs : GetFades.survives fade index k = false) :
    (GetFades.element suntimes zone now fade index).1 =
        (GetFades.element suntimes zone now (fade.set k (.scalar .undefined)) index).1 ∧
    (∀ f, (GetFades.element suntimes zone now fade index).1 = some f →
        (f.toRaw).get k = .scalar .undefined) ∧
    (GetFades.element suntimes zone now fade index).2.filter
        (fun n => decide (n.warning.field ≠ some k)) =
      (GetFades.element suntimes zone now (fade.set k (.scalar .undefined)) index).2 ∧
    ((GetFades.element suntimes zone now fade index).2.filter
        (fun n => decide (n.warning.field = some k))).length = 1 := by
  have hk' : k ≠ .offset_mins := by
    rintro rfl
    simp [attributeFields] at hk
  obtain ⟨time, ht, hkey⟩ := hacc
  have ht' : (fade.set k (.scalar .undefined)).time = some time := by rw [set_time, ht]
  obtain ⟨ho, h1, h2, h3, h4, h5, h6, h7, h8, h9⟩ := values_set_undefined fade index k hk' hs
  have hl := hasLevel_set_undefined fade index k hk' hs
  obtain ⟨hn1, hn2⟩ := fieldNotices_set_undefined fade index k hk' hs hp
  rcases element_of_time_accepted suntimes zone now fade index time ht hkey with
    ⟨hl1, he1⟩ | ⟨hl1, bT, aT, ht1, he1⟩ <;>
  rcases element_of_time_accepted suntimes zone now (fade.set k (.scalar .undefined)) index time
    ht' hkey with ⟨hl2, he2⟩ | ⟨hl2, bT', aT', ht2, he2⟩
  · rw [he1, he2]
    refine ⟨rfl, by simp, ?_, ?_⟩
    · simp only [List.filter_append, hn1]
      simp [Warning.field]
    · simp only [List.filter_append, List.length_append, hn2]
      simp [Warning.field]
  · rw [hl, hl1] at hl2
    cases hl2
  · rw [hl, hl1] at hl2
    cases hl2
  · rw [ho, ht1] at ht2
    simp only [Option.some.injEq, Prod.mk.injEq] at ht2
    obtain ⟨rfl, rfl⟩ := ht2
    rw [he1, he2]
    refine ⟨?_, ?_, hn1, hn2⟩
    · simp only [ho, h1, h2, h3, h4, h5, h6, h7, h8, h9]
    · intro f hf
      simp only [Option.some.injEq] at hf
      subst hf
      cases k <;>
        first
        | exact absurd rfl hk'
        | (simp only [GetFades.survives, Option.not_isSome, Option.isNone_iff_eq_none] at hs
           simp [FadeResult.toRaw, RawFade.get, hs, Value.ofAttribute, Value.ofArrayAttribute])

/-- C15 (as amended): an attribute field that is present and invalid (it does not
survive validation) is absent from the validated element, and the validated
element is otherwise what it is for the same element without the field. When the
time of the element passes the time test, exactly one warning is pushed about
that field, next to the warnings of the element without the field; when the time
fails the test, the fields are not read and no warning about the field is pushed. -/
theorem GetFades_invalid_field_frame (suntimes : SunTimes) (zone : Zone) (now : Int) (fade : RawFade)
    (index : Nat) (k : FadeField) (hk : k ∈ attributeFields)
    (hp : fade.get k ≠ .scalar .undefined)
    (hs : GetFades.survives fade index k = false) :
    (GetFades.element suntimes zone now fade index).1 =
        (GetFades.element suntimes zone now (fade.set k (.scalar .undefined)) index).1 ∧
    (∀ f, (GetFades.element suntimes zone now fade index).1 = some f →
        (f.toRaw).get k = .scalar .undefined) ∧
    (GetFades.element suntimes zone now fade index).2.filter
        (fun n => decide (n.warning.field ≠ some k)) =
      (GetFades.element suntimes zone now (fade.set k (.scalar .undefined)) index).2 ∧
    (fade.TimeAccepted suntimes →
      ((GetFades.element suntimes zone now fade index).2.filter
        (fun n => decide (n.warning.field = some k))).length = 1) ∧
    (¬ fade.TimeAccepted suntimes →
      ((GetFades.element suntimes zone now fade index).2.filter
        (fun n => decide (n.warning.field = some k))).length = 0) := by
  by_cases hacc : fade.TimeAccepted suntimes
  · obtain ⟨h1, h2, h3, h4⟩ :=
      invalid_field_frame_of_accepted suntimes zone now fade index k hk hacc hp hs
    exact ⟨h1, h2, h3, fun _ => h4, fun h => absurd hacc h⟩
  · have hcongr := element_of_rejected_time_congr suntimes zone now fade
      (fade.set k (.scalar .undefined)) index hacc (set_time fade k _)
    obtain ⟨n, he, -, hw⟩ := element_of_time_rejected suntimes zone now fade index hacc
    have hfield : n.warning.field = none := by
      rcases hw with hw | ⟨t, hw⟩ <;> rw [hw] <;> rfl
    rw [hcongr, he]
    refine ⟨rfl, ?_, ?_, fun h => absurd h hacc, fun _ => ?_⟩
    · intro f hf
      cases hf
    · simp [hfield]
    · simp [hfield]

/-! ## The domains of the validated fields -/

theorem isInt_intCast (n : Int) : ((n : ℚ)).isInt = true := by
  simp [Rat.isInt]

theorem forall₂_length_mem {α β : Type} {R : α → β → Prop} {xs : List α} {ys : List β}
    (h : List.Forall₂ R xs ys) : ys.length = xs.length ∧ ∀ y ∈ ys, ∃ x ∈ xs, R x y := by
  induction h with
  | nil => simp
  | cons hr _ ih =>
    refine ⟨by simp [ih.1], ?_⟩
    intro y hy
    rcases List.mem_cons.mp hy with rfl | hy
    · exact ⟨_, List.mem_cons_self _ _, hr⟩
    · obtain ⟨x, hx, hxy⟩ := ih.2 y hy
      exact ⟨x, List.mem_cons_of_mem _ hx, hxy⟩

theorem channels_isSome_iff (xs : List Scalar) :
    (GetFades.channels xs).isSome = true ↔ ∀ x ∈ xs, (Value.scalar x).IntWithin 0 255 := by
  induction xs with
  | nil => simp [GetFades.channels]
  | cons x xs ih =>
    unfold GetFades.channels
    simp only [List.mem_cons, forall_eq_or_imp, Value.IntWithin, Value.parseInt]
    cases hx : x.parseInt with
    | none => simp
    | some n =>
      simp only [MAX_RGB]
      by_cases hr : 0 ≤ (n : ℚ) ∧ (n : ℚ) ≤ 255
      · simp only [hr, and_self, if_true, Option.isSome_map', ih, Value.IntWithin,
          Value.parseInt, Option.some.injEq, exists_eq_left', true_and]
      · simp only [hr, if_false, Option.isSome_none, Bool.false_eq_true, Option.some.injEq,
          exists_eq_left', false_and]

theorem components_isSome_iff (xs : List Scalar) :
    (GetFades.components xs).isSome = true ↔ ∀ x ∈ xs, (Value.scalar x).NumberWithin 0 1 := by
  induction xs with
  | nil => simp [GetFades.components]
  | cons x xs ih =>
    unfold GetFades.components
    simp only [List.mem_cons, forall_eq_or_imp, Value.NumberWithin, Value.parseFloat]
    cases hx : finiteWithin 0 MAX_XY x.parseFloat with
    | none =>
      simp only [Option.isSome_none, Bool.false_eq_true, false_iff, not_and]
      rintro ⟨q, hq, h0, h1⟩
      have := (finiteWithin_eq_some_iff 0 MAX_XY x.parseFloat q).mpr ⟨hq, h0, by simpa [MAX_XY] using h1⟩
      rw [hx] at this
      cases this
    | some q =>
      obtain ⟨hq, h0, h1⟩ := (finiteWithin_eq_some_iff 0 MAX_XY x.parseFloat q).mp hx
      simp only [Option.isSome_map', ih, Value.NumberWithin, Value.parseFloat, iff_and_self]
      intro _
      exact ⟨q, hq, h0, by simpa [MAX_XY] using h1⟩

theorem isSome_iff_exists_eq {α : Type} (o : Option α) : o.isSome = true ↔ ∃ a, o = some a :=
  Option.isSome_iff_exists

/-- The fields of a validated element are in their domains, and each is present
exactly when its raw value is valid. -/
theorem validated_fields (suntimes : SunTimes) (zone : Zone) (now : Int) (fade : RawFade) (f : FadeResult)
    (h : GetFades.validated suntimes zone now fade = some f) :
    f.Validated ∧ f.KeepsValidFieldsOf fade := by
  have hsome : (GetFades.element suntimes zone now fade 0).1.isSome = true := by
    rw [show (GetFades.element suntimes zone now fade 0).1 = some f from h]
    rfl
  obtain ⟨⟨time, ht, hk⟩, -⟩ := (element_isSome_iff suntimes zone now fade 0).mp hsome
  rcases element_of_time_accepted suntimes zone now fade 0 time ht hk with
    ⟨-, he⟩ | ⟨-, bT, aT, -, he⟩
  · rw [GetFades.validated, he] at h
    cases h
  · rw [GetFades.validated, he] at h
    simp only [Option.some.injEq] at h
    subst h
    constructor
    · refine ⟨offset_range _ _, ?_, ?_, ?_, ?_, ?_, ?_, ?_, ?_, ?_⟩
      · intro v hv
        obtain ⟨n, -, rfl, h0, h1⟩ := (intField_eq_some_iff _ _ _ _ v).mp hv
        exact ⟨isInt_intCast n, h0, h1⟩
      · intro v hv
        exact ((floatField_eq_some_iff _ _ _ _ _ v).mp hv).2
      · intro v hv
        exact ((floatField_eq_some_iff _ _ _ _ _ v).mp hv).2
      · intro v hv
        exact ((floatField_eq_some_iff _ _ _ _ _ v).mp hv).2
      · intro vs hvs
        obtain ⟨xs, -, hl, hc⟩ := (intArrayField_eq_some_iff _ _ _ _ vs).mp hvs
        obtain ⟨h1, h2⟩ := forall₂_length_mem ((channels_eq_some_iff xs vs).mp hc)
        refine ⟨by rw [h1, hl], ?_⟩
        intro v hv
        obtain ⟨x, -, n, -, rfl, h0, h1'⟩ := h2 v hv
        exact ⟨isInt_intCast n, h0, h1'⟩
      · intro vs hvs
        obtain ⟨xs, -, hl, hc⟩ := (intArrayField_eq_some_iff _ _ _ _ vs).mp hvs
        obtain ⟨h1, h2⟩ := forall₂_length_mem ((channels_eq_some_iff xs vs).mp hc)
        refine ⟨by rw [h1, hl], ?_⟩
        intro v hv
        obtain ⟨x, -, n, -, rfl, h0, h1'⟩ := h2 v hv
        exact ⟨isInt_intCast n, h0, h1'⟩
      · intro vs hvs
        obtain ⟨xs, -, hl, hc⟩ := (intArrayField_eq_some_iff _ _ _ _ vs).mp hvs
        obtain ⟨h1, h2⟩ := forall₂_length_mem ((channels_eq_some_iff xs vs).mp hc)
        refine ⟨by rw [h1, hl], ?_⟩
        intro v hv
        obtain ⟨x, -, n, -, rfl, h0, h1'⟩ := h2 v hv
        exact ⟨isInt_intCast n, h0, h1'⟩
      · intro vs hvs
        obtain ⟨hh, s, vh, vsat, -, h1, h2, rfl⟩ := (hsField_eq_some_iff _ _ vs).mp hvs
        refine ⟨rfl, ?_, ?_⟩
        · intro v hv
          obtain rfl : vh = v := by simpa using hv
          exact ((finiteWithin_eq_some_iff _ _ _ _).mp h1).2
        · intro v hv
          obtain rfl : vsat = v := by simpa using hv
          exact ((finiteWithin_eq_some_iff _ _ _ _).mp h2).2
      · intro vs hvs
        obtain ⟨xs, -, hl, hc⟩ := (xyField_eq_some_iff _ _ vs).mp hvs
        obtain ⟨h1, h2⟩ := forall₂_length_mem ((components_eq_some_iff xs vs).mp hc)
        refine ⟨by rw [h1, hl], ?_⟩
        intro v hv
        obtain ⟨x, -, hx⟩ := h2 v hv
        exact ((finiteWithin_eq_some_iff _ _ _ _).mp hx).2
    · refine ⟨?_, ?_, ?_, ?_, ?_, ?_, ?_, ?_, ?_⟩
      · simp only [isSome_iff_exists_eq, GetFades.brightness, intField_eq_some_iff,
          Value.IntWithin, MAX_BRIGHTNESS]
        constructor
        · rintro ⟨q, n, hn, -, h0, h1⟩
          exact ⟨n, hn, h0, h1⟩
        · rintro ⟨n, hn, h0, h1⟩
          exact ⟨n, n, hn, rfl, h0, h1⟩
      · simp only [isSome_iff_exists_eq, GetFades.brightness_pct, floatField_eq_some_iff,
          Value.NumberWithin, MAX_BRIGHTNESS_PERCENT]
      · simp only [isSome_iff_exists_eq, GetFades.color_temp, floatField_eq_some_iff,
          Value.NumberWithin, MIN_MIREDS, MAX_MIREDS]
      · simp only [isSome_iff_exists_eq, GetFades.kelvin, floatField_eq_some_iff,
          Value.NumberWithin, MIN_KELVIN, MAX_KELVIN]
      · simp only [isSome_iff_exists_eq, GetFades.rgb_color, intArrayField_eq_some_iff,
          Value.ChannelArray, ← channels_isSome_iff]
        constructor
        · rintro ⟨vs, xs, hv, hl, hc⟩
          exact ⟨xs, hv, hl, vs, hc⟩
        · rintro ⟨xs, hv, hl, vs, hvs⟩
          exact ⟨vs, xs, hv, hl, hvs⟩
      · simp only [isSome_iff_exists_eq, GetFades.rgbw_color, intArrayField_eq_some_iff,
          Value.ChannelArray, ← channels_isSome_iff]
        constructor
        · rintro ⟨vs, xs, hv, hl, hc⟩
          exact ⟨xs, hv, hl, vs, hc⟩
        · rintro ⟨xs, hv, hl, vs, hvs⟩
          exact ⟨vs, xs, hv, hl, hvs⟩
      · simp only [isSome_iff_exists_eq, GetFades.rgbww_color, intArrayField_eq_some_iff,
          Value.ChannelArray, ← channels_isSome_iff]
        constructor
        · rintro ⟨vs, xs, hv, hl, hc⟩
          exact ⟨xs, hv, hl, vs, hc⟩
        · rintro ⟨xs, hv, hl, vs, hvs⟩
          exact ⟨vs, xs, hv, hl, hvs⟩
      · simp only [isSome_iff_exists_eq, GetFades.hs_color, hsField_eq_some_iff,
          Value.HueSaturation, Value.NumberWithin, Value.parseFloat, finiteWithin_eq_some_iff,
          MAX_HUE, MAX_SAT]
        constructor
        · rintro ⟨vs, hh, s, vh, vsat, hv, h1, h2, -⟩
          exact ⟨hh, s, hv, ⟨vh, h1⟩, ⟨vsat, h2⟩⟩
        · rintro ⟨hh, s, hv, ⟨vh, h1⟩, ⟨vsat, h2⟩⟩
          exact ⟨_, hh, s, vh, vsat, hv, h1, h2, rfl⟩
      · simp only [isSome_iff_exists_eq, GetFades.xy_color, xyField_eq_some_iff,
          Value.XyPair, ← components_isSome_iff]
        constructor
        · rintro ⟨vs, xs, hv, hl, hc⟩
          exact ⟨xs, hv, hl, vs, hc⟩
        · rintro ⟨xs, hv, hl, vs, hvs⟩
          exact ⟨vs, xs, hv, hl, hvs⟩

/-- C11: every element of a list returned by `GetFades` has every attribute inside
its domain and arity (`brightness` an integer in 0..255, `brightness_pct` in
0..100, `color_temp` in 150..500, `kelvin` in 2000..6500, rgb arrays of 3, 4 and
5 integers in 0..255, `hs_color` two numbers in 0..360 and 0..100, `xy_color` two
numbers in 0..1), and it comes from an element of `msg.fades` of which it keeps
exactly the fields whose raw value is valid: a field that is out of range, of
the wrong arity, non-numeric or non-finite is absent. -/
theorem GetFades_fields_in_domain (msg : Msg) (suntimes : SunTimes) (zone : Zone) (now : Int)
    (errors errors' : Errors) (L : List FadeResult)
    (h : GetFades msg suntimes zone now errors = (.returned (some L), errors')) :
    ∃ elements, msg.fades = .array elements ∧
      ∀ f ∈ L, f.Validated ∧
        ∃ i fade, elements.get? i = some fade ∧
          (GetFades.element suntimes zone now fade i).1 = some f ∧ f.KeepsValidFieldsOf fade := by
  obtain ⟨elements, hm, rfl, -, -⟩ := GetFades_returned msg suntimes zone now errors errors' L h
  refine ⟨elements, hm, ?_⟩
  intro f hf
  obtain ⟨fade, hmem, hv⟩ := List.mem_filterMap.mp hf
  obtain ⟨hval, hkeep⟩ := validated_fields suntimes zone now fade f hv
  obtain ⟨i, hi⟩ := List.get?_of_mem hmem
  exact ⟨hval, i, fade, hi, by rw [element_index]; exact hv, hkeep⟩

/-! ## Validation of an already validated element -/

theorem truncate_intCast (n : Int) : truncate (n : ℚ) = n := by
  unfold truncate
  split <;> simp

theorem parseInt_ofNumber_int (n : Int) (h : |(n : ℚ)| < 10 ^ 21) :
    (Value.ofNumber (n : ℚ)).parseInt = some n := by
  simp only [Value.ofNumber, Value.parseInt, Scalar.parseInt, parseIntNumber]
  by_cases h0 : (n : ℚ) = 0
  · have : n = 0 := by exact_mod_cast h0
    simp [this]
  · have h1 : (1 : ℚ) / 1000000 ≤ |(n : ℚ)| := by
      have hn : n ≠ 0 := by
        rintro rfl
        exact h0 (by simp)
      have : (1 : ℚ) ≤ |(n : ℚ)| := by
        have := Int.one_le_abs hn
        exact_mod_cast this
      linarith
    simp only [h0, if_false, h1, h, and_self, if_true, truncate_intCast]

theorem ofNumber_ne_undefined (q : ℚ) : Value.ofNumber q ≠ .scalar .undefined := by
  simp [Value.ofNumber]

theorem offset_ofNumber (index : Nat) (n : Int)
    (h : MINIMUM_OFFSET_MINS ≤ n ∧ n ≤ MAXIMUM_OFFSET_MINS) :
    GetFades.offset index (Value.ofNumber (n : ℚ)) = (n, none) := by
  have hab : |(n : ℚ)| < 10 ^ 21 := by
    rw [abs_lt]
    simp only [MINIMUM_OFFSET_MINS, MAXIMUM_OFFSET_MINS] at h
    constructor
    · have : (-720 : ℚ) ≤ n := by exact_mod_cast h.1
      linarith
    · have : (n : ℚ) ≤ 720 := by exact_mod_cast h.2
      linarith
  unfold GetFades.offset
  rw [if_neg (ofNumber_ne_undefined _), parseInt_ofNumber_int n hab]
  simp only
  rw [if_neg]
  simp only [not_or, not_lt]
  exact h

theorem intField_ofAttribute (field : FadeField) (hi : ℚ) (index : Nat) (o : Option ℚ)
    (hhi : hi < 10 ^ 21) (hv : ∀ v ∈ o, v.isInt = true ∧ 0 ≤ v ∧ v ≤ hi) :
    GetFades.intField field hi index (Value.ofAttribute o) = (o, none) := by
  cases o with
  | none => simp [Value.ofAttribute, GetFades.intField]
  | some v =>
    obtain ⟨hint, h0, h1⟩ := hv v rfl
    obtain ⟨n, rfl⟩ := isInt_eq_intCast v hint
    have hab : |(n : ℚ)| < 10 ^ 21 := by
      rw [abs_lt]
      constructor <;> linarith
    unfold GetFades.intField
    rw [Value.ofAttribute, if_neg (ofNumber_ne_undefined _), parseInt_ofNumber_int n hab]
    simp only
    rw [if_neg]
    simp only [not_or, not_lt]
    exact ⟨h0, h1⟩

theorem floatField_ofAttribute (field : FadeField) (lo hi : ℚ) (index : Nat) (o : Option ℚ)
    (hv : ∀ v ∈ o, lo ≤ v ∧ v ≤ hi) :
    GetFades.floatField field lo hi index (Value.ofAttribute o) = (o, none) := by
  cases o with
  | none => simp [Value.ofAttribute, GetFades.floatField]
  | some v =>
    obtain ⟨h0, h1⟩ := hv v rfl
    unfold GetFades.floatField
    rw [Value.ofAttribute, if_neg (ofNumber_ne_undefined _)]
    have hp : (Value.ofNumber v).parseFloat = .fin v := rfl
    rw [hp]
    simp only [outside, Bool.or_eq_true, decide_eq_true_eq]
    rw [if_neg]
    simp only [not_or, not_lt]
    exact ⟨h0, h1⟩

theorem channels_of_validated (vs : List ℚ)
    (hv : ∀ v ∈ vs, v.isInt = true ∧ 0 ≤ v ∧ v ≤ MAX_RGB) :
    GetFades.channels (vs.map fun q => Scalar.num (.fin q)) = some vs := by
  induction vs with
  | nil => rfl
  | cons v vs ih =>
    obtain ⟨hint, h0, h1⟩ := hv v (List.mem_cons_self _ _)
    obtain ⟨n, rfl⟩ := isInt_eq_intCast v hint
    have hab : |(n : ℚ)| < 10 ^ 21 := by
      rw [abs_lt]
      simp only [MAX_RGB] at h1
      constructor <;> linarith
    have hp : (Scalar.num (.fin (n : ℚ))).parseInt = some n := parseInt_ofNumber_int n hab
    rw [List.map_cons, GetFades.channels, hp]
    simp only
    rw [if_pos ⟨h0, h1⟩, ih (fun w hw => hv w (List.mem_cons_of_mem _ hw))]
    rfl

theorem intArrayField_ofArrayAttribute (field : FadeField) (n index : Nat) (o : Option (List ℚ))
    (hv : ∀ vs ∈ o, vs.length = n ∧ ∀ v ∈ vs, v.isInt = true ∧ 0 ≤ v ∧ v ≤ MAX_RGB) :
    GetFades.intArrayField field n index (Value.ofArrayAttribute o) = (o, none) := by
  cases o with
  | none => simp [Value.ofArrayAttribute, GetFades.intArrayField]
  | some vs =>
    obtain ⟨hl, hall⟩ := hv vs rfl
    simp [Value.ofArrayAttribute, GetFades.intArrayField, hl, channels_of_validated vs hall]

theorem components_of_validated (vs : List ℚ) (hv : ∀ v ∈ vs, 0 ≤ v ∧ v ≤ MAX_XY) :
    GetFades.components (vs.map fun q => Scalar.num (.fin q)) = some vs := by
  induction vs with
  | nil => rfl
  | cons v vs ih =>
    have hf : finiteWithin 0 MAX_XY (Scalar.num (.fin v)).parseFloat = some v :=
      (finiteWithin_eq_some_iff _ _ _ _).mpr ⟨rfl, hv v (List.mem_cons_self _ _)⟩
    rw [List.map_cons, GetFades.components, hf]
    simp only
    rw [ih (fun w hw => hv w (List.mem_cons_of_mem _ hw))]
    rfl

theorem xyField_ofArrayAttribute (index : Nat) (o : Option (List ℚ))
    (hv : ∀ vs ∈ o, vs.length = 2 ∧ ∀ v ∈ vs, 0 ≤ v ∧ v ≤ MAX_XY) :
    GetFades.xyField index (Value.ofArrayAttribute o) = (o, none) := by
  cases o with
  | none => simp [Value.ofArrayAttribute, GetFades.xyField]
  | some vs =>
    obtain ⟨hl, hall⟩ := hv vs rfl
    simp [Value.ofArrayAttribute, GetFades.xyField, hl, components_of_validated vs hall]

theorem hsField_ofArrayAttribute (index : Nat) (o : Option (List ℚ))
    (hv : ∀ vs ∈ o, vs.length = 2 ∧ (∀ h ∈ vs.get? 0, 0 ≤ h ∧ h ≤ MAX_HUE) ∧
      (∀ s ∈ vs.get? 1, 0 ≤ s ∧ s ≤ MAX_SAT)) :
    GetFades.hsField index (Value.ofArrayAttribute o) = (o, none) := by
  cases o with
  | none => simp [Value.ofArrayAttribute, GetFades.hsField]
  | some vs =>
    obtain ⟨hl, hh, hs⟩ := hv vs rfl
    obtain ⟨a, b, rfl⟩ := List.length_eq_two.mp hl
    have h1 : finiteWithin 0 MAX_HUE (Scalar.num (.fin a)).parseFloat = some a :=
      (finiteWithin_eq_some_iff _ _ _ _).mpr ⟨rfl, hh a rfl⟩
    have h2 : finiteWithin 0 MAX_SAT (Scalar.num (.fin b)).parseFloat = some b :=
      (finiteWithin_eq_some_iff _ _ _ _).mpr ⟨rfl, hs b rfl⟩
    simp [Value.ofArrayAttribute, GetFades.hsField, h1, h2]

/-- Validating the raw form of a validated element gives the element back, without
a warning. -/
theorem element_toRaw (suntimes : SunTimes) (zone : Zone) (now : Int) (fade : RawFade) (f : FadeResult)
    (index : Nat) (h : GetFades.validated suntimes zone now fade = some f) :
    GetFades.element suntimes zone now f.toRaw index = (some f, []) := by
  obtain ⟨hval, -⟩ := validated_fields suntimes zone now fade f h
  obtain ⟨hoff, Vbr, Vpct, Vct, Vk, Vrgb, Vrgbw, Vrgbww, Vhs, Vxy⟩ := hval
  have hsome : (GetFades.element suntimes zone now fade 0).1.isSome = true := by
    rw [show (GetFades.element suntimes zone now fade 0).1 = some f from h]
    rfl
  obtain ⟨⟨time, ht, hk⟩, hlevel⟩ := (element_isSome_iff suntimes zone now fade 0).mp hsome
  rcases element_of_time_accepted suntimes zone now fade 0 time ht hk with
    ⟨-, he⟩ | ⟨-, bT, aT, htimes, he⟩
  · rw [GetFades.validated, he] at h
    cases h
  · rw [GetFades.validated, he] at h
    simp only [Option.some.injEq] at h
    have e0 : GetFades.offset_mins f.toRaw index = (f.offset_mins, none) :=
      offset_ofNumber index f.offset_mins hoff
    have e1 : GetFades.brightness f.toRaw index = (f.brightness, none) :=
      intField_ofAttribute _ _ _ _ (by norm_num [MAX_BRIGHTNESS]) Vbr
    have e2 : GetFades.brightness_pct f.toRaw index = (f.brightness_pct, none) :=
      floatField_ofAttribute _ _ _ _ _ Vpct
    have e3 : GetFades.color_temp f.toRaw index = (f.color_temp, none) :=
      floatField_ofAttribute _ _ _ _ _ Vct
    have e4 : GetFades.kelvin f.toRaw index = (f.kelvin, none) :=
      floatField_ofAttribute _ _ _ _ _ Vk
    have e5 : GetFades.rgb_color f.toRaw index = (f.rgb_color, none) :=
      intArrayField_ofArrayAttribute _ _ _ _ Vrgb
    have e6 : GetFades.rgbw_color f.toRaw index = (f.rgbw_color, none) :=
      intArrayField_ofArrayAttribute _ _ _ _ Vrgbw
    have e7 : GetFades.rgbww_color f.toRaw index = (f.rgbww_color, none) :=
      intArrayField_ofArrayAttribute _ _ _ _ Vrgbww
    have e8 : GetFades.hs_color f.toRaw index = (f.hs_color, none) :=
      hsField_ofArrayAttribute _ _ Vhs
    have e9 : GetFades.xy_color f.toRaw index = (f.xy_color, none) :=
      xyField_ofArrayAttribute _ _ Vxy
    have hft : f.time = time := by rw [← h]
    have hfo : f.offset_mins = (GetFades.offset_mins fade 0).1 := by rw [← h]
    have hfb : f.beforeTime = bT := by rw [← h]
    have hfa : f.afterTime = aT := by rw [← h]
    have hl : GetFades.hasLevel f.toRaw index = true := by
      rw [← hlevel]
      simp only [GetFades.hasLevel, e1, e2, e3, e4, e5, e6, e7, e8, e9]
      rw [← h]
    have htime : f.toRaw.time = some f.time := rfl
    rcases element_of_time_accepted suntimes zone now f.toRaw index f.time htime
        (by rw [hft]; exact hk) with ⟨hl', -⟩ | ⟨-, bT', aT', htimes', he'⟩
    · rw [hl] at hl'
      cases hl'
    · rw [he']
      simp only [e0, hft, hfo, htimes, Option.some.injEq, Prod.mk.injEq] at htimes'
      obtain ⟨rfl, rfl⟩ := htimes'
      simp only [GetFades.fieldNotices, e0, e1, e2, e3, e4, e5, e6, e7, e8, e9, Option.toList_none,
        List.append_nil, ← hfb, ← hfa]

theorem filterMap_validated_toRaw (suntimes : SunTimes) (zone : Zone) (now : Int) (L : List FadeResult)
    (h : ∀ f ∈ L, ∃ fade, GetFades.validated suntimes zone now fade = some f) :
    (L.map FadeResult.toRaw).filterMap (GetFades.validated suntimes zone now) = L ∧
      ∀ index, GetFades.notices suntimes zone now (L.map FadeResult.toRaw) index = [] := by
  induction L with
  | nil => exact ⟨rfl, fun _ => rfl⟩
  | cons f L ih =>
    obtain ⟨fade, hf⟩ := h f (List.mem_cons_self _ _)
    obtain ⟨ih1, ih2⟩ := ih (fun g hg => h g (List.mem_cons_of_mem _ hg))
    constructor
    · have hv : GetFades.validated suntimes zone now f.toRaw = some f := by
        rw [GetFades.validated, element_toRaw suntimes zone now fade f 0 hf]
      rw [List.map_cons, List.filterMap_cons_some hv, ih1]
    · intro index
      rw [List.map_cons, GetFades.notices, element_toRaw suntimes zone now fade f index hf,
        ih2 (index + 1)]
      rfl

/-- C19: validating again is idempotent. When `GetFades` returns a list `L`, calling
it with the same `suntimes` and the same `now` on a message whose `fades` is `L`
returns `L` again (every element with the same time, offset, attribute values,
`beforeTime` and `afterTime`) and leaves `errors` as it was: no warning is pushed. -/
theorem GetFades_idempotent (msg : Msg) (suntimes : SunTimes) (zone : Zone) (now : Int)
    (errors errors' : Errors) (L : List FadeResult)
    (h : GetFades msg suntimes zone now errors = (.returned (some L), errors'))
    (again : Errors) :
    GetFades { fades := .array (L.map FadeResult.toRaw) } suntimes zone now again =
      (.returned (some L), again) := by
  obtain ⟨elements, -, hL, hlen, -⟩ := GetFades_returned msg suntimes zone now errors errors' L h
  have hfrom : ∀ f ∈ L, ∃ fade, GetFades.validated suntimes zone now fade = some f := by
    intro f hf
    rw [hL] at hf
    obtain ⟨fade, -, hv⟩ := List.mem_filterMap.mp hf
    exact ⟨fade, hv⟩
  obtain ⟨h1, h2⟩ := filterMap_validated_toRaw suntimes zone now L hfrom
  rw [GetFades_array, h1, h2 0, if_neg (by omega)]
  rfl

theorem parseInt_plain (q : ℚ) (h : PlainNotation q) :
    (Scalar.num (.fin q)).parseInt = some (truncate q) := by
  simp only [Scalar.parseInt, parseIntNumber]
  by_cases h0 : q = 0
  · subst h0
    simp [truncate]
  · rcases h with h | h
    · exact absurd h h0
    · simp only [h0, if_false, h, and_self, if_true]

theorem parsedFrom_of_validated (suntimes : SunTimes) (zone : Zone) (now : Int) (fade : RawFade)
    (f : FadeResult) (h : GetFades.validated suntimes zone now fade = some f) :
    f.ParsedFrom fade := by
  have hsome : (GetFades.element suntimes zone now fade 0).1.isSome = true := by
    rw [show (GetFades.element suntimes zone now fade 0).1 = some f from h]
    rfl
  obtain ⟨⟨time, ht, hk⟩, -⟩ := (element_isSome_iff suntimes zone now fade 0).mp hsome
  rcases element_of_time_accepted suntimes zone now fade 0 time ht hk with
    ⟨-, he⟩ | ⟨-, bT, aT, -, he⟩
  · rw [GetFades.validated, he] at h
    cases h
  · rw [GetFades.validated, he] at h
    simp only [Option.some.injEq] at h
    subst h
    have harr : ∀ (field : FadeField) (n : Nat) (value : Value) (vs : List ℚ),
        vs ∈ (GetFades.intArrayField field n 0 value).1 →
        ∃ xs, value = .array xs ∧
          List.Forall₂ (fun (x : Scalar) (v : ℚ) => ∃ n : Int, x.parseInt = some n ∧ v = n)
            xs vs := by
      intro field n value vs hvs
      obtain ⟨xs, hv, -, hc⟩ := (intArrayField_eq_some_iff _ _ _ _ vs).mp hvs
      refine ⟨xs, hv, ?_⟩
      exact ((channels_eq_some_iff xs vs).mp hc).imp
        (fun _ _ hx => by
          obtain ⟨n, hn, hv, -⟩ := hx
          exact ⟨n, hn, hv⟩)
    refine ⟨?_, ?_, ?_, ?_, ?_, ?_, ?_⟩
    · intro v hv
      obtain ⟨n, hn, rfl, -⟩ := (intField_eq_some_iff _ _ _ _ v).mp hv
      exact ⟨n, hn, rfl⟩
    · intro v hv
      exact ((floatField_eq_some_iff _ _ _ _ _ v).mp hv).1
    · intro v hv
      exact ((floatField_eq_some_iff _ _ _ _ _ v).mp hv).1
    · intro v hv
      exact ((floatField_eq_some_iff _ _ _ _ _ v).mp hv).1
    · exact harr _ _ _
    · exact harr _ _ _
    · exact harr _ _ _

/-- C12 (as amended): in every element of a list returned by `GetFades`, the
validated `brightness` and every rgb, rgbw and rgbww channel is an integer, the
value that `parseInt` reads in the input, and `brightness_pct`, `color_temp` and
`kelvin` are the values that `parseFloat` reads, fraction included. On a numeric
input, `parseInt` truncates toward zero when the number is written in plain
notation (zero, or a magnitude from 1e-6 up to 1e21), and `parseFloat` gives the
number back. -/
theorem GetFades_parsed_values (msg : Msg) (suntimes : SunTimes) (zone : Zone) (now : Int)
    (errors errors' : Errors) (L : List FadeResult)
    (h : GetFades msg suntimes zone now errors = (.returned (some L), errors')) :
    (∃ elements, msg.fades = .array elements ∧
      ∀ f ∈ L, ∃ i fade, elements.get? i = some fade ∧
        (GetFades.element suntimes zone now fade i).1 = some f ∧ f.ParsedFrom fade) ∧
    (∀ q : ℚ, PlainNotation q →
      (Scalar.num (.fin q)).parseInt = some (truncate q) ∧
      (Value.ofNumber q).parseInt = some (truncate q)) ∧
    (∀ q : ℚ, (Scalar.num (.fin q)).parseFloat = .fin q ∧
      (Value.ofNumber q).parseFloat = .fin q) := by
  refine ⟨?_, fun q hq => ⟨parseInt_plain q hq, parseInt_plain q hq⟩, fun q => ⟨rfl, rfl⟩⟩
  obtain ⟨elements, hm, rfl, -, -⟩ := GetFades_returned msg suntimes zone now errors errors' L h
  refine ⟨elements, hm, ?_⟩
  intro f hf
  obtain ⟨fade, hmem, hv⟩ := List.mem_filterMap.mp hf
  obtain ⟨i, hi⟩ := List.get?_of_mem hmem
  exact ⟨i, fade, hi, by rw [element_index]; exact hv,
    parsedFrom_of_validated suntimes zone now fade f hv⟩

/-- Witness of C12 (as amended): the message with `color_temp` 200.7. -/
theorem GetFades_parsed_values_witness :
    (∃ elements, fractionalMsg.fades = .array elements ∧
      ∀ f ∈ fractionalList, ∃ i fade, elements.get? i = some fade ∧
        (GetFades.element [] 0 1728025200000 fade i).1 = some f ∧ f.ParsedFrom fade) ∧
    (∀ q : ℚ, PlainNotation q →
      (Scalar.num (.fin q)).parseInt = some (truncate q) ∧
      (Value.ofNumber q).parseInt = some (truncate q)) ∧
    (∀ q : ℚ, (Scalar.num (.fin q)).parseFloat = .fin q ∧
      (Value.ofNumber q).parseFloat = .fin q) :=
  GetFades_parsed_values fractionalMsg [] 0 1728025200000 {} {} fractionalList (by decide!)

/-- Counterexample to C12 as stated: `GetFades` keeps `color_temp` 200.7 as 200.7,
which is not an integer and is not 200. -/
theorem GetFades_keeps_fractional_color_temp :
    GetFades fractionalMsg [] 0 1728025200000 {} = (.returned (some fractionalList), {}) ∧
      (fractionalList.head?.bind fun f => f.color_temp) = some (2007 / 10) ∧
      ((2007 / 10 : ℚ)).isInt = false ∧ (2007 / 10 : ℚ) ≠ 200 := by
  refine ⟨by decide!, by decide!, by decide!, by norm_num⟩

theorem set_offset_level (fade : RawFade) (index : Nat) (value : Value) :
    GetFades.hasLevel (fade.set .offset_mins value) index = GetFades.hasLevel fade index := rfl

theorem filter_fieldNotices_offset (fade : RawFade) (index : Nat) :
    (GetFades.fieldNotices fade index).filter
        (fun n => decide (n.warning.field = some .offset_mins)) =
      (GetFades.offset_mins fade index).2.toList := by
  have hkeep : ∀ j, ((GetFades.notice fade index j).toList.filter
      (fun n => decide (n.warning.field = some .offset_mins))) =
      if j = .offset_mins then (GetFades.notice fade index j).toList else [] := by
    intro j
    cases hn : GetFades.notice fade index j with
    | none => simp
    | some n =>
      have hf := notice_field fade index j n hn
      by_cases hj : j = .offset_mins
      · subst hj
        simp [hf]
      · simp [hf, hj]
  rw [fieldNotices_eq_flatMap, List.filter_flatMap]
  simp only [attributeFields, List.flatMap_cons, List.flatMap_nil, hkeep, List.append_nil]
  simp [GetFades.notice]

/-- C13 (as amended): `offset_mins` is 0 without a warning when it is absent; when
it is present, it is forced to 0 with one warning if `parseInt` reads no number
in it or reads a number outside -720..720, and it is otherwise the integer that
`parseInt` reads, without a warning: a fractional number (written in plain
notation) is truncated toward zero. The value of `offset_mins` never decides
whether the element is dropped, the warnings of an element hold at most that one
warning about `offset_mins`, and every returned element has an integer
`offset_mins` within -720..720. -/
theorem GetFades_offset_mins_rule (suntimes : SunTimes) (zone : Zone) (now : Int) :
    (∀ (fade : RawFade) (index : Nat),
      (fade.offset_mins = .scalar .undefined → GetFades.offset_mins fade index = (0, none)) ∧
      (fade.offset_mins ≠ .scalar .undefined → fade.offset_mins.parseInt = none →
        GetFades.offset_mins fade index =
          (0, some ⟨.notNumber index .offset_mins fade.offset_mins,
            fieldStatus index .offset_mins⟩)) ∧
      (∀ n : Int, fade.offset_mins ≠ .scalar .undefined → fade.offset_mins.parseInt = some n →
        (n < -720 ∨ 720 < n) →
        GetFades.offset_mins fade index =
          (0, some ⟨.outOfRange index .offset_mins fade.offset_mins,
            fieldStatus index .offset_mins⟩)) ∧
      (∀ n : Int, fade.offset_mins ≠ .scalar .undefined → fade.offset_mins.parseInt = some n →
        -720 ≤ n → n ≤ 720 → GetFades.offset_mins fade index = (n, none)) ∧
      (∀ value : Value,
        (GetFades.element suntimes zone now (fade.set .offset_mins value) index).1.isSome =
          (GetFades.element suntimes zone now fade index).1.isSome) ∧
      (fade.TimeAccepted suntimes →
        (GetFades.element suntimes zone now fade index).2.filter
            (fun n => decide (n.warning.field = some .offset_mins)) =
          (GetFades.offset_mins fade index).2.toList)) ∧
    (∀ q : ℚ, PlainNotation q → (Value.ofNumber q).parseInt = some (truncate q)) ∧
    (∀ (msg : Msg) (errors errors' : Errors) (L : List FadeResult),
      GetFades msg suntimes zone now errors = (.returned (some L), errors') →
      ∀ f ∈ L, -720 ≤ f.offset_mins ∧ f.offset_mins ≤ 720) := by
  refine ⟨?_, fun q hq => parseInt_plain q hq, ?_⟩
  · intro fade index
    refine ⟨?_, ?_, ?_, ?_, ?_, ?_⟩
    · intro h
      simp [GetFades.offset_mins, GetFades.offset, h]
    · intro h hp
      simp [GetFades.offset_mins, GetFades.offset, h, hp]
    · intro n h hp hr
      simp only [GetFades.offset_mins, GetFades.offset, h, if_false, hp,
        MINIMUM_OFFSET_MINS, MAXIMUM_OFFSET_MINS]
      rw [if_pos]
      rcases hr with hr | hr
      · exact Or.inl hr
      · exact Or.inr hr
    · intro n h hp h0 h1
      simp only [GetFades.offset_mins, GetFades.offset, h, if_false, hp,
        MINIMUM_OFFSET_MINS, MAXIMUM_OFFSET_MINS]
      rw [if_neg]
      simp only [not_or, not_lt]
      exact ⟨h0, h1⟩
    · intro value
      have hiff : ∀ g h : RawFade, (g.TimeAccepted suntimes ↔ h.TimeAccepted suntimes) →
          GetFades.hasLevel g index = GetFades.hasLevel h index →
          (GetFades.element suntimes zone now g index).1.isSome =
            (GetFades.element suntimes zone now h index).1.isSome := by
        intro g h ht hl
        have hg := element_isSome_iff suntimes zone now g index
        have hh := element_isSome_iff suntimes zone now h index
        rw [ht, hl] at hg
        cases hs : (GetFades.element suntimes zone now h index).1.isSome
        · cases hs' : (GetFades.element suntimes zone now g index).1.isSome
          · rfl
          · rw [hh.mpr (hg.mp hs')] at hs
            exact absurd hs (by decide)
        · exact hg.mpr (hh.mp hs)
      exact hiff _ _ (by simp only [RawFade.TimeAccepted, set_time])
        (set_offset_level fade index value)
    · rintro ⟨time, ht, hk⟩
      rcases element_of_time_accepted suntimes zone now fade index time ht hk with
        ⟨-, he⟩ | ⟨-, bT, aT, -, he⟩
      · rw [he]
        simp only [List.filter_append, filter_fieldNotices_offset]
        simp [Warning.field]
      · rw [he]
        exact filter_fieldNotices_offset fade index
  · intro msg errors errors' L h f hf
    obtain ⟨elements, -, rfl, -, -⟩ := GetFades_returned msg suntimes zone now errors errors' L h
    obtain ⟨fade, -, hv⟩ := List.mem_filterMap.mp hf
    obtain ⟨hval, -⟩ := validated_fields suntimes zone now fade f hv
    exact hval.1

/-- Counterexample to C13 as stated: `offset_mins` 12.7 is present and is not an
integer, yet `GetFades` keeps the element with the offset 12, not 0, and pushes
no warning. -/
theorem GetFades_truncates_fractional_offset :
    GetFades.offset 0 (Value.ofNumber (127 / 10)) = (12, none) ∧
      GetFades fractionalOffsetMsg [] 0 1728025200000 {} =
        (.returned (some fractionalOffsetList), {}) ∧
      (fractionalOffsetList.head?.map fun f => f.offset_mins) = some 12 := by
  refine ⟨by decide!, by decide!, by decide⟩

/-- Witness of C11: the two elements returned for `threeEntryMsg` are validated
and keep the valid fields of the elements 0 and 2. -/
theorem GetFades_fields_in_domain_witness :
    ∃ elements, threeEntryMsg.fades = .array elements ∧
      ∀ f ∈ threeEntryList, f.Validated ∧
        ∃ i fade, elements.get? i = some fade ∧
          (GetFades.element [] 0 1728025200000 fade i).1 = some f ∧ f.KeepsValidFieldsOf fade :=
  GetFades_fields_in_domain threeEntryMsg [] 0 1728025200000 {} threeEntryErrors threeEntryList
    (by decide!)

/-- Witness of C15: `rgb_color` with two channels in an element that has a valid
time and a valid `brightness`. -/
theorem GetFades_invalid_field_frame_witness :
    (GetFades.element [] 0 1728025200000 shortRgbFade 0).1 =
        (GetFades.element [] 0 1728025200000
          (shortRgbFade.set .rgb_color (.scalar .undefined)) 0).1 ∧
    (∀ f, (GetFades.element [] 0 1728025200000 shortRgbFade 0).1 = some f →
        (f.toRaw).get .rgb_color = .scalar .undefined) ∧
    (GetFades.element [] 0 1728025200000 shortRgbFade 0).2.filter
        (fun n => decide (n.warning.field ≠ some .rgb_color)) =
      (GetFades.element [] 0 1728025200000
        (shortRgbFade.set .rgb_color (.scalar .undefined)) 0).2 ∧
    (shortRgbFade.TimeAccepted [] →
      ((GetFades.element [] 0 1728025200000 shortRgbFade 0).2.filter
        (fun n => decide (n.warning.field = some .rgb_color))).length = 1) ∧
    (¬ shortRgbFade.TimeAccepted [] →
      ((GetFades.element [] 0 1728025200000 shortRgbFade 0).2.filter
        (fun n => decide (n.warning.field = some .rgb_color))).length = 0) :=
  GetFades_invalid_field_frame [] 0 1728025200000 shortRgbFade 0 .rgb_color
    (by simp [attributeFields]) (by simp [shortRgbFade, RawFade.get]) (by decide!)

/-- Counterexample to C15 as stated: in the element `{time: "25:00", brightness:
100, rgb_color: [1, 2]}` the field `rgb_color` is present and invalid, yet no
warning about it is pushed: the only warning is the one about the time. -/
theorem GetFades_no_field_warning_when_time_fails :
    badTimeRgbFade.get .rgb_color ≠ .scalar .undefined ∧
      GetFades.survives badTimeRgbFade 0 .rgb_color = false ∧
      GetFades.element [] 0 1728025200000 badTimeRgbFade 0 =
        (none, [⟨.invalidTime 0 "25:00", elementStatus 0⟩]) ∧
      ((GetFades.element [] 0 1728025200000 badTimeRgbFade 0).2.filter
        (fun n => decide (n.warning.field = some .rgb_color))).length = 0 := by
  refine ⟨by simp [badTimeRgbFade, RawFade.get], by decide!, by decide!, by decide!⟩

/-- Witness of C19: validating the list returned for `threeEntryMsg` again
returns the same list and leaves the errors object as it was. -/
theorem GetFades_idempotent_witness :
    GetFades { fades := .array (threeEntryList.map FadeResult.toRaw) } [] 0 1728025200000 {} =
      (.returned (some threeEntryList), {}) :=
  GetFades_idempotent threeEntryMsg [] 0 1728025200000 {} threeEntryErrors threeEntryList
    (by decide!) {}

theorem badTimeFade_rejected : ¬ badTimeFade.TimeAccepted [] := by
  rintro ⟨time, ht, h⟩
  have ht' : time = "25:00" := by
    simp only [badTimeFade, Option.some.injEq] at ht
    exact ht.symm
  subst ht'
  revert h
  decide

/-- Witness of C13: the offset 12.7 is read as 12, and the elements returned for
`fractionalOffsetMsg` have offsets within -720..720. -/
theorem GetFades_offset_mins_rule_witness :
    (Value.ofNumber (127 / 10)).parseInt = some (truncate (127 / 10)) ∧
      ∀ f ∈ fractionalOffsetList, -720 ≤ f.offset_mins ∧ f.offset_mins ≤ 720 :=
  ⟨(GetFades_offset_mins_rule [] 0 1728025200000).2.1 (127 / 10) (Or.inr (by decide!)),
   (GetFades_offset_mins_rule [] 0 1728025200000).2.2 fractionalOffsetMsg {} {}
     fractionalOffsetList (by decide!)⟩

/-- C14: the `time` `toString` is no named instant of the table and no clock
string, yet `GetFades` accepts it, because every object inherits a property of
that name: the element is kept, without a warning, with Invalid Dates for
`beforeTime` and `afterTime`. -/
theorem GetFades_accepts_inherited_name :
    ([("sunrise", 1728020000000), ("sunset", 1728063400000)] : SunTimes).lookup "toString"
      = none ∧
    REGEX_HHMM "toString" = false ∧
    GetFades inheritedMsg [("sunrise", 1728020000000), ("sunset", 1728063400000)] 0
        1728025200000 {} =
      (.returned (some inheritedList), {}) ∧
    inheritedList.head?.map (fun f => (f.time, f.beforeTime, f.afterTime)) =
      some ("toString", .invalid, .invalid) := by
  refine ⟨by decide, by decide, by decide!, by decide⟩

/-- Witness of C16: the element `{time: "12:00", brightness: 300}` is dropped with
the warning about levels, and the run on `threeEntryMsg` records that warning for
its element 1. -/
theorem GetFades_element_kept_iff_witness :
    ((GetFades.element [] 0 1728025200000 noLevelFade 1).1 = none ∧
      (∃ ns, (GetFades.element [] 0 1728025200000 noLevelFade 1).2 =
        ns ++ [⟨.noLevels 1, elementStatus 1⟩]) ∧
      ∀ quote allowed, Warning.text quote allowed (.noLevels 1) =
        "No levels provided within msg.fades[" ++ toString 1 ++ "]. Skipping.") ∧
    ∃ elements, threeEntryMsg.fades = .array elements ∧
      (∀ f, f ∈ threeEntryList ↔ ∃ i fade, elements.get? i = some fade ∧
        (GetFades.element [] 0 1728025200000 fade i).1 = some f) ∧
      (∀ i fade, elements.get? i = some fade → fade.TimeAccepted [] →
        (∀ field ∈ attributeFields, GetFades.survives fade i field = false) →
        Warning.noLevels i ∈ threeEntryErrors.warn) :=
  ⟨((GetFades_element_kept_iff [] 0 1728025200000).1 noLevelFade 1).2
      ⟨"12:00", rfl, Or.inr (by decide)⟩ (by decide!),
   (GetFades_element_kept_iff [] 0 1728025200000).2 threeEntryMsg {} threeEntryErrors
     threeEntryList (by decide!)⟩

/-! ## `SwitchOn`, `GetLocation` and `GetNowOffset` -/

theorem append_ne_empty (s t : String) (h : 0 < s.length) : s ++ t ≠ "" := by
  intro he
  have := congrArg String.length he
  rw [String.length_append] at this
  have h0 : "".length = 0 := rfl
  omega

theorem elementStatus_ne_empty (index : Nat) : elementStatus index ≠ "" := by
  unfold elementStatus
  rw [String.append_assoc]
  exact append_ne_empty _ _ (by decide)

theorem fieldStatus_ne_empty (index : Nat) (field : FadeField) : fieldStatus index field ≠ "" := by
  unfold fieldStatus
  rw [String.append_assoc, String.append_assoc, String.append_assoc]
  exact append_ne_empty _ _ (by decide)

theorem latitude_ne_longitude (a b : String) :
    "msg.location.latitude " ++ a ≠ "msg.location.longitude " ++ b := by
  intro h
  have := congrArg String.data h
  simp at this

/-- C30: `SwitchOn` sets `activate` to `true` exactly when `msg.payload.service` is
`"turn_on"`, `"on"` or `true`, and to `false` exactly when it is another value
that is not `undefined`, `null` or the empty string; `activate` is not assigned
when the payload is absent or has no `service`; the topic is `msg.topic`, or
`"_none"` when `msg.topic` is absent or the empty string. -/
theorem SwitchOn_classifies (msg : Msg) :
    ((SwitchOn msg).activate = some true ↔
      ∃ service, msg.payload = .object service ∧
        (service = .scalar (.str "turn_on") ∨ service = .scalar (.str "on") ∨
          service = .scalar (.bool true))) ∧
    ((SwitchOn msg).activate = some false ↔
      ∃ service, msg.payload = .object service ∧
        service ≠ .scalar (.str "turn_on") ∧ service ≠ .scalar (.str "on") ∧
        service ≠ .scalar (.bool true) ∧ service ≠ .scalar .undefined ∧
        service ≠ .scalar .null ∧ service ≠ .scalar (.str "")) ∧
    ((msg.payload = .absent ∨ msg.payload.service = .scalar .undefined) →
      (SwitchOn msg).activate = none) ∧
    (∀ topic, msg.topic = some topic → topic ≠ "" → (SwitchOn msg).topic = topic) ∧
    ((msg.topic = none ∨ msg.topic = some "") → (SwitchOn msg).topic = "_none") := by
  refine ⟨?_, ?_, ?_, ?_, ?_⟩
  · cases hp : msg.payload with
    | absent => simp [SwitchOn, hp, Payload.truthy]
    | value v =>
      by_cases hv : v.truthy = true <;> simp [SwitchOn, hp, Payload.truthy, Payload.service, hv]
    | object service =>
      simp only [SwitchOn, hp, Payload.truthy, Payload.service, if_true, Payload.object.injEq,
        exists_eq_left']
      split
      · simp_all
      · split <;> simp_all
  · cases hp : msg.payload with
    | absent => simp [SwitchOn, hp, Payload.truthy]
    | value v =>
      by_cases hv : v.truthy = true <;> simp [SwitchOn, hp, Payload.truthy, Payload.service, hv]
    | object service =>
      simp only [SwitchOn, hp, Payload.truthy, Payload.service, if_true, Payload.object.injEq,
        exists_eq_left']
      split
      · rename_i h
        constructor
        · intro habs
          simp at habs
        · rintro ⟨h1, h2, h3, -⟩
          rcases h with h | h | h
          · exact absurd h h1
          · exact absurd h h2
          · exact absurd h h3
      · rename_i h
        simp only [not_or] at h
        split
        · rename_i h'
          simp only [true_iff]
          exact ⟨h.1, h.2.1, h.2.2, h'.1, h'.2.2, h'.2.1⟩
        · rename_i h'
          constructor
          · intro habs
            simp at habs
          · rintro ⟨-, -, -, h4, h5, h6⟩
            exact absurd ⟨h4, h6, h5⟩ h'
  · rintro (hp | hs)
    · simp [SwitchOn, hp, Payload.truthy]
    · simp only [SwitchOn, hs]
      split <;> simp
  · intro topic ht hne
    simp [SwitchOn, ht, hne]
  · rintro (ht | ht) <;> simp [SwitchOn, ht]

/-- Witness of C30: `{topic: "lamp", payload: {service: "turn_on"}}` activates the
channel `lamp`; `{topic: "", payload: {service: "turn_off"}}` deactivates the
channel `_none`. -/
theorem SwitchOn_classifies_witness :
    (SwitchOn turnOnMsg).activate = some true ∧ (SwitchOn turnOnMsg).topic = "lamp" ∧
      (SwitchOn turnOffMsg).activate = some false ∧ (SwitchOn turnOffMsg).topic = "_none" :=
  ⟨(SwitchOn_classifies turnOnMsg).1.mpr ⟨_, rfl, Or.inl rfl⟩,
   (SwitchOn_classifies turnOnMsg).2.2.2.1 "lamp" rfl (by decide),
   (SwitchOn_classifies turnOffMsg).2.1.mpr
     ⟨_, rfl, by decide, by decide, by decide, by decide, by decide, by decide⟩,
   (SwitchOn_classifies turnOffMsg).2.2.2.2 (Or.inr rfl)⟩

theorem outside_eq_false_iff (lo hi : ℚ) (x : JSNum) (hx : x ≠ .nan) :
    outside lo hi x = false ↔ InDomain lo hi x := by
  cases x with
  | nan => exact absurd rfl hx
  | posInf => simp [outside, InDomain]
  | negInf => simp [outside, InDomain]
  | fin q =>
    simp only [outside, InDomain, JSNum.fin.injEq, exists_eq_left', Bool.or_eq_false_iff,
      decide_eq_false_iff_not, not_lt]

theorem not_inDomain_nan' (lo hi : ℚ) : ¬ InDomain lo hi .nan := by
  rintro ⟨q, h, -⟩
  cases h

theorem GetLocation_missing (quote : Value → String) (msg : Msg) (errors : Errors)
    (h : ∀ raw, msg.location = some raw →
      raw.latitude = .scalar .undefined ∨ raw.longitude = .scalar .undefined) :
    GetLocation quote msg errors = (none, { errors with error := some "msg.location error!" }) := by
  unfold GetLocation
  cases hl : msg.location with
  | none => rfl
  | some raw => simp [h raw hl]

theorem GetLocation_present (quote : Value → String) (msg : Msg) (errors : Errors)
    (raw : RawLocation) (hl : msg.location = some raw)
    (h1 : raw.latitude ≠ .scalar .undefined) (h2 : raw.longitude ≠ .scalar .undefined) :
    GetLocation quote msg errors =
      if raw.latitude.parseFloat = .nan then
        (none,
          { errors with
            error := some ("msg.location.latitude " ++ quote raw.latitude ++ " is not a number.")
            status := some "msg.location error!" })
      else if outside MIN_LATITUDE MAX_LATITUDE raw.latitude.parseFloat = true then
        (none,
          { errors with
            error := some ("msg.location.latitude " ++ quote raw.latitude ++
              " is not between -90 and 90 degrees.")
            status := some "msg.location error!" })
      else if raw.longitude.parseFloat = .nan then
        (none,
          { errors with
            error := some ("msg.location.longitude " ++ quote raw.longitude ++
              " is not a number.")
            status := some "msg.location error!" })
      else if outside MIN_LONGITUDE MAX_LONGITUDE raw.longitude.parseFloat = true then
        (none,
          { errors with
            error := some ("msg.location.longitude " ++ quote raw.longitude ++
              " is not between -180 and 180 degrees.")
            status := some "msg.location error!" })
      else
        (some { latitude := raw.latitude.parseFloat, longitude := raw.longitude.parseFloat },
          errors) := by
  unfold GetLocation
  simp only [hl, h1, h2, or_self, if_false]

theorem not_outside_iff (lo hi : ℚ) (x : JSNum) :
    (x ≠ .nan ∧ ¬ outside lo hi x = true) ↔ InDomain lo hi x := by
  constructor
  · rintro ⟨hx, ho⟩
    exact (outside_eq_false_iff lo hi x hx).mp (by simpa using ho)
  · intro h
    have hx : x ≠ .nan := by
      rintro rfl
      exact not_inDomain_nan' lo hi h
    exact ⟨hx, by simpa using (outside_eq_false_iff lo hi x hx).mpr h⟩

/-- C23: `GetLocation` returns a location exactly when `msg.location.latitude` and
`msg.location.longitude` are both present, both parse (`parseFloat`) to a number,
and the numbers lie in -90..90 and in -180..180, bounds included; the record
returned holds those two numbers and `errors` is left as it was. In every other
case it returns nothing and `errors.error` is set. -/
theorem GetLocation_returns_iff (quote : Value → String) (msg : Msg) (errors : Errors) :
    (∀ location, (GetLocation quote msg errors).1 = some location ↔
      ∃ raw, msg.location = some raw ∧
        raw.latitude ≠ .scalar .undefined ∧ raw.longitude ≠ .scalar .undefined ∧
        InDomain (-90) 90 raw.latitude.parseFloat ∧
        InDomain (-180) 180 raw.longitude.parseFloat ∧
        location = { latitude := raw.latitude.parseFloat, longitude := raw.longitude.parseFloat }) ∧
    ((GetLocation quote msg errors).1.isSome = true → (GetLocation quote msg errors).2 = errors) ∧
    ((GetLocation quote msg errors).1 = none →
      (GetLocation quote msg errors).2.error.isSome = true) := by
  by_cases hm : ∀ raw, msg.location = some raw →
      raw.latitude = .scalar .undefined ∨ raw.longitude = .scalar .undefined
  · rw [GetLocation_missing quote msg errors hm]
    refine ⟨?_, by simp, by simp⟩
    intro location
    constructor
    · intro h
      simp at h
    · rintro ⟨raw, hl, h1, h2, -⟩
      rcases hm raw hl with h | h
      · exact absurd h h1
      · exact absurd h h2
  · push_neg at hm
    obtain ⟨raw, hl, h1, h2⟩ := hm
    rw [GetLocation_present quote msg errors raw hl h1 h2]
    have e1 := not_outside_iff MIN_LATITUDE MAX_LATITUDE raw.latitude.parseFloat
    have e2 := not_outside_iff MIN_LONGITUDE MAX_LONGITUDE raw.longitude.parseFloat
    simp only [MIN_LATITUDE, MAX_LATITUDE, MIN_LONGITUDE, MAX_LONGITUDE] at e1 e2 ⊢
    by_cases c1 : raw.latitude.parseFloat = .nan
    · simp only [c1, if_true]
      refine ⟨?_, by simp, by simp⟩
      intro location
      constructor
      · intro h
        simp at h
      · rintro ⟨raw', hl', -, -, hd, -⟩
        rw [hl] at hl'
        cases hl'
        exact absurd c1 (e1.mpr hd).1
    · simp only [c1, if_false]
      by_cases c2 : outside (-90) 90 raw.latitude.parseFloat = true
      · simp only [c2, if_true]
        refine ⟨?_, by simp, by simp⟩
        intro location
        constructor
        · intro h
          simp at h
        · rintro ⟨raw', hl', -, -, hd, -⟩
          rw [hl] at hl'
          cases hl'
          exact absurd c2 (e1.mpr hd).2
      · simp only [c2, Bool.false_eq_true, if_false]
        by_cases c3 : raw.longitude.parseFloat = .nan
        · simp only [c3, if_true]
          refine ⟨?_, by simp, by simp⟩
          intro location
          constructor
          · intro h
            simp at h
          · rintro ⟨raw', hl', -, -, -, hd, -⟩
            rw [hl] at hl'
            cases hl'
            exact absurd c3 (e2.mpr hd).1
        · simp only [c3, if_false]
          by_cases c4 : outside (-180) 180 raw.longitude.parseFloat = true
          · simp only [c4, if_true]
            refine ⟨?_, by simp, by simp⟩
            intro location
            constructor
            · intro h
              simp at h
            · rintro ⟨raw', hl', -, -, -, hd, -⟩
              rw [hl] at hl'
              cases hl'
              exact absurd c4 (e2.mpr hd).2
          · simp only [c4, Bool.false_eq_true, if_false]
            refine ⟨?_, by simp, by simp⟩
            intro location
            constructor
            · intro h
              simp only [Option.some.injEq] at h
              exact ⟨raw, hl, h1, h2, e1.mp ⟨c1, c2⟩, e2.mp ⟨c3, c4⟩, h.symm⟩
            · rintro ⟨raw', hl', -, -, -, -, rfl⟩
              rw [hl] at hl'
              cases hl'
              rfl

/-- Witness of C23: `{latitude: "53.63", longitude: -151.2}` is returned as the
numbers 53.63 and -151.2. -/
theorem GetLocation_returns_iff_witness :
    (GetLocation (fun _ => "") locatedMsg {}).1 =
        some { latitude := .fin (5363 / 100), longitude := .fin (-756 / 5) } ∧
      ((GetLocation (fun _ => "") misplacedMsg {}).2.error).isSome = true :=
  ⟨((GetLocation_returns_iff (fun _ => "") locatedMsg {}).1 _).mpr
      ⟨_, rfl, by decide, by decide, ⟨5363 / 100, by decide!, by norm_num, by norm_num⟩,
        ⟨-756 / 5, by decide!, by norm_num, by norm_num⟩, by decide!⟩,
   (GetLocation_returns_iff (fun _ => "") misplacedMsg {}).2.2 (by decide!)⟩

theorem error_ne_longitude (text : String) :
    "msg.location error!" ≠ "msg.location.longitude " ++ text := by
  intro h
  have := congrArg String.data h
  simp at this

/-- C24: `GetLocation` records one error, that of the first failing test: with both
fields present, a latitude that is not a number gives the latitude error `is not
a number`, else a latitude out of range gives the latitude error `is not between
-90 and 90 degrees`, whatever the longitude is; a longitude error is recorded
only when the latitude is valid; `errors.warn` is left as it was in every case. -/
theorem GetLocation_first_failure (quote : Value → String) (msg : Msg) (errors : Errors) :
    (GetLocation quote msg errors).2.warn = errors.warn ∧
    (∀ raw, msg.location = some raw →
      raw.latitude ≠ .scalar .undefined → raw.longitude ≠ .scalar .undefined →
      (raw.latitude.parseFloat = .nan →
        (GetLocation quote msg errors).2.error =
          some ("msg.location.latitude " ++ quote raw.latitude ++ " is not a number.")) ∧
      (raw.latitude.parseFloat ≠ .nan → ¬ InDomain (-90) 90 raw.latitude.parseFloat →
        (GetLocation quote msg errors).2.error =
          some ("msg.location.latitude " ++ quote raw.latitude ++
            " is not between -90 and 90 degrees.")) ∧
      (InDomain (-90) 90 raw.latitude.parseFloat → raw.longitude.parseFloat = .nan →
        (GetLocation quote msg errors).2.error =
          some ("msg.location.longitude " ++ quote raw.longitude ++ " is not a number.")) ∧
      (InDomain (-90) 90 raw.latitude.parseFloat → raw.longitude.parseFloat ≠ .nan →
        ¬ InDomain (-180) 180 raw.longitude.parseFloat →
        (GetLocation quote msg errors).2.error =
          some ("msg.location.longitude " ++ quote raw.longitude ++
            " is not between -180 and 180 degrees."))) ∧
    (∀ text, (GetLocation quote msg errors).1 = none →
      (GetLocation quote msg errors).2.error = some ("msg.location.longitude " ++ text) →
      ∃ raw, msg.location = some raw ∧ InDomain (-90) 90 raw.latitude.parseFloat) := by
  by_cases hm : ∀ raw, msg.location = some raw →
      raw.latitude = .scalar .undefined ∨ raw.longitude = .scalar .undefined
  · rw [GetLocation_missing quote msg errors hm]
    refine ⟨rfl, ?_, ?_⟩
    · intro raw hl h1 h2
      rcases hm raw hl with h | h
      · exact absurd h h1
      · exact absurd h h2
    · intro text _ h
      simp only [Option.some.injEq] at h
      exact absurd h (error_ne_longitude text)
  · push_neg at hm
    obtain ⟨raw, hl, h1, h2⟩ := hm
    rw [GetLocation_present quote msg errors raw hl h1 h2]
    have e1 := not_outside_iff MIN_LATITUDE MAX_LATITUDE raw.latitude.parseFloat
    have e2 := not_outside_iff MIN_LONGITUDE MAX_LONGITUDE raw.longitude.parseFloat
    simp only [MIN_LATITUDE, MAX_LATITUDE, MIN_LONGITUDE, MAX_LONGITUDE] at e1 e2 ⊢
    have hraw : ∀ raw', msg.location = some raw' → raw' = raw := by
      intro raw' hl'
      rw [hl] at hl'
      cases hl'
      rfl
    by_cases c1 : raw.latitude.parseFloat = .nan
    · simp only [c1, if_true]
      refine ⟨trivial, ?_, ?_⟩
      · intro raw' hl' _ _
        rw [hraw raw' hl']
        refine ⟨fun _ => rfl, fun h => absurd c1 h, fun h => ?_, fun h => ?_⟩
        · exact absurd c1 (e1.mpr h).1
        · exact absurd c1 (e1.mpr h).1
      · intro text _ h
        simp only [Option.some.injEq, String.append_assoc] at h
        exact absurd h (latitude_ne_longitude _ _)
    · simp only [c1, if_false]
      by_cases c2 : outside (-90) 90 raw.latitude.parseFloat = true
      · simp only [c2, if_true]
        refine ⟨trivial, ?_, ?_⟩
        · intro raw' hl' _ _
          rw [hraw raw' hl']
          refine ⟨fun h => absurd h c1, fun _ _ => rfl, fun h => ?_, fun h => ?_⟩
          · exact absurd c2 (e1.mpr h).2
          · exact absurd c2 (e1.mpr h).2
        · intro text _ h
          simp only [Option.some.injEq, String.append_assoc] at h
          exact absurd h (latitude_ne_longitude _ _)
      · have hlat := e1.mp ⟨c1, c2⟩
        simp only [c2, Bool.false_eq_true, if_false]
        by_cases c3 : raw.longitude.parseFloat = .nan
        · simp only [c3, if_true]
          refine ⟨trivial, ?_, fun _ _ _ => ⟨raw, hl, hlat⟩⟩
          intro raw' hl' _ _
          rw [hraw raw' hl']
          exact ⟨fun h => absurd h c1, fun _ h => absurd hlat h, fun _ _ => rfl,
            fun _ h => absurd c3 h⟩
        · simp only [c3, if_false]
          by_cases c4 : outside (-180) 180 raw.longitude.parseFloat = true
          · simp only [c4, if_true]
            refine ⟨trivial, ?_, fun _ _ _ => ⟨raw, hl, hlat⟩⟩
            intro raw' hl' _ _
            rw [hraw raw' hl']
            exact ⟨fun h => absurd h c1, fun _ h => absurd hlat h, fun _ h => absurd h c3,
              fun _ _ _ => rfl⟩
          · simp only [c4, Bool.false_eq_true, if_false]
            refine ⟨trivial, ?_, fun _ _ _ => ⟨raw, hl, hlat⟩⟩
            intro raw' hl' _ _
            rw [hraw raw' hl']
            exact ⟨fun h => absurd h c1, fun _ h => absurd hlat h, fun _ h => absurd h c3,
              fun _ _ h => absurd (e2.mp ⟨c3, c4⟩) h⟩

/-- Witness of C24: with latitude 91 and longitude `"east"` the error recorded is
the latitude one. -/
theorem GetLocation_first_failure_witness :
    (GetLocation (fun _ => "91") misplacedMsg { warn := [.noLevels 7] }).2.warn = [.noLevels 7] ∧
      (GetLocation (fun _ => "91") misplacedMsg { warn := [.noLevels 7] }).2.error =
        some ("msg.location.latitude " ++ "91" ++ " is not between -90 and 90 degrees.") :=
  ⟨(GetLocation_first_failure (fun _ => "91") misplacedMsg { warn := [.noLevels 7] }).1,
   ((GetLocation_first_failure (fun _ => "91") misplacedMsg { warn := [.noLevels 7] }).2.1 _ rfl
      (by decide) (by decide)).2.1 (by decide)
      (by
        rintro ⟨q, h, -, h2⟩
        have hq : q = 91 := by
          simp only [Value.parseFloat, Value.ofNumber, Scalar.parseFloat, JSNum.fin.injEq] at h
          exact h.symm
        rw [hq] at h2
        norm_num at h2)⟩

/-- C25: `GetNowOffset` leaves `errors.error` as it was. When `msg.now` is absent it
returns 0 and leaves `errors` as it was; when `msg.now` is present and
`Date.parse` does not read it, it returns 0 and pushes one warning; when
`Date.parse` reads it, it returns the parsed instant minus the instant of the
clock, in milliseconds, and leaves `errors` as it was. -/
theorem GetNowOffset_cases (parse : Value → Option Int) (clock : Int) (msg : Msg)
    (errors : Errors) :
    (GetNowOffset parse clock msg errors).2.error = errors.error ∧
    (msg.now = .scalar .undefined → GetNowOffset parse clock msg errors = (0, errors)) ∧
    (msg.now ≠ .scalar .undefined → parse msg.now = none →
      (GetNowOffset parse clock msg errors).1 = 0 ∧
      (GetNowOffset parse clock msg errors).2.warn = errors.warn ++ [.invalidNow msg.now]) ∧
    (∀ result, msg.now ≠ .scalar .undefined → parse msg.now = some result →
      GetNowOffset parse clock msg errors = (result - clock, errors)) := by
  unfold GetNowOffset
  by_cases h : msg.now = .scalar .undefined
  · simp [h]
  · cases hp : parse msg.now with
    | none => simp [h, Errors.note]
    | some t => simp [h]

/-- Witness of C25: `now: "noon"` gives 0 and one warning; `now:
"2024-10-04T07:00:00.000Z"`, read one hour after that instant, gives -3600000. -/
theorem GetNowOffset_cases_witness :
    ((GetNowOffset plainEnv.parse 1728028800000 badNowMsg {}).1 = 0 ∧
      (GetNowOffset plainEnv.parse 1728028800000 badNowMsg {}).2.warn =
        [] ++ [.invalidNow badNowMsg.now]) ∧
    GetNowOffset plainEnv.parse 1728028800000 nowMsg {} = (1728025200000 - 1728028800000, {}) :=
  ⟨(GetNowOffset_cases plainEnv.parse 1728028800000 badNowMsg {}).2.2.1 (by decide) (by decide),
   (GetNowOffset_cases plainEnv.parse 1728028800000 nowMsg {}).2.2.2 _ (by decide) (by decide)⟩

/-- C21 at `GetLocation` with a missing field: `errors.error` is set, to the text
of the status, and `errors.status` is not assigned: it keeps the status that the
warning of `GetNowOffset` left, or stays unset, where the branch of an invalid
latitude overwrites that status with `msg.location error!`. -/
theorem GetLocation_missing_leaves_status :
    GetNowOffset plainEnv.parse 1728028800000 badNowMsg {} =
        (0, { warn := [.invalidNow (.scalar (.str "noon"))], status := some "msg.now invalid!" }) ∧
      GetLocation plainEnv.quote badNowMsg
          { warn := [.invalidNow (.scalar (.str "noon"))], status := some "msg.now invalid!" } =
        (none,
          { error := some "msg.location error!"
            warn := [.invalidNow (.scalar (.str "noon"))]
            status := some "msg.now invalid!" }) ∧
      GetLocation plainEnv.quote {} {} = (none, { error := some "msg.location error!" }) ∧
      (GetLocation plainEnv.quote misplacedMsg { status := some "msg.now invalid!" }).2.status =
        some "msg.location error!" ∧
      setupAction plainEnv 1728028800000 badNowMsg =
        .failed
          { error := some "msg.location error!"
            warn := [.invalidNow (.scalar (.str "noon"))]
            status := some "msg.now invalid!" } := by
  refine ⟨by decide, by decide, by decide, by decide!, by decide⟩

/-! ## The status under warnings -/

theorem note_status_of_set (errors : Errors) (n : Notice) (h : errors.statusUnset = false) :
    (errors.note n).status = errors.status ∧ (errors.note n).statusUnset = false := by
  have h1 : (errors.note n).status = errors.status := by
    simp [Errors.note, h]
  refine ⟨h1, ?_⟩
  simp only [Errors.statusUnset, h1] at h ⊢
  exact h

theorem foldl_note_status_of_set (ns : List Notice) (errors : Errors)
    (h : errors.statusUnset = false) :
    (ns.foldl Errors.note errors).status = errors.status := by
  induction ns generalizing errors with
  | nil => rfl
  | cons n ns ih =>
    rw [List.foldl_cons, ih _ (note_status_of_set errors n h).2, (note_status_of_set errors n h).1]

theorem foldl_note_status_of_unset (ns : List Notice) (errors : Errors)
    (h : errors.statusUnset = true) (hne : ∀ n ∈ ns, n.status ≠ "") :
    (ns.foldl Errors.note errors).status =
      match ns.head? with
      | some n => some n.status
      | none => errors.status := by
  cases ns with
  | nil => rfl
  | cons n ns =>
    have h1 : (errors.note n).status = some n.status := by simp [Errors.note, h]
    have h2 : (errors.note n).statusUnset = false := by
      simp [Errors.statusUnset, h1, hne n (List.mem_cons_self _ _)]
    rw [List.foldl_cons, foldl_note_status_of_set ns _ h2, h1]
    rfl

theorem fieldNotices_status (fade : RawFade) (index : Nat) (n : Notice)
    (hn : n ∈ GetFades.fieldNotices fade index) : ∃ field, n.status = fieldStatus index field := by
  rw [fieldNotices_eq_flatMap, List.mem_flatMap] at hn
  obtain ⟨j, -, hj⟩ := hn
  simp only [Option.mem_toList, Option.mem_def] at hj
  cases j
  · exact ⟨_, (offset_notice _ _ n hj).2.2⟩
  · exact ⟨_, ((intField_notice _ _ _ _).2 n hj).2.2⟩
  · exact ⟨_, ((floatField_notice _ _ _ _ _).2 n hj).2.2⟩
  · exact ⟨_, ((floatField_notice _ _ _ _ _).2 n hj).2.2⟩
  · exact ⟨_, ((floatField_notice _ _ _ _ _).2 n hj).2.2⟩
  · exact ⟨_, ((intArrayField_notice _ _ _ _).2 n hj).2.2⟩
  · exact ⟨_, ((intArrayField_notice _ _ _ _).2 n hj).2.2⟩
  · exact ⟨_, ((intArrayField_notice _ _ _ _).2 n hj).2.2⟩
  · exact ⟨_, ((hsField_notice _ _).2 n hj).2.2⟩
  · exact ⟨_, ((xyField_notice _ _).2 n hj).2.2⟩

theorem element_status_ne_empty (suntimes : SunTimes) (zone : Zone) (now : Int) (fade : RawFade)
    (index : Nat) (n : Notice) (hn : n ∈ (GetFades.element suntimes zone now fade index).2) :
    n.status ≠ "" := by
  by_cases hacc : fade.TimeAccepted suntimes
  · obtain ⟨time, ht, hk⟩ := hacc
    rcases element_of_time_accepted suntimes zone now fade index time ht hk with
      ⟨-, he⟩ | ⟨-, bT, aT, -, he⟩
    · rw [he] at hn
      rcases List.mem_append.mp hn with hn | hn
      · obtain ⟨f, hf⟩ := fieldNotices_status fade index n hn
        rw [hf]
        exact fieldStatus_ne_empty _ _
      · simp only [List.mem_singleton] at hn
        rw [hn]
        exact elementStatus_ne_empty _
    · rw [he] at hn
      obtain ⟨f, hf⟩ := fieldNotices_status fade index n hn
      rw [hf]
      exact fieldStatus_ne_empty _ _
  · obtain ⟨m, he, hs, -⟩ := element_of_time_rejected suntimes zone now fade index hacc
    rw [he] at hn
    simp only [List.mem_singleton] at hn
    rw [hn, hs]
    exact elementStatus_ne_empty _

theorem notices_status_ne_empty (suntimes : SunTimes) (zone : Zone) (now : Int) (elements : List RawFade)
    (index : Nat) (n : Notice) (hn : n ∈ GetFades.notices suntimes zone now elements index) :
    n.status ≠ "" := by
  induction elements generalizing index with
  | nil => simp [GetFades.notices] at hn
  | cons fade rest ih =>
    rw [GetFades.notices, List.mem_append] at hn
    rcases hn with hn | hn
    · exact element_status_ne_empty suntimes zone now fade index n hn
    · exact ih (index + 1) hn

/-- C22: warnings never overwrite the status. For every call of `GetFades` on an
array `msg.fades` (the calls that set no fatal error) and for every call of
`GetNowOffset`, `errors.error` is left as it was, and `errors.status` is left as
it was when it was set (not empty) on entry; when it was unset on entry it is
the status of the first warning that the call pushes, and it stays as it was
when the call pushes no warning. -/
theorem warnings_keep_status :
    (∀ (msg : Msg) (suntimes : SunTimes) (zone : Zone) (now : Int) (errors : Errors)
        (elements : List RawFade), msg.fades = .array elements →
      (GetFades msg suntimes zone now errors).2.error = errors.error ∧
      (GetFades msg suntimes zone now errors).2.warn =
        errors.warn ++ (GetFades.notices suntimes zone now elements 0).map (fun n => n.warning) ∧
      (errors.statusUnset = false →
        (GetFades msg suntimes zone now errors).2.status = errors.status) ∧
      (errors.statusUnset = true →
        (GetFades msg suntimes zone now errors).2.status =
          match (GetFades.notices suntimes zone now elements 0).head? with
          | some n => some n.status
          | none => errors.status)) ∧
    (∀ (parse : Value → Option Int) (clock : Int) (msg : Msg) (errors : Errors),
      (GetNowOffset parse clock msg errors).2.error = errors.error ∧
      (errors.statusUnset = false →
        (GetNowOffset parse clock msg errors).2.status = errors.status) ∧
      (errors.statusUnset = true →
        (GetNowOffset parse clock msg errors).2.status =
          if (GetNowOffset parse clock msg errors).2.warn = errors.warn then errors.status
          else some "msg.now invalid!")) := by
  constructor
  · intro msg suntimes zone now errors elements hm
    rw [GetFades_of_array msg suntimes zone now elements errors hm]
    obtain ⟨hw, he⟩ := foldl_note_warn (GetFades.notices suntimes zone now elements 0) errors
    refine ⟨he, hw, fun h => foldl_note_status_of_set _ _ h, fun h => ?_⟩
    exact foldl_note_status_of_unset _ _ h
      (fun n hn => notices_status_ne_empty suntimes zone now elements 0 n hn)
  · intro parse clock msg errors
    unfold GetNowOffset
    by_cases h : msg.now = .scalar .undefined
    · simp [h]
    · cases hp : parse msg.now with
      | none =>
        simp only [ne_eq, h, not_false_eq_true, if_true]
        refine ⟨rfl, fun hs => (note_status_of_set errors _ hs).1, fun hs => ?_⟩
        simp [Errors.note, hs]
      | some t => simp [h]

/-- Witness of C22: on `threeEntryMsg`, a status that is set stays and an unset
status becomes that of the first warning, which is about `brightness` of the
element 1. -/
theorem warnings_keep_status_witness :
    (GetFades threeEntryMsg [] 0 1728025200000 { status := some "msg.now invalid!" }).2.status =
        some "msg.now invalid!" ∧
      (GetFades threeEntryMsg [] 0 1728025200000 {}).2.status =
        (match (GetFades.notices [] 0 1728025200000
            [{ time := some "06:00", brightness := Value.ofNumber 100 },
             { time := some "12:00", brightness := Value.ofNumber 300 },
             { time := some "18:00", brightness := Value.ofNumber 200 }] 0).head? with
          | some n => some n.status
          | none => none) ∧
      (GetFades threeEntryMsg [] 0 1728025200000 {}).2.status =
        some "msg.fades[1].brightness is invalid!" :=
  ⟨(warnings_keep_status.1 threeEntryMsg [] 0 1728025200000 { status := some "msg.now invalid!" }
      _ rfl).2.2.1 (by decide),
   (warnings_keep_status.1 threeEntryMsg [] 0 1728025200000 {} _ rfl).2.2.2 (by decide),
   by decide!⟩

/-! ## `IsStaticFade` -/

theorem IsStaticFade_forEach_ne_false (globals : List String) (before after : FadeData)
    (values : List String) (b : Bool) :
    IsStaticFade.forEach globals before after values ≠ .returned (some b) := by
  induction values with
  | nil => simp [IsStaticFade.forEach]
  | cons val rest ih =>
    rw [IsStaticFade.forEach]
    split
    · simp
    · exact ih

/-- C27 fails on the code: `IsStaticFade` never returns `false`. In strict code the
assignment of the undeclared `values` throws, so that the call on `brightness`
100 against `brightness` 200 throws; and where the global object has `values`
and `i`, the callback returns `false` for `brightness` but `forEach` drops that
value and the function returns `true`. -/
theorem IsStaticFade_never_false :
    (∀ globals before after, IsStaticFade globals before after ≠ .returned (some false)) ∧
      IsStaticFade [] dimData brightData = .threw ∧
      IsStaticFade.callback ["values", "i"] dimData brightData "brightness" =
        .returned (some false) ∧
      IsStaticFade ["values", "i"] dimData brightData = .returned (some true) := by
  refine ⟨?_, by decide, by decide, by decide⟩
  intro globals before after
  unfold IsStaticFade
  split
  · split <;> simp
  · simp

/-! ## Bracket selection -/

theorem selectClosest_append (fades : List FadeResult) (vFade : FadeResult) :
    selectClosest (fades ++ [vFade]) = selectClosest.step (selectClosest fades) vFade := by
  simp [selectClosest, List.foldl_append]

/-- Over a list of valid dates that is not empty, `closestBefore` is the element
with the maximum `beforeTime`, the last one in list order among equals. -/
theorem selectClosest_before (fades : List FadeResult) (hne : fades ≠ [])
    (hv : ValidTimes fades) :
    ∃ i f, (selectClosest fades).1 = some f ∧ fades.get? i = some f ∧
      ∀ k h, fades.get? k = some h →
        h.beforeTime ≤ f.beforeTime ∧ (i < k → h.beforeTime < f.beforeTime) := by
  induction fades using List.reverseRecOn with
  | nil => exact absurd rfl hne
  | append_singleton fades vFade ih =>
    have hvF := hv vFade (by simp)
    have hv' : ValidTimes fades := fun f hf => hv f (List.mem_append_left _ hf)
    rw [selectClosest_append]
    by_cases hf : fades = []
    · subst hf
      refine ⟨0, vFade, rfl, rfl, ?_⟩
      intro k h hk
      cases k with
      | zero =>
        simp only [List.nil_append, List.get?_cons_zero, Option.some.injEq] at hk
        subst hk
        exact ⟨JSDate.le_refl_of_isValid hvF.1, fun h0 => absurd h0 (lt_irrefl _)⟩
      | succ k => simp at hk
    · obtain ⟨i, f, hs, hi, hmax⟩ := ih hf hv'
      have hfv := hv' f (List.get?_mem hi)
      have hilt : i < fades.length := by
        rw [List.get?_eq_some] at hi
        exact hi.1
      simp only [selectClosest.step, hs]
      by_cases hle : f.beforeTime ≤ vFade.beforeTime
      · refine ⟨fades.length, vFade, by simp [hle], by simp, ?_⟩
        intro k h hk
        by_cases hk' : k < fades.length
        · rw [List.get?_eq_getElem?, List.getElem?_append_left hk', ← List.get?_eq_getElem?] at hk
          exact ⟨JSDate.le_trans (hmax k h hk).1 hle, fun h0 => absurd hk' (not_lt.mpr (le_of_lt h0))⟩
        · have hk2 : k = fades.length := by
            have := (List.get?_eq_some.mp hk).1
            simp only [List.length_append, List.length_singleton] at this
            omega
          subst hk2
          simp only [List.get?_eq_getElem?, List.getElem?_concat_length, Option.some.injEq] at hk
          subst hk
          exact ⟨JSDate.le_refl_of_isValid hvF.1, fun h0 => absurd h0 (lt_irrefl _)⟩
      · refine ⟨i, f, by simp [hle], ?_, ?_⟩
        · rw [List.get?_eq_getElem?, List.getElem?_append_left hilt, ← List.get?_eq_getElem?]
          exact hi
        · intro k h hk
          by_cases hk' : k < fades.length
          · rw [List.get?_eq_getElem?, List.getElem?_append_left hk', ← List.get?_eq_getElem?] at hk
            exact hmax k h hk
          · have hk2 : k = fades.length := by
              have := (List.get?_eq_some.mp hk).1
              simp only [List.length_append, List.length_singleton] at this
              omega
            subst hk2
            simp only [List.get?_eq_getElem?, List.getElem?_concat_length, Option.some.injEq] at hk
            subst hk
            have : vFade.beforeTime < f.beforeTime := JSDate.lt_of_not_le hfv.1 hvF.1 hle
            exact ⟨JSDate.le_of_lt this, fun _ => this⟩

/-- Over a list of valid dates that is not empty, `closestAfter` is the element
with the minimum `afterTime`, the first one in list order among equals. -/
theorem selectClosest_after (fades : List FadeResult) (hne : fades ≠ [])
    (hv : ValidTimes fades) :
    ∃ j g, (selectClosest fades).2 = some g ∧ fades.get? j = some g ∧
      ∀ k h, fades.get? k = some h →
        g.afterTime ≤ h.afterTime ∧ (k < j → g.afterTime < h.afterTime) := by
  induction fades using List.reverseRecOn with
  | nil => exact absurd rfl hne
  | append_singleton fades vFade ih =>
    have hvF := hv vFade (by simp)
    have hv' : ValidTimes fades := fun f hf => hv f (List.mem_append_left _ hf)
    rw [selectClosest_append]
    by_cases hf : fades = []
    · subst hf
      refine ⟨0, vFade, rfl, rfl, ?_⟩
      intro k h hk
      cases k with
      | zero =>
        simp only [List.nil_append, List.get?_cons_zero, Option.some.injEq] at hk
        subst hk
        exact ⟨JSDate.le_refl_of_isValid hvF.2, fun h0 => absurd h0 (lt_irrefl _)⟩
      | succ k => simp at hk
    · obtain ⟨j, g, hs, hj, hmin⟩ := ih hf hv'
      have hgv := hv' g (List.get?_mem hj)
      have hjlt : j < fades.length := by
        rw [List.get?_eq_some] at hj
        exact hj.1
      simp only [selectClosest.step, hs]
      by_cases hgt : g.afterTime > vFade.afterTime
      · refine ⟨fades.length, vFade, by simp [hgt], by simp, ?_⟩
        intro k h hk
        by_cases hk' : k < fades.length
        · rw [List.get?_eq_getElem?, List.getElem?_append_left hk', ← List.get?_eq_getElem?] at hk
          have := (hmin k h hk).1
          exact ⟨JSDate.le_of_lt (JSDate.lt_of_lt_of_le hgt this),
            fun _ => JSDate.lt_of_lt_of_le hgt this⟩
        · have hk2 : k = fades.length := by
            have := (List.get?_eq_some.mp hk).1
            simp only [List.length_append, List.length_singleton] at this
            omega
          subst hk2
          simp only [List.get?_eq_getElem?, List.getElem?_concat_length, Option.some.injEq] at hk
          subst hk
          exact ⟨JSDate.le_refl_of_isValid hvF.2, fun h0 => absurd h0 (lt_irrefl _)⟩
      · refine ⟨j, g, by simp [hgt], ?_, ?_⟩
        · rw [List.get?_eq_getElem?, List.getElem?_append_left hjlt, ← List.get?_eq_getElem?]
          exact hj
        · intro k h hk
          by_cases hk' : k < fades.length
          · rw [List.get?_eq_getElem?, List.getElem?_append_left hk', ← List.get?_eq_getElem?] at hk
            exact hmin k h hk
          · have hk2 : k = fades.length := by
              have := (List.get?_eq_some.mp hk).1
              simp only [List.length_append, List.length_singleton] at this
              omega
            subst hk2
            simp only [List.get?_eq_getElem?, List.getElem?_concat_length, Option.some.injEq] at hk
            subst hk
            exact ⟨JSDate.le_of_not_lt hvF.2 hgv.2 hgt,
              fun h0 => absurd h0 (not_lt.mpr (le_of_lt hjlt))⟩

theorem setupAction_ready (env : Env) (clock : Int) (msg : Msg) (result : SetupResult)
    (errors : Errors) (h : setupAction env clock msg = .ready result errors) :
    ∃ fades, result.fades = some fades ∧ 2 ≤ fades.length ∧
      result.closestBefore = (selectClosest fades).1 ∧
      result.closestAfter = (selectClosest fades).2 := by
  unfold setupAction at h
  simp only at h
  split at h
  · cases h
  · split at h
    · cases h
    · split at h
      · cases h
      · split at h
        · cases h
        · rename_i fades' errors' heq
          split at h
          · cases h
          · split at h
            · cases h
            · rename_i fades
              simp only [Setup.ready.injEq] at h
              obtain ⟨rfl, -⟩ := h
              obtain ⟨elements, -, -, hlen, -⟩ := GetFades_returned _ _ _ _ _ _ _ heq
              exact ⟨_, rfl, hlen, rfl, rfl⟩

theorem emit_setup (node : Node) (validated : Validated) (msg : Msg) :
    (recurringAction.emit node validated msg).validated.toSetupResult = validated.toSetupResult ∧
      (recurringAction.emit node validated msg).validated.topic = validated.topic := by
  unfold recurringAction.emit
  split
  · split
    · split
      · split <;> exact ⟨rfl, rfl⟩
      · exact ⟨rfl, rfl⟩
    · exact ⟨rfl, rfl⟩
  · exact ⟨rfl, rfl⟩

theorem GetFades_returned_error (msg : Msg) (suntimes : SunTimes) (zone : Zone) (now : Int)
    (errors errors' : Errors) (L : List FadeResult)
    (h : GetFades msg suntimes zone now errors = (.returned (some L), errors')) :
    errors'.error = errors.error := by
  obtain ⟨elements, -, -, -, rfl⟩ := GetFades_returned msg suntimes zone now errors errors' L h
  exact (foldl_note_warn _ _).2

theorem recurringAction_reselect (env : Env) (clock : Int) (node : Node) (validated : Validated)
    (msg : Msg)
    (hout : recurringAction.outside
      { validated with now := recurringAction.now env clock validated }
      (recurringAction.now env clock validated) = true)
    (fades : List FadeResult)
    (hf : (recurringAction env clock node validated msg).validated.fades = some fades) :
    (recurringAction env clock node validated msg).validated.closestBefore =
        (selectClosest fades).1 ∧
      (recurringAction env clock node validated msg).validated.closestAfter =
        (selectClosest fades).2 := by
  unfold recurringAction at hf ⊢
  simp only [hout, if_true] at hf ⊢
  generalize hg : GetFades msg
    (env.getTimes (recurringAction.now env clock validated) validated.location.latitude
      validated.location.longitude) env.zone (recurringAction.now env clock validated) {} = res
    at hf ⊢
  obtain ⟨completion, errors'⟩ := res
  cases completion with
  | threw => simp at hf
  | returned fades' =>
    simp only at hf ⊢
    by_cases herr : errors'.error.isSome = true
    · simp only [herr, if_true] at hf
      subst hf
      have := GetFades_returned_error _ _ _ _ _ _ _ hg
      rw [this] at herr
      simp at herr
    · simp only [herr, Bool.false_eq_true, if_false] at hf ⊢
      cases fades' with
      | none => simp at hf
      | some L =>
        simp only at hf ⊢
        have hs := (emit_setup node
          { validated with
            now := recurringAction.now env clock validated
            suntimes := some (env.getTimes (recurringAction.now env clock validated)
              validated.location.latitude validated.location.longitude)
            fades := some L
            closestBefore := (selectClosest L).1
            closestAfter := (selectClosest L).2 } msg).1
        have hfl : (recurringAction.emit node
          { validated with
            now := recurringAction.now env clock validated
            suntimes := some (env.getTimes (recurringAction.now env clock validated)
              validated.location.latitude validated.location.longitude)
            fades := some L
            closestBefore := (selectClosest L).1
            closestAfter := (selectClosest L).2 } msg).validated.fades = some L :=
          congrArg SetupResult.fades hs
        rw [hfl] at hf
        cases hf
        exact ⟨congrArg SetupResult.closestBefore hs, congrArg SetupResult.closestAfter hs⟩

/-- C26: on `polarMsg`, with the named instants of latitude 89, `setupAction`
selects over the list that `GetFades` returns, whose first element `sunrise` has
Invalid Dates for its times. Every comparison with an Invalid Date is false, so
the first element stays selected for both brackets: `closestBefore` is not the
element with the maximum `beforeTime` (that of `solarNoon` is not `<=` its own)
and `closestAfter` is not the element with the minimum `afterTime`. -/
theorem setupAction_selects_invalid_date :
    setupAction polarEnv 1728025200000 polarMsg = .ready polarSetup {} ∧
    polarSetup.fades = some [polarSunrise, polarNoon] ∧
    selectClosest [polarSunrise, polarNoon] = (some polarSunrise, some polarSunrise) ∧
    polarSetup.closestBefore = some polarSunrise ∧
    polarSetup.closestAfter = some polarSunrise ∧
    ¬ (polarNoon.beforeTime ≤ polarSunrise.beforeTime) ∧
    ¬ (polarSunrise.afterTime ≤ polarNoon.afterTime) := by
  refine ⟨by decide!, rfl, by decide, rfl, rfl, by decide, by decide⟩

/-! ## The recurring tick -/

theorem lastDataEqual_eq_false_iff (vData : FadeData) (last : Option FadeData) :
    lastDataEqual vData last = false ↔
      last = none ∨ ∃ lastData, last = some lastData ∧
        ∃ key ∈ vData.keys, vData.get key ≠ lastData.get key := by
  cases last with
  | none => simp [lastDataEqual]
  | some lastData =>
    simp only [lastDataEqual, reduceCtorEq, Option.some.injEq, exists_eq_left', false_or]
    rw [← Bool.not_eq_true, List.all_eq_true]
    simp only [decide_eq_true_eq, not_forall, exists_prop]

theorem emit_of_value (node : Node) (v : Validated) (msg : Msg) (before after : FadeResult)
    (vData : FadeData) (he : node.enabled.lookup v.topic = some true)
    (hb : v.closestBefore = some before) (ha : v.closestAfter = some after)
    (hv : Fade before after v.now = some vData) :
    recurringAction.emit node v msg =
      if lastDataEqual vData v.lastData = true then { validated := v }
      else
        { validated := { v with lastData := some vData }
          sent := [.adaptive msg vData (some 5)] } := by
  unfold recurringAction.emit
  simp only [he, if_true, hb, ha, hv]
  cases lastDataEqual vData v.lastData
  · simp only [Bool.not_false, if_true, Bool.false_eq_true, if_false]
    norm_num
  · simp

theorem recurringAction_eq_emit (env : Env) (clock : Int) (node : Node) (validated : Validated)
    (msg : Msg) (vData : FadeData)
    (hv : (recurringAction env clock node validated msg).vData = some vData) :
    ∃ v : Validated, recurringAction env clock node validated msg = recurringAction.emit node v msg ∧
      v.lastData = validated.lastData ∧ v.topic = validated.topic := by
  unfold recurringAction at hv ⊢
  simp only at hv ⊢
  split at hv
  · rename_i hout
    simp only [hout, if_true]
    generalize GetFades msg
      (env.getTimes (recurringAction.now env clock validated) validated.location.latitude
        validated.location.longitude) env.zone (recurringAction.now env clock validated) {} = res
      at hv ⊢
    obtain ⟨completion, errors'⟩ := res
    cases completion with
    | threw => simp [Tick.vData] at hv
    | returned fades' =>
      simp only at hv ⊢
      by_cases herr : errors'.error.isSome = true
      · simp [herr, Tick.vData] at hv
      · simp only [herr, Bool.false_eq_true, if_false] at hv ⊢
        cases fades' with
        | none => simp [Tick.vData] at hv
        | some L => exact ⟨_, rfl, rfl, rfl⟩
  · rename_i hout
    simp only [hout, Bool.false_eq_true, if_false]
    exact ⟨_, rfl, rfl, rfl⟩

/-- C28 (as amended): on a recurring tick of an enabled channel that computes a
value set `vData`, a message is sent exactly when there is no `lastData` yet or
some attribute of `vData` has a value that is not equal to the value of that
attribute in `lastData` (an attribute that `lastData` lacks counts as not
equal; the attributes that only `lastData` has are not compared). The message
sent carries `vData`, and `lastData` becomes `vData`; when no message is sent,
`lastData` is left as it was. -/
theorem recurringAction_sends_iff (env : Env) (clock : Int) (node : Node) (validated : Validated)
    (msg : Msg) (vData : FadeData)
    (henabled : node.enabled.lookup validated.topic = some true)
    (hv : (recurringAction env clock node validated msg).vData = some vData) :
    ((recurringAction env clock node validated msg).sent ≠ [] ↔
      (validated.lastData = none ∨ ∃ lastData, validated.lastData = some lastData ∧
        ∃ key ∈ vData.keys, vData.get key ≠ lastData.get key)) ∧
    ((recurringAction env clock node validated msg).sent ≠ [] →
      (recurringAction env clock node validated msg).sent = [.adaptive msg vData (some 5)] ∧
      (recurringAction env clock node validated msg).validated.lastData = some vData) ∧
    ((recurringAction env clock node validated msg).sent = [] →
      (recurringAction env clock node validated msg).validated.lastData = validated.lastData) := by
  obtain ⟨v, hr, hl, ht⟩ := recurringAction_eq_emit env clock node validated msg vData hv
  rw [hr] at hv ⊢
  have hsetup := (emit_setup node v msg).1
  have hvd : ∃ before after, v.closestBefore = some before ∧ v.closestAfter = some after ∧
      Fade before after v.now = some vData := by
    simp only [Tick.vData] at hv
    rw [congrArg SetupResult.closestBefore hsetup, congrArg SetupResult.closestAfter hsetup,
      congrArg SetupResult.now hsetup] at hv
    cases hb : v.closestBefore with
    | none => simp [hb] at hv
    | some before =>
      cases ha : v.closestAfter with
      | none => simp [hb, ha] at hv
      | some after =>
        simp only [hb, ha] at hv
        exact ⟨before, after, rfl, rfl, hv⟩
  obtain ⟨before, after, hb, ha, hf⟩ := hvd
  rw [emit_of_value node v msg before after vData (by rw [ht]; exact henabled) hb ha hf]
  rw [← lastDataEqual_eq_false_iff, ← hl]
  cases lastDataEqual vData v.lastData <;> simp

/-- Witness of C28: the tick of 08:00 on `lampNode` computes `brightness` 117
where `lastData` holds 108, and sends it. -/
theorem recurringAction_sends_iff_witness :
    lampNode.topics = [("lamp", ⟨lampValidated, lampMsg⟩)] ∧
      (recurringAction plainEnv 1728028800000 lampNode lampValidated lampMsg).sent =
        [.adaptive lampMsg { brightness := some (.fin 117) } (some 5)] ∧
      (recurringAction plainEnv 1728028800000 lampNode lampValidated lampMsg).validated.lastData =
        some { brightness := some (.fin 117) } :=
  ⟨by decide!,
   (recurringAction_sends_iff plainEnv 1728028800000 lampNode lampValidated lampMsg
      { brightness := some (.fin 117) } (by decide!) (by decide!)).2.1 (by decide!)⟩

/-- Counterexample to C28 as stated: after the input handler has run on `shiftMsg`
at 07:00, `lastData` is `{brightness: 100, color_temp: 300}`. The tick of 13:00
selects the anchors of 12:00 and 18:00 and computes `{brightness: 100}`, which is
not equal to `lastData`, and sends no message. -/
theorem recurringAction_suppresses_changed_set :
    shiftNode.enabled.lookup "lamp" = some true ∧
      shiftNode.topics.map (fun entry => (entry.1, entry.2.validated.lastData)) =
        [("lamp", some { brightness := some (.fin 100), color_temp := some (.fin 300) })] ∧
      (tick plainEnv 1728046800000 shiftNode "lamp").map
          (fun r => (r.sent, r.threw, r.vData, r.validated.lastData)) =
        some ([], false, some { brightness := some (.fin 100) },
          some { brightness := some (.fin 100), color_temp := some (.fin 300) }) ∧
      ({ brightness := some (.fin 100) } : FadeData) ≠
        { brightness := some (.fin 100), color_temp := some (.fin 300) } := by
  refine ⟨by decide!, by decide!, by decide!, by decide⟩

/-! ## The input handler -/

theorem lookup_cons_eq {α : Type} (key k : String) (v : α) (rest : List (String × α)) :
    List.lookup key ((k, v) :: rest) = if key = k then some v else List.lookup key rest := by
  by_cases h : key = k
  · subst h
    simp [List.lookup]
  · have hb : (key == k) = false := by simpa using h
    simp [List.lookup, hb, h]

theorem lookup_map_assign {α : Type} (table : List (String × α)) (key : String) (value : α)
    (h : (table.lookup key).isSome = true) :
    (table.map fun entry => if entry.1 = key then (key, value) else entry).lookup key =
      some value := by
  induction table with
  | nil => simp at h
  | cons entry rest ih =>
    obtain ⟨k, v⟩ := entry
    rw [List.map_cons]
    by_cases hk : k = key
    · rw [if_pos hk, lookup_cons_eq, if_pos rfl]
    · rw [if_neg hk, lookup_cons_eq, if_neg (fun h' => hk h'.symm)]
      rw [lookup_cons_eq, if_neg (fun h' => hk h'.symm)] at h
      exact ih h

theorem lookup_append_assign {α : Type} (table : List (String × α)) (key : String) (value : α)
    (h : table.lookup key = none) : (table ++ [(key, value)]).lookup key = some value := by
  induction table with
  | nil => rw [List.nil_append, lookup_cons_eq, if_pos rfl]
  | cons entry rest ih =>
    obtain ⟨k, v⟩ := entry
    rw [lookup_cons_eq] at h
    rw [List.cons_append, lookup_cons_eq]
    by_cases hk : key = k
    · rw [if_pos hk] at h
      cases h
    · rw [if_neg hk] at h ⊢
      exact ih h

theorem lookup_assign {α : Type} (table : List (String × α)) (key : String) (value : α) :
    (assign table key value).lookup key = some value := by
  unfold assign
  split
  · rename_i h
    exact lookup_map_assign table key value h
  · rename_i h
    refine lookup_append_assign table key value ?_
    cases hl : table.lookup key with
    | none => rfl
    | some x => simp [hl] at h

theorem lookup_map_of_ne {α : Type} (table : List (String × α)) (key other : String)
    (value : α) (hne : other ≠ key) :
    (table.map fun entry => if entry.1 = key then (key, value) else entry).lookup other =
      table.lookup other := by
  induction table with
  | nil => rfl
  | cons entry rest ih =>
    obtain ⟨k, v⟩ := entry
    rw [List.map_cons]
    by_cases hk : k = key
    · rw [if_pos hk, lookup_cons_eq, lookup_cons_eq, if_neg hne, if_neg (by rw [hk]; exact hne)]
      exact ih
    · rw [if_neg hk, lookup_cons_eq, lookup_cons_eq, ih]

theorem lookup_append_of_ne {α : Type} (table : List (String × α)) (key other : String)
    (value : α) (hne : other ≠ key) :
    (table ++ [(key, value)]).lookup other = table.lookup other := by
  induction table with
  | nil => rw [List.nil_append, lookup_cons_eq, if_neg hne]
  | cons entry rest ih =>
    obtain ⟨k, v⟩ := entry
    rw [List.cons_append, lookup_cons_eq, lookup_cons_eq, ih]

theorem lookup_assign_of_ne {α : Type} (table : List (String × α)) (key other : String)
    (value : α) (hne : other ≠ key) :
    (assign table key value).lookup other = table.lookup other := by
  unfold assign
  split
  · exact lookup_map_of_ne table key other value hne
  · exact lookup_append_of_ne table key other value hne

theorem input_of_failed_setup (env : Env) (clock : Int) (node : Node) (msg : Msg)
    (ha : (SwitchOn msg).activate = some true)
    (hs : ∀ result errors, setupAction env clock msg ≠ .ready result errors) :
    (input env clock node msg).node = input.enabled node (SwitchOn msg) ∧
      (input env clock node msg).sent = [] := by
  unfold input
  simp only [ha]
  cases h : setupAction env clock msg with
  | threw => exact ⟨rfl, rfl⟩
  | failed errors => exact ⟨rfl, rfl⟩
  | ready result errors => exact absurd h (hs result errors)

/-- C29 (as amended): when the validation of an activating message does not
complete (`setupAction` ends with a fatal error, or throws), the input handler
sends no message and leaves `node.topics` as it was. `node.enabled` has been
updated before the validation: the entry of the topic is the flag of the
message when it carries `alx_enabled`, it is `true` when the message carries no
flag and the topic had no entry, and otherwise `node.enabled` is as it was; the
entries of the other topics are as they were. -/
theorem input_fatal_error_frame (env : Env) (clock : Int) (node : Node) (msg : Msg)
    (ha : (SwitchOn msg).activate = some true)
    (hs : ∀ result errors, setupAction env clock msg ≠ .ready result errors) :
    (input env clock node msg).node.topics = node.topics ∧
    (input env clock node msg).sent = [] ∧
    (∀ enabled, (SwitchOn msg).enabled = some enabled →
      (input env clock node msg).node.enabled.lookup (SwitchOn msg).topic = some enabled) ∧
    ((SwitchOn msg).enabled = none → node.enabled.lookup (SwitchOn msg).topic = none →
      (input env clock node msg).node.enabled.lookup (SwitchOn msg).topic = some true) ∧
    ((SwitchOn msg).enabled = none → (node.enabled.lookup (SwitchOn msg).topic).isSome = true →
      (input env clock node msg).node.enabled = node.enabled) ∧
    (∀ other, other ≠ (SwitchOn msg).topic →
      (input env clock node msg).node.enabled.lookup other = node.enabled.lookup other) := by
  obtain ⟨hn, hsent⟩ := input_of_failed_setup env clock node msg ha hs
  rw [hn]
  refine ⟨?_, hsent, ?_, ?_, ?_, ?_⟩
  · unfold input.enabled
    split
    · rfl
    · split <;> rfl
  · intro enabled he
    simp only [input.enabled, he]
    exact lookup_assign _ _ _
  · intro he hl
    simp only [input.enabled, he, hl, Option.isSome_none, Bool.false_eq_true, if_false]
    exact lookup_assign _ _ _
  · intro he hl
    simp only [input.enabled, he, hl, if_true]
  · intro other hne
    unfold input.enabled
    split
    · exact lookup_assign_of_ne _ _ _ _ hne
    · split
      · rfl
      · exact lookup_assign_of_ne _ _ _ _ hne

theorem flaggedMsg_fails :
    setupAction plainEnv 1728025200000 flaggedMsg = .failed { error := some "msg.location error!" } := by
  decide

/-- Witness of C29: `flaggedMsg` has no location, so that its validation fails;
the handler leaves the timers alone and has set the entry of `lamp` in
`node.enabled` to the flag of the message. -/
theorem input_fatal_error_frame_witness :
    (input plainEnv 1728025200000 lampNode flaggedMsg).node.topics = lampNode.topics ∧
      (input plainEnv 1728025200000 lampNode flaggedMsg).sent = [] ∧
      (input plainEnv 1728025200000 lampNode flaggedMsg).node.enabled.lookup
        (SwitchOn flaggedMsg).topic = some false :=
  ⟨(input_fatal_error_frame plainEnv 1728025200000 lampNode flaggedMsg (by decide)
      (fun _ _ h => by rw [flaggedMsg_fails] at h; cases h)).1,
   (input_fatal_error_frame plainEnv 1728025200000 lampNode flaggedMsg (by decide)
      (fun _ _ h => by rw [flaggedMsg_fails] at h; cases h)).2.1,
   (input_fatal_error_frame plainEnv 1728025200000 lampNode flaggedMsg (by decide)
      (fun _ _ h => by rw [flaggedMsg_fails] at h; cases h)).2.2.1 false (by decide)⟩

/-- Counterexample to C29 as stated: the validation of `flaggedMsg` ends in the
fatal error of `GetLocation`, and the handler has changed `node.enabled["lamp"]`
from `true` to `false`; on `turnOnMsg`, which carries no flag and fails in the
same way, a node without an entry for `lamp` gets the entry `true`. -/
theorem input_fatal_error_changes_enabled :
    (SwitchOn flaggedMsg).activate = some true ∧
      setupAction plainEnv 1728025200000 flaggedMsg =
        .failed { error := some "msg.location error!" } ∧
      lampNode.enabled.lookup "lamp" = some true ∧
      (input plainEnv 1728025200000 lampNode flaggedMsg).node.enabled.lookup "lamp" =
        some false ∧
      (input plainEnv 1728025200000 {} turnOnMsg).node.enabled.lookup "lamp" = some true := by
  refine ⟨by decide, by decide, by decide!, by decide!, by decide⟩

/-! ## The order of the warnings -/

theorem fieldNotices_index (fade : RawFade) (index : Nat) (n : Notice)
    (hn : n ∈ GetFades.fieldNotices fade index) : n.warning.index = some index := by
  rw [fieldNotices_eq_flatMap, List.mem_flatMap] at hn
  obtain ⟨j, -, hj⟩ := hn
  simp only [Option.mem_toList, Option.mem_def] at hj
  cases j
  · exact (offset_notice _ _ n hj).2.1
  · exact ((intField_notice _ _ _ _).2 n hj).2.1
  · exact ((floatField_notice _ _ _ _ _).2 n hj).2.1
  · exact ((floatField_notice _ _ _ _ _).2 n hj).2.1
  · exact ((floatField_notice _ _ _ _ _).2 n hj).2.1
  · exact ((intArrayField_notice _ _ _ _).2 n hj).2.1
  · exact ((intArrayField_notice _ _ _ _).2 n hj).2.1
  · exact ((intArrayField_notice _ _ _ _).2 n hj).2.1
  · exact ((hsField_notice _ _).2 n hj).2.1
  · exact ((xyField_notice _ _).2 n hj).2.1

theorem element_notice_index (suntimes : SunTimes) (zone : Zone) (now : Int) (fade : RawFade)
    (index : Nat) (n : Notice) (hn : n ∈ (GetFades.element suntimes zone now fade index).2) :
    n.warning.index = some index := by
  by_cases hacc : fade.TimeAccepted suntimes
  · obtain ⟨time, ht, hk⟩ := hacc
    rcases element_of_time_accepted suntimes zone now fade index time ht hk with
      ⟨-, he⟩ | ⟨-, bT, aT, -, he⟩
    · rw [he] at hn
      rcases List.mem_append.mp hn with hn | hn
      · exact fieldNotices_index fade index n hn
      · simp only [List.mem_singleton] at hn
        rw [hn]
        rfl
    · rw [he] at hn
      exact fieldNotices_index fade index n hn
  · obtain ⟨m, he, -, hw⟩ := element_of_time_rejected suntimes zone now fade index hacc
    rw [he] at hn
    simp only [List.mem_singleton] at hn
    rw [hn]
    rcases hw with hw | ⟨t, hw⟩ <;> rw [hw] <;> rfl

theorem notices_index_ge (suntimes : SunTimes) (zone : Zone) (now : Int) (elements : List RawFade)
    (index : Nat) (n : Notice) (hn : n ∈ GetFades.notices suntimes zone now elements index) :
    ∃ i, n.warning.index = some i ∧ index ≤ i := by
  induction elements generalizing index with
  | nil => simp [GetFades.notices] at hn
  | cons fade rest ih =>
    rw [GetFades.notices, List.mem_append] at hn
    rcases hn with hn | hn
    · exact ⟨index, element_notice_index suntimes zone now fade index n hn, le_refl _⟩
    · obtain ⟨i, hi, hle⟩ := ih (index + 1) hn
      exact ⟨i, hi, by omega⟩

theorem notices_sorted (suntimes : SunTimes) (zone : Zone) (now : Int) (elements : List RawFade)
    (index : Nat) :
    (GetFades.notices suntimes zone now elements index).Pairwise
      (fun m n => ∃ i j, m.warning.index = some i ∧ n.warning.index = some j ∧ i ≤ j) := by
  induction elements generalizing index with
  | nil => simp [GetFades.notices]
  | cons fade rest ih =>
    rw [GetFades.notices, List.pairwise_append]
    refine ⟨?_, ih (index + 1), ?_⟩
    · rw [List.pairwise_iff_forall_sublist]
      intro m n hs
      have hm : m ∈ (GetFades.element suntimes zone now fade index).2 := hs.subset (by simp)
      have hn : n ∈ (GetFades.element suntimes zone now fade index).2 := hs.subset (by simp)
      exact ⟨index, index, element_notice_index _ _ _ _ _ m hm,
        element_notice_index _ _ _ _ _ n hn, le_refl _⟩
    · intro m hm n hn
      obtain ⟨j, hj, hle⟩ := notices_index_ge suntimes zone now rest (index + 1) n hn
      exact ⟨index, j, element_notice_index _ _ _ _ _ m hm, hj, by omega⟩

theorem GetLocation_warn (quote : Value → String) (msg : Msg) (errors : Errors) :
    (GetLocation quote msg errors).2.warn = errors.warn := by
  by_cases hm : ∀ raw, msg.location = some raw →
      raw.latitude = .scalar .undefined ∨ raw.longitude = .scalar .undefined
  · rw [GetLocation_missing quote msg errors hm]
  · push_neg at hm
    obtain ⟨raw, hl, h1, h2⟩ := hm
    rw [GetLocation_present quote msg errors raw hl h1 h2]
    split_ifs <;> rfl

/-- C33: warnings are only appended. After a call of `GetFades`, of `GetNowOffset`
or of `GetLocation`, `errors.warn` is what it was on entry followed by the
warnings that the call added (none for `GetLocation`); the warnings that
`GetFades` added each concern an element of `msg.fades`, and a warning never
comes before a warning about an element of smaller index. -/
theorem warnings_append_only :
    (∀ (msg : Msg) (suntimes : SunTimes) (zone : Zone) (now : Int) (errors : Errors),
      ∃ added : List Warning,
        (GetFades msg suntimes zone now errors).2.warn = errors.warn ++ added ∧
        added.Pairwise
          (fun v w => ∃ i j, v.index = some i ∧ w.index = some j ∧ i ≤ j) ∧
        ∀ w ∈ added, ∃ i, w.index = some i) ∧
    (∀ (parse : Value → Option Int) (clock : Int) (msg : Msg) (errors : Errors),
      ∃ added : List Warning,
        (GetNowOffset parse clock msg errors).2.warn = errors.warn ++ added) ∧
    (∀ (quote : Value → String) (msg : Msg) (errors : Errors),
      (GetLocation quote msg errors).2.warn = errors.warn) := by
  refine ⟨?_, ?_, ?_⟩
  · intro msg suntimes zone now errors
    cases hm : msg.fades with
    | absent => exact ⟨[], by simp [GetFades, hm], List.Pairwise.nil, by simp⟩
    | notArray => exact ⟨[], by simp [GetFades, hm], List.Pairwise.nil, by simp⟩
    | array elements =>
      rw [GetFades_of_array msg suntimes zone now elements errors hm]
      refine ⟨(GetFades.notices suntimes zone now elements 0).map (fun n => n.warning),
        (foldl_note_warn _ _).1, ?_, ?_⟩
      · rw [List.pairwise_map]
        exact notices_sorted suntimes zone now elements 0
      · intro w hw
        obtain ⟨n, hn, rfl⟩ := List.mem_map.mp hw
        obtain ⟨i, hi, -⟩ := notices_index_ge suntimes zone now elements 0 n hn
        exact ⟨i, hi⟩
  · intro parse clock msg errors
    unfold GetNowOffset
    by_cases h : msg.now = .scalar .undefined
    · exact ⟨[], by simp [h]⟩
    · cases hp : parse msg.now with
      | none => exact ⟨[.invalidNow msg.now], by simp [h, Errors.note]⟩
      | some t => exact ⟨[], by simp [h]⟩
  · intro quote msg errors
    exact GetLocation_warn quote msg errors

/-- Witness of C33: on `threeEntryMsg`, after a warning of `GetNowOffset`, `GetFades`
adds the two warnings about the element 1 behind it. -/
theorem warnings_append_only_witness :
    (GetFades threeEntryMsg [] 0 1728025200000
        { warn := [.invalidNow (.scalar (.str "noon"))] }).2.warn =
      [.invalidNow (.scalar (.str "noon"))] ++
        [.outOfRange 1 .brightness (Value.ofNumber 300), .noLevels 1] ∧
    ∃ added : List Warning,
      (GetFades threeEntryMsg [] 0 1728025200000
          { warn := [.invalidNow (.scalar (.str "noon"))] }).2.warn =
        [.invalidNow (.scalar (.str "noon"))] ++ added ∧
      added.Pairwise (fun v w => ∃ i j, v.index = some i ∧ w.index = some j ∧ i ≤ j) ∧
      ∀ w ∈ added, ∃ i, w.index = some i :=
  ⟨by decide!,
   warnings_append_only.1 threeEntryMsg [] 0 1728025200000
     { warn := [.invalidNow (.scalar (.str "noon"))] }⟩

/-! ## The components of `hs_color` and `xy_color` -/

theorem map_parseFloat_of_components (xs : List Scalar) (vs : List ℚ)
    (hf : List.Forall₂ (fun (x : Scalar) (v : ℚ) => finiteWithin 0 MAX_XY x.parseFloat = some v)
      xs vs) :
    xs.map Scalar.parseFloat = vs.map JSNum.fin := by
  induction hf with
  | nil => rfl
  | cons hx _ ih =>
    rw [List.map_cons, List.map_cons, ih, ((finiteWithin_eq_some_iff _ _ _ _).mp hx).1]

theorem colorsParsedFrom_of_validated (suntimes : SunTimes) (zone : Zone) (now : Int) (fade : RawFade)
    (f : FadeResult) (h : GetFades.validated suntimes zone now fade = some f) :
    f.ColorsParsedFrom fade := by
  have hsome : (GetFades.element suntimes zone now fade 0).1.isSome = true := by
    rw [show (GetFades.element suntimes zone now fade 0).1 = some f from h]
    rfl
  obtain ⟨⟨time, ht, hk⟩, -⟩ := (element_isSome_iff suntimes zone now fade 0).mp hsome
  rcases element_of_time_accepted suntimes zone now fade 0 time ht hk with
    ⟨-, he⟩ | ⟨-, bT, aT, -, he⟩
  · rw [GetFades.validated, he] at h
    cases h
  · rw [GetFades.validated, he] at h
    simp only [Option.some.injEq] at h
    subst h
    constructor
    · intro vs hvs
      obtain ⟨h, s, vh, vsat, hv, h1, h2, rfl⟩ := (hsField_eq_some_iff _ _ vs).mp hvs
      refine ⟨h, s, hv, ?_⟩
      rw [((finiteWithin_eq_some_iff _ _ _ _).mp h1).1, ((finiteWithin_eq_some_iff _ _ _ _).mp h2).1]
      rfl
    · intro vs hvs
      obtain ⟨xs, hv, -, hc⟩ := (xyField_eq_some_iff _ _ vs).mp hvs
      refine ⟨xs, hv, ?_⟩
      exact map_parseFloat_of_components xs vs ((components_eq_some_iff xs vs).mp hc)

/-- In every element of a list that `GetFades` returns, the components of
`hs_color` and `xy_color` are the numbers that `parseFloat` reads in the input,
without truncation or rounding. -/
theorem GetFades_keeps_color_components (msg : Msg) (suntimes : SunTimes) (zone : Zone)
    (now : Int) (errors errors' : Errors) (L : List FadeResult)
    (h : GetFades msg suntimes zone now errors = (.returned (some L), errors')) :
    ∃ elements, msg.fades = .array elements ∧
      ∀ f ∈ L, ∃ fade ∈ elements,
        GetFades.validated suntimes zone now fade = some f ∧ f.ColorsParsedFrom fade := by
  obtain ⟨elements, hm, rfl, -, -⟩ := GetFades_returned msg suntimes zone now errors errors' L h
  refine ⟨elements, hm, ?_⟩
  intro f hf
  obtain ⟨fade, hmem, hv⟩ := List.mem_filterMap.mp hf
  exact ⟨fade, hmem, hv, colorsParsedFrom_of_validated suntimes zone now fade f hv⟩

/-! ## The selected brackets and `now` -/

/-- C34: in the zone `Europe/London` at `now` = 27 October 2024 00:30 local time,
the day on which the clocks go back, `setupAction` on the anchors `23:45` and
`00:15` selects `closestBefore` = `00:15` with `beforeTime` 1729984500000 and
`closestAfter` = `23:45` with `afterTime` 1729982700000, which is before `now`
and before that `beforeTime`: `Fade(closestBefore, closestAfter, now)` takes its
invalid-window branch and returns nothing, and `initialAction`, hence the input
handler, throws. -/
theorem input_throws_at_clock_change :
    setupAction londonEnv 1729985400000 londonMsg = .ready londonSetup {} ∧
    londonSetup.closestBefore.map (fun f => f.beforeTime) = some 1729984500000 ∧
    londonSetup.closestAfter.map (fun f => f.afterTime) = some 1729982700000 ∧
    ¬ (JSDate.valid londonSetup.now ≤ 1729982700000) ∧
    (∀ before ∈ londonSetup.closestBefore, ∀ after ∈ londonSetup.closestAfter,
      Fade before after londonSetup.now = none) ∧
    initialAction { enabled := [("lamp", true)] }
      { toSetupResult := londonSetup, topic := "lamp" } londonMsg = none ∧
    (input londonEnv 1729985400000 {} londonMsg).threw = true := by
  refine ⟨by decide!, by decide, by decide, by decide, ?_, by decide!, by decide!⟩
  intro before hb after ha
  cases hb
  cases ha
  decide!

end AdaptiveLighting
